import Mathlib

/-!
Verification of the rust-gds GDSII library (`src/lib.rs`, `src/constants.rs`,
`src/utils.rs`) against its natural-language specification.

Modelling conventions
* Rust `u16`/`u8` arithmetic is modelled with checked (overflow-is-a-panic)
  semantics: an operation that would overflow or underflow the sized integer
  yields `Option.none` (Rust debug builds panic there).  `as` casts, which are
  defined to truncate, are modelled by `% 2^w`.
* `usize` additions and multiplications are modelled on `ℕ` (a 64-bit `usize`
  cannot overflow for in-memory lists); `usize` subtraction is checked, since
  its underflow is reachable.
* Rust `String` values are modelled by their UTF-8 byte sequences
  (`List ℕ`), so `x.len()` is `List.length`.
* Rust `f32`/`f64` values are modelled as exact rationals `ℚ`.  The decoder
  and encoder of the record layer move real values around without arithmetic,
  so this is faithful there; the real-number codec of `utils.rs` is modelled
  over `ℚ` and is exact on the inputs the theorems below evaluate it at
  (no rounding occurs on those paths in `f64` either).
-/

namespace Gds

/-! ## Data model (`src/lib.rs` types) -/

/-- `Date` from `lib.rs`: six `i16` fields. -/
structure Date where
  year : ℤ
  month : ℤ
  day : ℤ
  hour : ℤ
  minute : ℤ
  second : ℤ
deriving DecidableEq, Repr

/-- `Date::new`: 1970-01-01 00:00:00. -/
def Date.new : Date := ⟨1970, 1, 1, 0, 0, 0⟩

/-- `ElementType` from `lib.rs`. -/
inductive ElementType where
  | none
  | boundary
  | path
  | structureRef
  | arrayRef
  | text
  | node
  | box
deriving DecidableEq, Repr

/-- `ElementParameter` from `lib.rs`.  `String(String)` is named `str` here. -/
inductive ElementParameter where
  | layer (x : ℤ)
  | xy (v : List (ℤ × ℤ))
  | datatype (x : ℤ)
  | width (x : ℤ)
  | structureName (s : List ℕ)
  | colRow (v : List ℤ)
  | textType (x : ℤ)
  | presentation (x : ℕ)
  | str (s : List ℕ)
  | strTransf (x : ℕ)
  | magnification (x : ℚ)
  | angle (x : ℚ)
  | pathtype (x : ℤ)
  | eFlags (x : ℕ)
  | nodetype (x : ℤ)
  | beginExt (x : ℤ)
deriving DecidableEq, Repr

/-- `Element` from `lib.rs`. -/
structure Element where
  element_type : ElementType
  parameters : List ElementParameter
deriving DecidableEq, Repr

/-- `Element::new`. -/
def Element.new : Element := ⟨ElementType.none, []⟩

/-- `Structure` from `lib.rs`. -/
structure Structure where
  name : List ℕ
  date_mod : Date
  date_acc : Date
  elements : List Element
deriving DecidableEq, Repr

/-- `Structure::new`. -/
def Structure.new : Structure := ⟨[], Date.new, Date.new, []⟩

/-- `Library` from `lib.rs`. -/
structure Library where
  version : ℤ
  name : List ℕ
  date_mod : Date
  date_acc : Date
  units_user : ℚ
  units_m : ℚ
  structures : List Structure
deriving DecidableEq, Repr

/-- `RecordData` from `lib.rs`.  `Str(String)` is named `str` here. -/
inductive RecordData where
  | none
  | bit (x : ℕ)
  | int16 (x : ℤ)
  | int32 (x : ℤ)
  | real32 (x : ℚ)
  | real64 (x : ℚ)
  | str (s : List ℕ)
deriving DecidableEq, Repr

/-- `Record` from `lib.rs`: `size` is a `u16`, the tags are `u8`. -/
structure Record where
  size : ℕ
  rec_type : ℕ
  data_type : ℕ
  data : List RecordData
deriving DecidableEq, Repr

/-! ## `src/constants.rs` -/

def REC_TYPE_HEADER : ℕ := 0x00
def REC_TYPE_BGNLIB : ℕ := 0x01
def REC_TYPE_LIBNAME : ℕ := 0x02
def REC_TYPE_UNITS : ℕ := 0x03
def REC_TYPE_ENDLIB : ℕ := 0x04
def REC_TYPE_BGNSTR : ℕ := 0x05
def REC_TYPE_STRNAME : ℕ := 0x06
def REC_TYPE_ENDSTR : ℕ := 0x07
def REC_TYPE_BOUNDARY : ℕ := 0x08
def REC_TYPE_PATH : ℕ := 0x09
def REC_TYPE_SREF : ℕ := 0x0A
def REC_TYPE_AREF : ℕ := 0x0B
def REC_TYPE_TEXT : ℕ := 0x0C
def REC_TYPE_LAYER : ℕ := 0x0D
def REC_TYPE_DATATYPE : ℕ := 0x0E
def REC_TYPE_WIDTH : ℕ := 0x0F
def REC_TYPE_XY : ℕ := 0x10
def REC_TYPE_ENDEL : ℕ := 0x11
def REC_TYPE_SNAME : ℕ := 0x12
def REC_TYPE_COLROW : ℕ := 0x13
def REC_TYPE_NODE : ℕ := 0x15
def REC_TYPE_TEXTTYPE : ℕ := 0x16
def REC_TYPE_PRESENTATION : ℕ := 0x17
def REC_TYPE_STRING : ℕ := 0x19
def REC_TYPE_STRANS : ℕ := 0x1A
def REC_TYPE_MAG : ℕ := 0x1B
def REC_TYPE_ANGLE : ℕ := 0x1C
def REC_TYPE_PATHTYPE : ℕ := 0x21
def REC_TYPE_BOX : ℕ := 0x2D
def REC_TYPE_EFLAGS : ℕ := 0x26
def REC_TYPE_NODETYPE : ℕ := 0x2A
def REC_TYPE_BGNEXTN : ℕ := 0x30

def DATA_TYPE_NONE : ℕ := 0x00
def DATA_TYPE_BIT : ℕ := 0x01
def DATA_TYPE_INT16 : ℕ := 0x02
def DATA_TYPE_INT32 : ℕ := 0x03
def DATA_TYPE_REAL32 : ℕ := 0x04
def DATA_TYPE_REAL64 : ℕ := 0x05
def DATA_TYPE_STR : ℕ := 0x06

/-- `constants::data_size`.  Note the catch-all arm maps the string data type
(and every unknown tag) to width 0. -/
def data_size (t : ℕ) : ℕ :=
  if t = DATA_TYPE_NONE then 0
  else if t = DATA_TYPE_BIT then 2
  else if t = DATA_TYPE_INT16 then 2
  else if t = DATA_TYPE_INT32 then 4
  else if t = DATA_TYPE_REAL32 then 4
  else if t = DATA_TYPE_REAL64 then 8
  else 0

/-! ## Record constructors and `update_size` (`lib.rs` lines 524-585) -/

/-- `Record::new`: `size = 4 + (data_size(data_type) * data.len()) as u16`.
The cast truncates mod 2^16; the `u16` addition is checked. -/
def Record.recNew (rec_type data_type : ℕ) (data : List RecordData) : Option Record :=
  if 4 + data_size data_type * data.length % 65536 ≤ 65535 then
    some ⟨4 + data_size data_type * data.length % 65536, rec_type, data_type, data⟩
  else none

/-- `Record::new_none`: size 4, data type `DATA_TYPE_NONE`, data `[None]`. -/
def Record.new_none (rec_type : ℕ) : Record :=
  ⟨4, rec_type, DATA_TYPE_NONE, [RecordData.none]⟩

/-- `Record::update_size`: reset `size` to 4, then for the string data type add
each `Str` value's byte length (`x.len() as u16`, checked `u16` addition),
otherwise add `(data_size * len) as u16`. -/
def Record.update_size (r : Record) : Option Record :=
  if r.data_type = DATA_TYPE_STR then
    (r.data.foldlM
      (fun sz d =>
        match d with
        | RecordData.str s =>
            if sz + s.length % 65536 ≤ 65535 then some (sz + s.length % 65536) else none
        | _ => some sz)
      4).map fun sz => { r with size := sz }
  else
    if 4 + data_size r.data_type * r.data.length % 65536 ≤ 65535 then
      some { r with size := 4 + data_size r.data_type * r.data.length % 65536 }
    else none

/-- `Record::new_single`: build with the single datum, then `update_size`. -/
def Record.new_single (rec_type data_type : ℕ) (d : RecordData) : Option Record :=
  Record.update_size ⟨0, rec_type, data_type, [d]⟩

/-- `Record::push_data`: append the datum, then `update_size`. -/
def Record.push_data (r : Record) (d : RecordData) : Option Record :=
  Record.update_size { r with data := r.data ++ [d] }

/-- Total byte length of the `Str` values in a data list. -/
def strLenSum (data : List RecordData) : ℕ :=
  (data.map fun d => match d with | RecordData.str s => s.length | _ => 0).sum

/-- The payload byte length the specification assigns to a record: for the
string data type the raw byte length of the string values, otherwise the
element width times the value count.  (This definition follows the spec's
words; the theorems below compare the constructors against it.) -/
def specPayloadLen (data_type : ℕ) (data : List RecordData) : ℕ :=
  if data_type = DATA_TYPE_STR then strLenSum data
  else data_size data_type * data.length

/-! ## Byte helpers (`src/utils.rs` integer conversions, big-endian) -/

/-- Big-endian value of a byte list: `BigEndian::read_uNN`. -/
def beNat (l : List ℕ) : ℕ := l.foldl (fun a b => a * 256 + b % 256) 0

/-- Two's-complement reading of a 16-bit unsigned value as `i16`. -/
def toI16 (u : ℕ) : ℤ := if u % 65536 < 32768 then (u % 65536 : ℤ) else (u % 65536 : ℤ) - 65536

/-- Two's-complement reading of a 32-bit unsigned value as `i32`. -/
def toI32 (u : ℕ) : ℤ :=
  if u % 4294967296 < 2147483648 then (u % 4294967296 : ℤ) else (u % 4294967296 : ℤ) - 4294967296

/-- `BigEndian::write` of `x` into `n` bytes, most significant first. -/
def beBytes (n x : ℕ) : List ℕ := (List.range n).map fun i => x / 256 ^ (n - 1 - i) % 256

/-! ## The excess-64 base-16 real codec (`src/utils.rs`), over exact rationals -/

/-- `utils::bytes_to_gds_real`: sign bit, 7-bit exponent biased by `64 + 14`,
7 mantissa bytes read as a big-endian integer. -/
def bytes_to_gds_real (bytes : List ℕ) : ℚ :=
  let b0 := bytes.getD 0 0 % 256
  let exp : ℤ := (b0 % 128 : ℤ) - 64 - 14
  let man : ℚ := (beNat (bytes.take 8).tail : ℚ)
  if b0 < 128 then man * (16 : ℚ) ^ exp else -(man * (16 : ℚ) ^ exp)

/-- `utils::bytes_to_gds_real32`: as `bytes_to_gds_real` with bias `64 + 6`
and 3 mantissa bytes. -/
def bytes_to_gds_real32 (bytes : List ℕ) : ℚ :=
  let b0 := bytes.getD 0 0 % 256
  let exp : ℤ := (b0 % 128 : ℤ) - 64 - 6
  let man : ℚ := (beNat (bytes.take 4).tail : ℚ)
  if b0 < 128 then man * (16 : ℚ) ^ exp else -(man * (16 : ℚ) ^ exp)

/-- The first normalization loop of `gds_real_to_bytes`:
`while man > 1 { man /= 16.; exp += 1; }` with `exp : u8` checked.
Termination comes from the checked `u8` increment: `exp` reaches 255 after
finitely many steps and the increment then panics (`none`). -/
def normUp (man : ℚ) (exp : ℕ) : Option (ℚ × ℕ) :=
  if 1 < man then
    if 255 ≤ exp then none else normUp (man / 16) (exp + 1)
  else
    some (man, exp)
termination_by 255 - exp
decreasing_by omega

/-- The second normalization loop of `gds_real_to_bytes`:
`while man < 1./16. { man *= 16.; exp -= 1; }` with `exp : u8` checked.
Termination comes from the checked `u8` decrement panicking at 0. -/
def normDown (man : ℚ) (exp : ℕ) : Option (ℚ × ℕ) :=
  if man < 1 / 16 then
    if exp = 0 then none else normDown (man * 16) (exp - 1)
  else
    some (man, exp)
termination_by exp
decreasing_by omega

/-- `utils::gds_real_to_bytes` over `ℚ`: normalize `|r|` into `[1/16, 1]`
(skipped when zero), truncate `man * 16^14` to an unsigned integer, emit the
sign-and-exponent byte followed by the low 7 mantissa bytes. -/
def gds_real_to_bytes (r : ℚ) : Option (List ℕ) := do
  let exp : ℕ := 64
  let man : ℚ := |r|
  let (man, exp) ←
    if man ≠ 0 then do
      let (m, e) ← normUp man exp
      normDown m e
    else pure (man, exp)
  let manInt : ℕ := (man * 16 ^ 14).floor.toNat
  let man_arr := beBytes 8 manInt
  let expByte := if r < 0 then 128 + exp % 128 else exp % 128
  pure (expByte :: man_arr.tail)

/-- `utils::gds_real_32_to_bytes` over `ℚ`: as `gds_real_to_bytes` with a
6-hex-digit mantissa packed into 3 bytes. -/
def gds_real_32_to_bytes (r : ℚ) : Option (List ℕ) := do
  let exp : ℕ := 64
  let man : ℚ := |r|
  let (man, exp) ←
    if man ≠ 0 then do
      let (m, e) ← normUp man exp
      normDown m e
    else pure (man, exp)
  let manInt : ℕ := (man * 16 ^ 6).floor.toNat
  let man_arr := beBytes 4 manInt
  let expByte := if r < 0 then 128 + exp % 128 else exp % 128
  pure (expByte :: man_arr.tail)

/-! ## The decoder state machine of `Library::read` (`lib.rs` lines 239-450)

`Library::read` is a loop that reads one `Record` at a time and folds it into
mutable accumulators (library fields, one in-progress `Structure`, one
in-progress `Element`).  The loop is modelled here over the stream of decoded
records: one `stepRecord` per non-ENDLIB record (`none` models a panic), with
`decodeRecords` folding a record list, returning `.diverge` when the list is
exhausted without `ENDLIB` (the Rust loop then blocks forever rereading
end-of-stream). -/

/-- The accumulator state of the `Library::read` loop. -/
structure DecSt where
  version : ℤ
  name : List ℕ
  date_mod : Date
  date_acc : Date
  units_user : ℚ
  units_m : ℚ
  structures : List Structure
  stru : Structure
  elem : Element
deriving DecidableEq, Repr

/-- The initial accumulator state of `Library::read`. -/
def initSt : DecSt :=
  ⟨0, [], Date.new, Date.new, 0, 0, [], Structure.new, Element.new⟩

/-- `match rec.data.get(i) { Some(&RecordData::Int16(x)) => x, _ => 0 }`. -/
def getI16 (d : List RecordData) (i : ℕ) : ℤ :=
  match d[i]? with
  | some (RecordData.int16 x) => x
  | _ => 0

/-- `match rec.data.get(i) { Some(&RecordData::Int32(x)) => x, _ => 0 }`. -/
def getI32 (d : List RecordData) (i : ℕ) : ℤ :=
  match d[i]? with
  | some (RecordData.int32 x) => x
  | _ => 0

/-- `match rec.data.get(i) { Some(&RecordData::Real64(x)) => x, _ => 0. }`. -/
def getReal64 (d : List RecordData) (i : ℕ) : ℚ :=
  match d[i]? with
  | some (RecordData.real64 x) => x
  | _ => 0

/-- `match rec.data.get(i) { Some(&RecordData::Str(ref x)) => x.clone(), _ => "" }`. -/
def getStr (d : List RecordData) (i : ℕ) : List ℕ :=
  match d[i]? with
  | some (RecordData.str s) => s
  | _ => []

/-- Six consecutive `d_data` slots starting at `off`, as a `Date`
(the BGNLIB/BGNSTR arms fill `d_data[i]` with `getI16 data i`). -/
def dateFrom (d : List RecordData) (off : ℕ) : Date :=
  ⟨getI16 d off, getI16 d (off + 1), getI16 d (off + 2), getI16 d (off + 3),
    getI16 d (off + 4), getI16 d (off + 5)⟩

/-- The XY arm's loop: `while c < (rec.data.len() - 1)` collect the pair at
`(c, c+1)` (defaulting each non-`Int32` slot to 0) and step `c` by 2.
The structural `fuel` argument is a loop clock: the caller passes
`d.length`, which is at least the iteration count, so the `fuel = 0` arm is
never reached from the call site.  The caller guards `rec.data.len() = 0`,
where the Rust `usize` subtraction in the loop condition underflows. -/
def xyLoop (d : List RecordData) : ℕ → ℕ → List (ℤ × ℤ)
  | 0, _ => []
  | fuel + 1, c =>
      if c < d.length - 1 then (getI32 d c, getI32 d (c + 1)) :: xyLoop d fuel (c + 2) else []

/-- The COLROW arm's loop: `while c < (rec.data.len() - 1)` collect the
`Int16` at `c` (default 0) and step `c` by 1.  Same clock and underflow
guard as `xyLoop`. -/
def colLoop (d : List RecordData) : ℕ → ℕ → List ℤ
  | 0, _ => []
  | fuel + 1, c =>
      if c < d.length - 1 then getI16 d c :: colLoop d fuel (c + 1) else []

/-- Append a parameter to the in-progress element. -/
def pushParam (st : DecSt) (p : ElementParameter) : DecSt :=
  { st with elem := { st.elem with parameters := st.elem.parameters ++ [p] } }

/-- One iteration of the `Library::read` dispatch for a non-ENDLIB record,
arm for arm in source order.  `none` models the panic of the `usize`
underflow in the XY/COLROW arms on a record with no data values. -/
def stepRecord (rec : Record) (st : DecSt) : Option DecSt :=
  if rec.rec_type = REC_TYPE_BGNLIB then
    some { st with date_mod := dateFrom rec.data 0, date_acc := dateFrom rec.data 6 }
  else if rec.rec_type = REC_TYPE_HEADER then
    some { st with version := getI16 rec.data 0 }
  else if rec.rec_type = REC_TYPE_LIBNAME then
    some { st with name := getStr rec.data 0 }
  else if rec.rec_type = REC_TYPE_UNITS then
    some { st with units_user := getReal64 rec.data 0, units_m := getReal64 rec.data 1 }
  else if rec.rec_type = REC_TYPE_BGNSTR then
    some { st with stru :=
      { st.stru with date_mod := dateFrom rec.data 0, date_acc := dateFrom rec.data 6 } }
  else if rec.rec_type = REC_TYPE_ENDSTR then
    some { st with structures := st.structures ++ [st.stru], stru := Structure.new }
  else if rec.rec_type = REC_TYPE_STRNAME then
    some { st with stru := { st.stru with name := getStr rec.data 0 } }
  else if rec.rec_type = REC_TYPE_BOUNDARY then
    some { st with elem := { st.elem with element_type := ElementType.boundary } }
  else if rec.rec_type = REC_TYPE_PATH then
    some { st with elem := { st.elem with element_type := ElementType.path } }
  else if rec.rec_type = REC_TYPE_SREF then
    some { st with elem := { st.elem with element_type := ElementType.structureRef } }
  else if rec.rec_type = REC_TYPE_AREF then
    some { st with elem := { st.elem with element_type := ElementType.arrayRef } }
  else if rec.rec_type = REC_TYPE_TEXT then
    some { st with elem := { st.elem with element_type := ElementType.text } }
  else if rec.rec_type = REC_TYPE_NODE then
    some { st with elem := { st.elem with element_type := ElementType.node } }
  else if rec.rec_type = REC_TYPE_BOX then
    some { st with elem := { st.elem with element_type := ElementType.box } }
  else if rec.rec_type = REC_TYPE_LAYER then
    match rec.data[0]? with
    | some (RecordData.int16 x) => some (pushParam st (ElementParameter.layer x))
    | _ => some st
  else if rec.rec_type = REC_TYPE_XY then
    if rec.data.length = 0 then none
    else some (pushParam st (ElementParameter.xy (xyLoop rec.data rec.data.length 0)))
  else if rec.rec_type = REC_TYPE_DATATYPE then
    match rec.data[0]? with
    | some (RecordData.int16 x) => some (pushParam st (ElementParameter.datatype x))
    | _ => some st
  else if rec.rec_type = REC_TYPE_WIDTH then
    match rec.data[0]? with
    | some (RecordData.int32 x) => some (pushParam st (ElementParameter.width x))
    | _ => some st
  else if rec.rec_type = REC_TYPE_SNAME then
    match rec.data[0]? with
    | some (RecordData.str s) => some (pushParam st (ElementParameter.structureName s))
    | _ => some st
  else if rec.rec_type = REC_TYPE_COLROW then
    if rec.data.length = 0 then none
    else some (pushParam st (ElementParameter.colRow (colLoop rec.data rec.data.length 0)))
  else if rec.rec_type = REC_TYPE_TEXTTYPE then
    match rec.data[0]? with
    | some (RecordData.int16 x) => some (pushParam st (ElementParameter.textType x))
    | _ => some st
  else if rec.rec_type = REC_TYPE_PRESENTATION then
    match rec.data[0]? with
    | some (RecordData.bit x) => some (pushParam st (ElementParameter.presentation x))
    | _ => some st
  else if rec.rec_type = REC_TYPE_STRING then
    match rec.data[0]? with
    | some (RecordData.str s) => some (pushParam st (ElementParameter.str s))
    | _ => some st
  else if rec.rec_type = REC_TYPE_STRANS then
    match rec.data[0]? with
    | some (RecordData.bit x) => some (pushParam st (ElementParameter.strTransf x))
    | _ => some st
  else if rec.rec_type = REC_TYPE_MAG then
    match rec.data[0]? with
    | some (RecordData.real64 x) => some (pushParam st (ElementParameter.magnification x))
    | _ => some st
  else if rec.rec_type = REC_TYPE_ANGLE then
    match rec.data[0]? with
    | some (RecordData.real64 x) => some (pushParam st (ElementParameter.angle x))
    | _ => some st
  else if rec.rec_type = REC_TYPE_PATHTYPE then
    match rec.data[0]? with
    | some (RecordData.int16 x) => some (pushParam st (ElementParameter.pathtype x))
    | _ => some st
  else if rec.rec_type = REC_TYPE_EFLAGS then
    match rec.data[0]? with
    | some (RecordData.bit x) => some (pushParam st (ElementParameter.eFlags x))
    | _ => some st
  else if rec.rec_type = REC_TYPE_NODETYPE then
    match rec.data[0]? with
    | some (RecordData.int16 x) => some (pushParam st (ElementParameter.nodetype x))
    | _ => some st
  else if rec.rec_type = REC_TYPE_BGNEXTN then
    match rec.data[0]? with
    | some (RecordData.int32 x) => some (pushParam st (ElementParameter.beginExt x))
    | _ => some st
  else if rec.rec_type = REC_TYPE_ENDEL then
    some { st with
      stru := { st.stru with elements := st.stru.elements ++ [st.elem] }
      elem := Element.new }
  else
    some st

/-- Build the returned `Library` from the accumulated fields (the code after
the loop of `Library::read`). -/
def finalize (st : DecSt) : Library :=
  ⟨st.version, st.name, st.date_mod, st.date_acc, st.units_user, st.units_m, st.structures⟩

/-- Outcome of running the `Library::read` loop on a record stream. -/
inductive DecOutcome where
  | ok (L : Library)
  | panic
  | diverge
deriving DecidableEq, Repr

/-- The `Library::read` loop over a list of records: `ENDLIB` breaks and
finalizes, a panicking step aborts, and exhausting the stream without
`ENDLIB` leaves the Rust loop reading end-of-stream forever (`diverge`). -/
def decodeRecords : List Record → DecSt → DecOutcome
  | [], _ => DecOutcome.diverge
  | r :: rs, st =>
      if r.rec_type = REC_TYPE_ENDLIB then DecOutcome.ok (finalize st)
      else
        match stepRecord r st with
        | some st' => decodeRecords rs st'
        | none => DecOutcome.panic

/-- Run `stepRecord` over a record list (no ENDLIB handling). -/
def runAll : List Record → DecSt → Option DecSt
  | [], st => some st
  | r :: rs, st => (stepRecord r st).bind (runAll rs)

/-! ## The encoder: `Element::to_records` and `Library::write` (record level) -/

/-- The record-type tag emitted for an element type (the `match` opening
`Element::to_records`); `None` maps to tag 0. -/
def elemTag : ElementType → ℕ
  | ElementType.boundary => REC_TYPE_BOUNDARY
  | ElementType.path => REC_TYPE_PATH
  | ElementType.structureRef => REC_TYPE_SREF
  | ElementType.arrayRef => REC_TYPE_AREF
  | ElementType.text => REC_TYPE_TEXT
  | ElementType.node => REC_TYPE_NODE
  | ElementType.box => REC_TYPE_BOX
  | ElementType.none => 0

/-- The one record `Element::to_records` emits per parameter. -/
def paramRecord : ElementParameter → Option Record
  | ElementParameter.layer x =>
      Record.new_single REC_TYPE_LAYER DATA_TYPE_INT16 (RecordData.int16 x)
  | ElementParameter.xy v =>
      Record.recNew REC_TYPE_XY DATA_TYPE_INT32
        (v.flatMap fun p => [RecordData.int32 p.1, RecordData.int32 p.2])
  | ElementParameter.datatype x =>
      Record.new_single REC_TYPE_DATATYPE DATA_TYPE_INT16 (RecordData.int16 x)
  | ElementParameter.width x =>
      Record.new_single REC_TYPE_WIDTH DATA_TYPE_INT32 (RecordData.int32 x)
  | ElementParameter.structureName s =>
      Record.new_single REC_TYPE_SNAME DATA_TYPE_STR (RecordData.str s)
  | ElementParameter.colRow v =>
      Record.recNew REC_TYPE_COLROW DATA_TYPE_INT16 (v.map fun x => RecordData.int16 x)
  | ElementParameter.textType x =>
      Record.new_single REC_TYPE_TEXTTYPE DATA_TYPE_INT16 (RecordData.int16 x)
  | ElementParameter.presentation x =>
      Record.new_single REC_TYPE_PRESENTATION DATA_TYPE_BIT (RecordData.bit x)
  | ElementParameter.str s =>
      Record.new_single REC_TYPE_STRING DATA_TYPE_STR (RecordData.str s)
  | ElementParameter.strTransf x =>
      Record.new_single REC_TYPE_STRANS DATA_TYPE_BIT (RecordData.bit x)
  | ElementParameter.magnification x =>
      Record.new_single REC_TYPE_MAG DATA_TYPE_REAL64 (RecordData.real64 x)
  | ElementParameter.angle x =>
      Record.new_single REC_TYPE_ANGLE DATA_TYPE_REAL64 (RecordData.real64 x)
  | ElementParameter.pathtype x =>
      Record.new_single REC_TYPE_PATHTYPE DATA_TYPE_INT16 (RecordData.int16 x)
  | ElementParameter.eFlags x =>
      Record.new_single REC_TYPE_EFLAGS DATA_TYPE_BIT (RecordData.bit x)
  | ElementParameter.nodetype x =>
      Record.new_single REC_TYPE_NODETYPE DATA_TYPE_INT16 (RecordData.int16 x)
  | ElementParameter.beginExt x =>
      Record.new_single REC_TYPE_BGNEXTN DATA_TYPE_INT32 (RecordData.int32 x)

/-- `Date::to_record_data`: the six fields as `Int16` record data. -/
def Date.to_record_data (d : Date) : List RecordData :=
  [RecordData.int16 d.year, RecordData.int16 d.month, RecordData.int16 d.day,
    RecordData.int16 d.hour, RecordData.int16 d.minute, RecordData.int16 d.second]

/-- `Element::to_records`: the element-type tag record, one record per
parameter in order, then ENDEL. -/
def Element.to_records (e : Element) : Option (List Record) := do
  let prs ← e.parameters.mapM paramRecord
  pure (Record.new_none (elemTag e.element_type) :: (prs ++ [Record.new_none REC_TYPE_ENDEL]))

/-- The records `Library::write` emits for one structure: BGNSTR with the two
dates, STRNAME, the element records, ENDSTR. -/
def Structure.to_records (s : Structure) : Option (List Record) := do
  let b ← Record.recNew REC_TYPE_BGNSTR DATA_TYPE_INT16
    (s.date_mod.to_record_data ++ s.date_acc.to_record_data)
  let n ← Record.new_single REC_TYPE_STRNAME DATA_TYPE_STR (RecordData.str s.name)
  let els ← s.elements.mapM Element.to_records
  pure (b :: n :: (els.flatten ++ [Record.new_none REC_TYPE_ENDSTR]))

/-- `Library::write`, at the record level: the ordered record list the method
builds before serializing it (HEADER, BGNLIB, LIBNAME, UNITS, the structure
records, ENDLIB).  `none` models a panic in a record-size computation. -/
def Library.write (L : Library) : Option (List Record) := do
  let hdr ← Record.new_single REC_TYPE_HEADER DATA_TYPE_INT16 (RecordData.int16 L.version)
  let bgn ← Record.recNew REC_TYPE_BGNLIB DATA_TYPE_INT16
    (L.date_mod.to_record_data ++ L.date_acc.to_record_data)
  let nm ← Record.new_single REC_TYPE_LIBNAME DATA_TYPE_STR (RecordData.str L.name)
  let un ← Record.recNew REC_TYPE_UNITS DATA_TYPE_REAL64
    [RecordData.real64 L.units_user, RecordData.real64 L.units_m]
  let strus ← L.structures.mapM Structure.to_records
  pure (hdr :: bgn :: nm :: un :: (strus.flatten ++ [Record.new_none REC_TYPE_ENDLIB]))

/-! ## Round-trip side conditions (claim C1) -/

/-- Parameters the decoder reconstructs exactly: every parameter except
`ColRow` (whose decode loop drops the last value) and the empty `XY`
(whose decode arm panics on the length underflow). -/
def okParam : ElementParameter → Prop
  | ElementParameter.xy v => v ≠ []
  | ElementParameter.colRow _ => False
  | _ => True

instance (p : ElementParameter) : Decidable (okParam p) := by
  cases p <;> simp only [okParam] <;> infer_instance

/-- An element the decoder reconstructs exactly: a real (non-`None`) type tag
(`None` emits tag 0, which the decoder dispatches as HEADER and clobbers the
version) and reconstructible parameters. -/
def goodElem (e : Element) : Prop :=
  e.element_type ≠ ElementType.none ∧ ∀ p ∈ e.parameters, okParam p

instance (e : Element) : Decidable (goodElem e) := by
  unfold goodElem; infer_instance

/-- A structure whose elements all round-trip. -/
def goodStru (s : Structure) : Prop := ∀ e ∈ s.elements, goodElem e

instance (s : Structure) : Decidable (goodStru s) := by
  unfold goodStru; infer_instance

/-- A library whose structures all round-trip. -/
def goodLib (L : Library) : Prop := ∀ s ∈ L.structures, goodStru s

instance (L : Library) : Decidable (goodLib L) := by
  unfold goodLib; infer_instance

/-- The flattened `Int32` data of an XY parameter, as `Element::to_records`
emits it. -/
def flatXY (v : List (ℤ × ℤ)) : List RecordData :=
  v.flatMap fun p => [RecordData.int32 p.1, RecordData.int32 p.2]

/-- A concrete library holding one `ColRow([2,3])` parameter. -/
def ceLib : Library :=
  ⟨5, [76, 73, 66, 49], Date.new, Date.new, 0, 0,
    [⟨[84, 79, 80], Date.new, Date.new,
      [⟨ElementType.arrayRef, [ElementParameter.colRow [2, 3]]⟩]⟩]⟩

/-- What the decoder actually reconstructs from `ceLib`'s record stream: the
COLROW loop (`while c < len - 1` with `c += 1`) drops the last value. -/
def ceLibDecoded : Library :=
  ⟨5, [76, 73, 66, 49], Date.new, Date.new, 0, 0,
    [⟨[84, 79, 80], Date.new, Date.new,
      [⟨ElementType.arrayRef, [ElementParameter.colRow [2]]⟩]⟩]⟩

/-- The minimal concrete scenario of the spec: version 5, name "LIB1", one
structure "TOP" with one Boundary element carrying `Layer(1)` and a five
point `XY` parameter (unit scalars 0, a value the real codec reproduces
exactly). -/
def exLib : Library :=
  ⟨5, [76, 73, 66, 49], Date.new, Date.new, 0, 0,
    [⟨[84, 79, 80], Date.new, Date.new,
      [⟨ElementType.boundary,
        [ElementParameter.layer 1,
          ElementParameter.xy [(0, 0), (100, 0), (100, 100), (0, 100), (0, 0)]]⟩]⟩]⟩

/-- The record list `Library::write` builds for `ceLib` (checked below by
`decide` against `Library.write`). -/
def ceRecs : List Record :=
  [⟨6, 0, 2, [RecordData.int16 5]⟩,
    ⟨28, 1, 2, [RecordData.int16 1970, RecordData.int16 1, RecordData.int16 1,
      RecordData.int16 0, RecordData.int16 0, RecordData.int16 0, RecordData.int16 1970,
      RecordData.int16 1, RecordData.int16 1, RecordData.int16 0, RecordData.int16 0,
      RecordData.int16 0]⟩,
    ⟨8, 2, 6, [RecordData.str [76, 73, 66, 49]]⟩,
    ⟨20, 3, 5, [RecordData.real64 0, RecordData.real64 0]⟩,
    ⟨28, 5, 2, [RecordData.int16 1970, RecordData.int16 1, RecordData.int16 1,
      RecordData.int16 0, RecordData.int16 0, RecordData.int16 0, RecordData.int16 1970,
      RecordData.int16 1, RecordData.int16 1, RecordData.int16 0, RecordData.int16 0,
      RecordData.int16 0]⟩,
    ⟨7, 6, 6, [RecordData.str [84, 79, 80]]⟩,
    ⟨4, 11, 0, [RecordData.none]⟩,
    ⟨8, 19, 2, [RecordData.int16 2, RecordData.int16 3]⟩,
    ⟨4, 17, 0, [RecordData.none]⟩,
    ⟨4, 7, 0, [RecordData.none]⟩,
    ⟨4, 4, 0, [RecordData.none]⟩]

/-- The record list `Library::write` builds for `exLib` (checked below by
`decide` against `Library.write`). -/
def exRecs : List Record :=
  [⟨6, 0, 2, [RecordData.int16 5]⟩,
    ⟨28, 1, 2, [RecordData.int16 1970, RecordData.int16 1, RecordData.int16 1,
      RecordData.int16 0, RecordData.int16 0, RecordData.int16 0, RecordData.int16 1970,
      RecordData.int16 1, RecordData.int16 1, RecordData.int16 0, RecordData.int16 0,
      RecordData.int16 0]⟩,
    ⟨8, 2, 6, [RecordData.str [76, 73, 66, 49]]⟩,
    ⟨20, 3, 5, [RecordData.real64 0, RecordData.real64 0]⟩,
    ⟨28, 5, 2, [RecordData.int16 1970, RecordData.int16 1, RecordData.int16 1,
      RecordData.int16 0, RecordData.int16 0, RecordData.int16 0, RecordData.int16 1970,
      RecordData.int16 1, RecordData.int16 1, RecordData.int16 0, RecordData.int16 0,
      RecordData.int16 0]⟩,
    ⟨7, 6, 6, [RecordData.str [84, 79, 80]]⟩,
    ⟨4, 8, 0, [RecordData.none]⟩,
    ⟨6, 13, 2, [RecordData.int16 1]⟩,
    ⟨44, 16, 3, [RecordData.int32 0, RecordData.int32 0, RecordData.int32 100,
      RecordData.int32 0, RecordData.int32 100, RecordData.int32 100, RecordData.int32 0,
      RecordData.int32 100, RecordData.int32 0, RecordData.int32 0]⟩,
    ⟨4, 17, 0, [RecordData.none]⟩,
    ⟨4, 7, 0, [RecordData.none]⟩,
    ⟨4, 4, 0, [RecordData.none]⟩]

/-- A concrete empty library: version 7, name "LIB", zero units. -/
def c8Lib : Library := ⟨7, [76, 73, 66], Date.new, Date.new, 0, 0, []⟩

/-- The record list `Library::write` builds for `c8Lib` (checked below by
`decide` against `Library.write`). -/
def c8Recs : List Record :=
  [⟨6, 0, 2, [RecordData.int16 7]⟩,
    ⟨28, 1, 2, [RecordData.int16 1970, RecordData.int16 1, RecordData.int16 1,
      RecordData.int16 0, RecordData.int16 0, RecordData.int16 0, RecordData.int16 1970,
      RecordData.int16 1, RecordData.int16 1, RecordData.int16 0, RecordData.int16 0,
      RecordData.int16 0]⟩,
    ⟨7, 2, 6, [RecordData.str [76, 73, 66]]⟩,
    ⟨20, 3, 5, [RecordData.real64 0, RecordData.real64 0]⟩,
    ⟨4, 4, 0, [RecordData.none]⟩]

/-- The per-record bytes `Record::write` emits for `ceRecs` (proved below
record for record). -/
def ceBss : List (List ℕ) :=
  [[0, 6, 0, 2, 0, 5],
    [0, 28, 1, 2, 7, 178, 0, 1, 0, 1, 0, 0, 0, 0, 0, 0, 7, 178, 0, 1, 0, 1, 0, 0, 0, 0, 0, 0],
    [0, 8, 2, 6, 76, 73, 66, 49],
    [0, 20, 3, 5, 64, 0, 0, 0, 0, 0, 0, 0, 64, 0, 0, 0, 0, 0, 0, 0],
    [0, 28, 5, 2, 7, 178, 0, 1, 0, 1, 0, 0, 0, 0, 0, 0, 7, 178, 0, 1, 0, 1, 0, 0, 0, 0, 0, 0],
    [0, 7, 6, 6, 84, 79, 80],
    [0, 4, 11, 0],
    [0, 8, 19, 2, 0, 2, 0, 3],
    [0, 4, 17, 0],
    [0, 4, 7, 0],
    [0, 4, 4, 0]]

/-- The per-record bytes `Record::write` emits for `exRecs`. -/
def exBss : List (List ℕ) :=
  [[0, 6, 0, 2, 0, 5],
    [0, 28, 1, 2, 7, 178, 0, 1, 0, 1, 0, 0, 0, 0, 0, 0, 7, 178, 0, 1, 0, 1, 0, 0, 0, 0, 0, 0],
    [0, 8, 2, 6, 76, 73, 66, 49],
    [0, 20, 3, 5, 64, 0, 0, 0, 0, 0, 0, 0, 64, 0, 0, 0, 0, 0, 0, 0],
    [0, 28, 5, 2, 7, 178, 0, 1, 0, 1, 0, 0, 0, 0, 0, 0, 7, 178, 0, 1, 0, 1, 0, 0, 0, 0, 0, 0],
    [0, 7, 6, 6, 84, 79, 80],
    [0, 4, 8, 0],
    [0, 6, 13, 2, 0, 1],
    [0, 44, 16, 3, 0, 0, 0, 0, 0, 0, 0, 0, 0, 0, 0, 100, 0, 0, 0, 0, 0, 0, 0, 100, 0, 0, 0,
      100, 0, 0, 0, 0, 0, 0, 0, 100, 0, 0, 0, 0, 0, 0, 0, 0],
    [0, 4, 17, 0],
    [0, 4, 7, 0],
    [0, 4, 4, 0]]

/-- The per-record bytes `Record::write` emits for `c8Recs`. -/
def c8Bss : List (List ℕ) :=
  [[0, 6, 0, 2, 0, 7],
    [0, 28, 1, 2, 7, 178, 0, 1, 0, 1, 0, 0, 0, 0, 0, 0, 7, 178, 0, 1, 0, 1, 0, 0, 0, 0, 0, 0],
    [0, 7, 2, 6, 76, 73, 66],
    [0, 20, 3, 5, 64, 0, 0, 0, 0, 0, 0, 0, 64, 0, 0, 0, 0, 0, 0, 0],
    [0, 4, 4, 0]]

/-! ## The byte-level record reader (`Record::read`, `lib.rs` lines 588-649)

`Record::read` pulls bytes from the backing file.  The byte source is
modelled as a function from stream position to byte, with the reader
returning the decoded record and the next position. -/

/-- One byte of the backing stream. -/
def readByte (f : ℕ → ℕ) (pos : ℕ) : ℕ := f pos % 256

/-- `n` consecutive stream bytes starting at `pos`. -/
def readBytes (f : ℕ → ℕ) (pos n : ℕ) : List ℕ :=
  (List.range n).map fun i => readByte f (pos + i)

/-- Big-endian `u16` from two bytes (`BigEndian::read_u16`). -/
def be16 (a b : ℕ) : ℕ := a * 256 + b

/-- Outcome of a payload-reading loop: decoded payload and next position,
panic, or divergence. -/
inductive LoopRes (α : Type) where
  | ok (a : α) (pos : ℕ)
  | panic
  | diverge
deriving DecidableEq, Repr

/-- The string branch of `Record::read`: read one byte at a time, increment
the checked `u16` byte counter (`byte_counter += 1` panics at 65535), exit
when it equals the declared size.  The structural `gas` argument carries
`65536 - counter`; the entry point passes `gas = 65532`, `counter = 4`, and
the overflow panic strikes at `counter = 65535` (`gas = 1`), so the
`gas = 0` arm is unreachable. -/
def strLoop (f : ℕ → ℕ) (size : ℕ) : ℕ → ℕ → ℕ → List ℕ → LoopRes (List ℕ)
  | 0, _, _, _ => LoopRes.panic
  | gas + 1, counter, pos, acc =>
      if counter = 65535 then LoopRes.panic
      else if counter + 1 = size then LoopRes.ok (acc ++ [readByte f pos]) (pos + 1)
      else strLoop f size gas (counter + 1) (pos + 1) (acc ++ [readByte f pos])

/-- The `match data_type` of the fixed-width branch: decode one value from
the element bytes just read; unknown data-type tags decode nothing. -/
def parseData (dt : ℕ) (bs : List ℕ) : Option RecordData :=
  if dt = DATA_TYPE_BIT then
    some (RecordData.bit (be16 (bs.getD 0 0) (bs.getD 1 0)))
  else if dt = DATA_TYPE_INT16 then
    some (RecordData.int16 (toI16 (be16 (bs.getD 0 0) (bs.getD 1 0))))
  else if dt = DATA_TYPE_INT32 then
    some (RecordData.int32 (toI32 (beNat (bs.take 4))))
  else if dt = DATA_TYPE_REAL32 then
    some (RecordData.real32 (bytes_to_gds_real32 (bs.take 4)))
  else if dt = DATA_TYPE_REAL64 then
    some (RecordData.real64 (bytes_to_gds_real (bs.take 8)))
  else none

/-- The fixed-width branch of `Record::read` (`w = data_size(data_type)` is
computed once before the loop): read `w` bytes, decode one value, advance
the checked `u16` counter (`byte_counter += w`), exit at `counter = size`;
if one more element would overrun (`counter + w > size`, itself a checked
`u16` addition), consume the remaining `size - counter` bytes — a checked
`u16` subtraction that panics when `size < counter` — and exit.  When
`w = 0` and no exit applies the loop repeats an identical state, which is
the Rust loop running forever (`diverge`).
`pushParsed` is the per-iteration payload push: decode one value from the
bytes just read and append it (nothing for an unknown data-type tag). -/
def pushParsed (dt : ℕ) (acc : List RecordData) (bs : List ℕ) : List RecordData :=
  match parseData dt bs with
  | some v => acc ++ [v]
  | none => acc

/-- The loop itself; see `pushParsed` above. -/
def fixedLoop (f : ℕ → ℕ) (size dt w : ℕ) (counter pos : ℕ) (acc : List RecordData) :
    LoopRes (List RecordData) :=
  if counter + w > 65535 then LoopRes.panic
  else if counter + w = size then LoopRes.ok (pushParsed dt acc (readBytes f pos w)) (pos + w)
  else if counter + w + w > 65535 then LoopRes.panic
  else if counter + w + w > size then
    if size < counter + w then LoopRes.panic
    else LoopRes.ok (pushParsed dt acc (readBytes f pos w)) (pos + w + (size - (counter + w)))
  else if w = 0 then LoopRes.diverge
  else fixedLoop f size dt w (counter + w) (pos + w) (pushParsed dt acc (readBytes f pos w))
termination_by 65536 - counter
decreasing_by omega

/-- Outcome of `Record::read`. -/
inductive ReadOutcome where
  | ok (r : Record) (pos : ℕ)
  | panic
  | diverge
deriving DecidableEq, Repr

/-- Continuation-byte test of the UTF-8 validator: `0x80..=0xBF`. -/
def utf8Cont (b : ℕ) : Bool := decide (128 ≤ b ∧ b ≤ 191)

/-- UTF-8 well-formedness of a byte sequence, exactly as `String::from_utf8`
validates it (RFC 3629: one- to four-byte sequences, no overlong forms, no
surrogates, maximum scalar value U+10FFFF).  The string branch of
`Record::read` feeds its payload through `String::from_utf8(..).unwrap()`,
which panics on a sequence this validator rejects. -/
def validUtf8 : List ℕ → Bool
  | [] => true
  | b :: rest =>
      if b ≤ 127 then validUtf8 rest
      else if 194 ≤ b ∧ b ≤ 223 then
        match rest with
        | c1 :: rest1 => utf8Cont c1 && validUtf8 rest1
        | [] => false
      else if b = 224 then
        match rest with
        | c1 :: c2 :: rest2 =>
            decide (160 ≤ c1 ∧ c1 ≤ 191) && utf8Cont c2 && validUtf8 rest2
        | _ => false
      else if (225 ≤ b ∧ b ≤ 236) ∨ b = 238 ∨ b = 239 then
        match rest with
        | c1 :: c2 :: rest2 => utf8Cont c1 && utf8Cont c2 && validUtf8 rest2
        | _ => false
      else if b = 237 then
        match rest with
        | c1 :: c2 :: rest2 =>
            decide (128 ≤ c1 ∧ c1 ≤ 159) && utf8Cont c2 && validUtf8 rest2
        | _ => false
      else if b = 240 then
        match rest with
        | c1 :: c2 :: c3 :: rest3 =>
            decide (144 ≤ c1 ∧ c1 ≤ 191) && utf8Cont c2 && utf8Cont c3 && validUtf8 rest3
        | _ => false
      else if 241 ≤ b ∧ b ≤ 243 then
        match rest with
        | c1 :: c2 :: c3 :: rest3 =>
            utf8Cont c1 && utf8Cont c2 && utf8Cont c3 && validUtf8 rest3
        | _ => false
      else if b = 244 then
        match rest with
        | c1 :: c2 :: c3 :: rest3 =>
            decide (128 ≤ c1 ∧ c1 ≤ 143) && utf8Cont c2 && utf8Cont c3 && validUtf8 rest3
        | _ => false
      else false

/-- `Record::read`: big-endian `u16` size, record-type byte, data-type byte,
then the payload via the string branch, the fixed-width branch, or nothing
for the `none` data type.  The string branch ends with
`String::from_utf8(str_buf).unwrap()` (`lib.rs` line 607), which panics when
the collected payload bytes are not well-formed UTF-8. -/
def recordRead (f : ℕ → ℕ) (pos : ℕ) : ReadOutcome :=
  if readByte f (pos + 3) = DATA_TYPE_STR then
    match strLoop f (be16 (readByte f pos) (readByte f (pos + 1))) 65532 4 (pos + 4) [] with
    | LoopRes.ok sbytes p2 =>
        if validUtf8 sbytes then
          ReadOutcome.ok ⟨be16 (readByte f pos) (readByte f (pos + 1)), readByte f (pos + 2),
            readByte f (pos + 3), [RecordData.str sbytes]⟩ p2
        else ReadOutcome.panic
    | LoopRes.panic => ReadOutcome.panic
    | LoopRes.diverge => ReadOutcome.diverge
  else if readByte f (pos + 3) ≠ DATA_TYPE_NONE then
    match fixedLoop f (be16 (readByte f pos) (readByte f (pos + 1))) (readByte f (pos + 3))
        (data_size (readByte f (pos + 3))) 4 (pos + 4) [] with
    | LoopRes.ok data p2 =>
        ReadOutcome.ok ⟨be16 (readByte f pos) (readByte f (pos + 1)), readByte f (pos + 2),
          readByte f (pos + 3), data⟩ p2
    | LoopRes.panic => ReadOutcome.panic
    | LoopRes.diverge => ReadOutcome.diverge
  else
    ReadOutcome.ok ⟨be16 (readByte f pos) (readByte f (pos + 1)), readByte f (pos + 2),
      readByte f (pos + 3), []⟩ (pos + 4)

/-! ## The byte serialization of records (`Record::write`, `lib.rs` lines 652-671)

`Record::write` emits the `u16` size big-endian, the record-type byte, the
data-type byte, then each datum through the `utils.rs` writers
(`u16_to_vec`/`i16_to_vec`/`i32_to_vec`, the real codecs, raw string bytes;
`None` emits nothing).  `Library::write` serializes its record vector in
order, so the file contents are the concatenation of the per-record bytes. -/

/-- `utils::u16_to_vec`: big-endian bytes of a `u16`. -/
def u16_to_vec (x : ℕ) : List ℕ := [x % 65536 / 256, x % 256]

/-- `utils::i16_to_vec`: big-endian bytes of the two's complement of an
`i16`. -/
def i16_to_vec (x : ℤ) : List ℕ :=
  [(x % 65536).toNat / 256, (x % 65536).toNat % 256]

/-- `utils::i32_to_vec`: big-endian bytes of the two's complement of an
`i32`. -/
def i32_to_vec (x : ℤ) : List ℕ :=
  [(x % 4294967296).toNat / 16777216 % 256, (x % 4294967296).toNat / 65536 % 256,
    (x % 4294967296).toNat / 256 % 256, (x % 4294967296).toNat % 256]

/-- The bytes `Record::write` emits for one datum (the `match d` in its
loop); the real codecs can panic (`none`), `None` emits nothing. -/
def encodeOne : RecordData → Option (List ℕ)
  | RecordData.bit x => some (u16_to_vec x)
  | RecordData.int16 x => some (i16_to_vec x)
  | RecordData.int32 x => some (i32_to_vec x)
  | RecordData.real32 x => gds_real_32_to_bytes x
  | RecordData.real64 x => gds_real_to_bytes x
  | RecordData.str s => some s
  | RecordData.none => some []

/-- `Record::write`: size, record-type byte, data-type byte, then the data
bytes datum for datum. -/
def Record.write (r : Record) : Option (List ℕ) := do
  let datas ← r.data.mapM encodeOne
  pure (u16_to_vec r.size ++ [r.rec_type % 256, r.data_type % 256] ++ datas.flatten)

/-- The bytes `Library::write` puts in the file: every record's bytes in
order (`vec.iter().map(|x| x.write(&mut file))`). -/
def writeBytes (recs : List Record) : Option (List ℕ) :=
  (recs.mapM Record.write).map List.flatten

/-- The byte-level `Library::read` loop: read one record from the stream,
stop at ENDLIB, fold everything else through `stepRecord`.  The `fuel`
argument bounds the number of records processed — the Rust loop carries no
such bound, so running out of fuel is reported as `diverge` (the round-trip
theorems supply enough fuel to reach the ENDLIB record). -/
def decodeBytes (f : ℕ → ℕ) : ℕ → ℕ → DecSt → DecOutcome
  | 0, _, _ => DecOutcome.diverge
  | fuel + 1, pos, st =>
      match recordRead f pos with
      | ReadOutcome.ok rec p2 =>
          if rec.rec_type = REC_TYPE_ENDLIB then DecOutcome.ok (finalize st)
          else
            match stepRecord rec st with
            | some st2 => decodeBytes f fuel p2 st2
            | none => DecOutcome.panic
      | ReadOutcome.panic => DecOutcome.panic
      | ReadOutcome.diverge => DecOutcome.diverge

/-- What `Record::read` reconstructs from a serialized record: the record
itself, except that a record of the `none` data type comes back with an
empty data list (`Record::write` emits no bytes for `RecordData::None` and
the reader reads no values for `DATA_TYPE_NONE`, while `Record::new_none`
had stored `[None]`). -/
def readBack (r : Record) : Record :=
  if r.data_type = DATA_TYPE_NONE then { r with data := [] } else r

/-! ## Byte-level round-trip side conditions (claims C1 and C8)

The byte hop forces conditions beyond `goodLib`: integer values must lie in
the ranges of the machine types their records are written with (automatic
in Rust, where the struct fields carry those sized types — the model's
carrier is unbounded), strings must be nonempty (an empty string yields a
size-4 string record whose byte-level read panics, claim C10), well-formed
UTF-8 (a Rust `String` invariant, rechecked by `from_utf8` on read) and at
most 65531 bytes (so the record size field is exact), and the real payloads
must be values the real codec reproduces exactly (the codec truncates the
mantissa to 14 hex digits). -/

/-- A value within `i16` range. -/
def validI16 (x : ℤ) : Prop := -32768 ≤ x ∧ x < 32768

instance (x : ℤ) : Decidable (validI16 x) := by unfold validI16; infer_instance

/-- A value within `i32` range. -/
def validI32 (x : ℤ) : Prop := -2147483648 ≤ x ∧ x < 2147483648

instance (x : ℤ) : Decidable (validI32 x) := by unfold validI32; infer_instance

/-- A value within `u16` range. -/
def validBit (x : ℕ) : Prop := x < 65536

instance (x : ℕ) : Decidable (validBit x) := by unfold validBit; infer_instance

/-- All six `i16` fields of a `Date` within range. -/
def validDate (d : Date) : Prop :=
  validI16 d.year ∧ validI16 d.month ∧ validI16 d.day ∧ validI16 d.hour ∧
    validI16 d.minute ∧ validI16 d.second

instance (d : Date) : Decidable (validDate d) := by unfold validDate; infer_instance

/-- A string the byte hop reproduces: nonempty, at most 65531 bytes,
well-formed UTF-8, with byte-sized values. -/
def goodString (s : List ℕ) : Prop :=
  s ≠ [] ∧ s.length ≤ 65531 ∧ validUtf8 s = true ∧ ∀ b ∈ s, b < 256

instance (s : List ℕ) : Decidable (goodString s) := by unfold goodString; infer_instance

/-- A real value the codec round-trips exactly. -/
def codecId (x : ℚ) : Prop := (gds_real_to_bytes x).map bytes_to_gds_real = some x

instance (x : ℚ) : Decidable (codecId x) := by unfold codecId; infer_instance

/-- Per-parameter byte-hop conditions (`ColRow` needs none here, being
excluded by `okParam` already). -/
def bytesParam : ElementParameter → Prop
  | ElementParameter.layer x => validI16 x
  | ElementParameter.xy v => 8 * v.length ≤ 65531 ∧ ∀ p ∈ v, validI32 p.1 ∧ validI32 p.2
  | ElementParameter.datatype x => validI16 x
  | ElementParameter.width x => validI32 x
  | ElementParameter.structureName s => goodString s
  | ElementParameter.colRow _ => True
  | ElementParameter.textType x => validI16 x
  | ElementParameter.presentation x => validBit x
  | ElementParameter.str s => goodString s
  | ElementParameter.strTransf x => validBit x
  | ElementParameter.magnification x => codecId x
  | ElementParameter.angle x => codecId x
  | ElementParameter.pathtype x => validI16 x
  | ElementParameter.eFlags x => validBit x
  | ElementParameter.nodetype x => validI16 x
  | ElementParameter.beginExt x => validI32 x

instance (p : ElementParameter) : Decidable (bytesParam p) := by
  cases p <;> simp only [bytesParam] <;> infer_instance

/-- An element whose parameters survive the byte hop. -/
def bytesElem (e : Element) : Prop := ∀ p ∈ e.parameters, bytesParam p

instance (e : Element) : Decidable (bytesElem e) := by unfold bytesElem; infer_instance

/-- A structure whose name, dates and elements survive the byte hop. -/
def bytesStru (s : Structure) : Prop :=
  goodString s.name ∧ validDate s.date_mod ∧ validDate s.date_acc ∧
    ∀ e ∈ s.elements, bytesElem e

instance (s : Structure) : Decidable (bytesStru s) := by unfold bytesStru; infer_instance

/-- A library whose fields survive the byte hop. -/
def bytesLib (L : Library) : Prop :=
  validI16 L.version ∧ goodString L.name ∧ validDate L.date_mod ∧ validDate L.date_acc ∧
    codecId L.units_user ∧ codecId L.units_m ∧ ∀ s ∈ L.structures, bytesStru s

instance (L : Library) : Decidable (bytesLib L) := by unfold bytesLib; infer_instance

/-- Per-datum well-formedness for the byte hop: the datum is the variant
its record's data type tags, with a value in the machine range of its
written form; real values must round-trip through the codec. -/
def wfDatum (dt : ℕ) (d : RecordData) : Prop :=
  match d with
  | RecordData.bit x => dt = DATA_TYPE_BIT ∧ validBit x
  | RecordData.int16 x => dt = DATA_TYPE_INT16 ∧ validI16 x
  | RecordData.int32 x => dt = DATA_TYPE_INT32 ∧ validI32 x
  | RecordData.real64 x => dt = DATA_TYPE_REAL64 ∧ codecId x
  | _ => False

instance (dt : ℕ) (d : RecordData) : Decidable (wfDatum dt d) := by
  cases d <;> simp only [wfDatum] <;> infer_instance

/-- A record whose serialized bytes read back to `readBack` of it: byte
tags, an exact in-range size field, and well-formed data of one of the
three shapes `Library::write` produces (a `[None]` marker record not of the
XY/COLROW types, a nonempty fixed-width list, or a single good string). -/
def wfRecord (r : Record) : Prop :=
  r.rec_type < 256 ∧ r.size ≤ 65535 ∧
    ((r.data_type = DATA_TYPE_NONE ∧ r.data = [RecordData.none] ∧ r.size = 4 ∧
        r.rec_type ≠ REC_TYPE_XY ∧ r.rec_type ≠ REC_TYPE_COLROW) ∨
      (r.data_type ≠ DATA_TYPE_NONE ∧ r.data_type ≠ DATA_TYPE_STR ∧ r.data ≠ [] ∧
        (∀ d ∈ r.data, wfDatum r.data_type d) ∧
        r.size = 4 + data_size r.data_type * r.data.length) ∨
      (r.data_type = DATA_TYPE_STR ∧ r.data = [RecordData.str (getStr r.data 0)] ∧
        goodString (getStr r.data 0) ∧ r.size = 4 + (getStr r.data 0).length))

instance (r : Record) : Decidable (wfRecord r) := by unfold wfRecord; infer_instance

/-! ## Round-trip lemmas: running the decoder over encoded records -/

/-! ## Size bookkeeping lemmas for the record constructors -/

/-- Evaluating the string-size fold of `update_size`: when every string fits a
`u16` and the total fits, the fold succeeds and adds the total byte length. -/
theorem foldl_strLen (l : List RecordData) (acc : ℕ)
    (hs : ∀ s, RecordData.str s ∈ l → s.length < 65536)
    (hb : acc + strLenSum l ≤ 65535) :
    l.foldlM
        (fun sz d =>
          match d with
          | RecordData.str s =>
              if sz + s.length % 65536 ≤ 65535 then some (sz + s.length % 65536) else none
          | _ => some sz)
        acc = some (acc + strLenSum l) := by
  induction l generalizing acc with
  | nil => simp [strLenSum]
  | cons d rest ih =>
      cases d with
      | str s =>
          have hlen : s.length < 65536 := hs s (List.mem_cons_self _ _)
          have hmod : s.length % 65536 = s.length := Nat.mod_eq_of_lt hlen
          have hsum : strLenSum (RecordData.str s :: rest) = s.length + strLenSum rest := by
            simp [strLenSum]
          rw [hsum] at hb
          have hle : acc + s.length ≤ 65535 := by omega
          have := ih (acc + s.length) (fun t ht => hs t (List.mem_cons_of_mem _ ht)) (by omega)
          simp only [List.foldlM_cons, hmod, if_pos hle, hsum]
          simpa [Nat.add_assoc] using this
      | none =>
          have hsum : strLenSum (RecordData.none :: rest) = strLenSum rest := by simp [strLenSum]
          rw [hsum] at hb ⊢
          simpa using ih acc (fun t ht => hs t (List.mem_cons_of_mem _ ht)) hb
      | bit x =>
          have hsum : strLenSum (RecordData.bit x :: rest) = strLenSum rest := by simp [strLenSum]
          rw [hsum] at hb ⊢
          simpa using ih acc (fun t ht => hs t (List.mem_cons_of_mem _ ht)) hb
      | int16 x =>
          have hsum : strLenSum (RecordData.int16 x :: rest) = strLenSum rest := by
            simp [strLenSum]
          rw [hsum] at hb ⊢
          simpa using ih acc (fun t ht => hs t (List.mem_cons_of_mem _ ht)) hb
      | int32 x =>
          have hsum : strLenSum (RecordData.int32 x :: rest) = strLenSum rest := by
            simp [strLenSum]
          rw [hsum] at hb ⊢
          simpa using ih acc (fun t ht => hs t (List.mem_cons_of_mem _ ht)) hb
      | real32 x =>
          have hsum : strLenSum (RecordData.real32 x :: rest) = strLenSum rest := by
            simp [strLenSum]
          rw [hsum] at hb ⊢
          simpa using ih acc (fun t ht => hs t (List.mem_cons_of_mem _ ht)) hb
      | real64 x =>
          have hsum : strLenSum (RecordData.real64 x :: rest) = strLenSum rest := by
            simp [strLenSum]
          rw [hsum] at hb ⊢
          simpa using ih acc (fun t ht => hs t (List.mem_cons_of_mem _ ht)) hb

/-- `update_size` sets `size` to `4 +` the spec's payload length, when the
string lengths fit a `u16` and the total size fits. -/
theorem update_size_spec (r : Record)
    (hs : r.data_type = DATA_TYPE_STR → ∀ s, RecordData.str s ∈ r.data → s.length < 65536)
    (hb : specPayloadLen r.data_type r.data ≤ 65531) :
    r.update_size = some { r with size := 4 + specPayloadLen r.data_type r.data } := by
  unfold Record.update_size
  by_cases h : r.data_type = DATA_TYPE_STR
  · rw [if_pos h]
    have hbs : 4 + strLenSum r.data ≤ 65535 := by
      have : specPayloadLen r.data_type r.data = strLenSum r.data := by
        simp [specPayloadLen, h]
      omega
    rw [foldl_strLen r.data 4 (hs h) hbs]
    simp [specPayloadLen, h]
  · rw [if_neg h]
    have hps : specPayloadLen r.data_type r.data = data_size r.data_type * r.data.length := by
      simp [specPayloadLen, h]
    have hmod : data_size r.data_type * r.data.length % 65536
        = data_size r.data_type * r.data.length := Nat.mod_eq_of_lt (by omega)
    simp only [hmod, hps]
    rw [if_pos (by omega)]

/-! ## Claim C4: the record size invariant -/

/-- C4 counterexample: `Record::new` with the string data type computes the
size from `data_size(DATA_TYPE_STR) = 0`, so a record holding the two-byte
string "AB" gets size 4, not `4 + 2` as the invariant demands. -/
theorem c4_counterexample :
    Record.recNew REC_TYPE_LIBNAME DATA_TYPE_STR [RecordData.str [65, 66]]
        = some ⟨4, REC_TYPE_LIBNAME, DATA_TYPE_STR, [RecordData.str [65, 66]]⟩ ∧
      specPayloadLen DATA_TYPE_STR [RecordData.str [65, 66]] = 2 ∧ (4 : ℕ) ≠ 4 + 2 := by
  refine ⟨by decide, by decide, by decide⟩

/-- C4 (amended): `new_single`, `new_none` and `push_data` establish
`size = 4 + payload_byte_length` whenever the computed size fits the 16-bit
`size` field (and each string fits a `u16`); `Record::new` establishes it for
every non-string data type under the same bound, but with the string data
type it sets `size = 4` regardless of the string's byte length, because
`data_size` maps the string type to element width 0. -/
theorem c4_size_invariant :
    (∀ rt dt d, dt ≠ DATA_TYPE_STR → data_size dt * d.length ≤ 65531 →
        Record.recNew rt dt d = some ⟨4 + specPayloadLen dt d, rt, dt, d⟩) ∧
      (∀ rt s, Record.recNew rt DATA_TYPE_STR [RecordData.str s]
          = some ⟨4, rt, DATA_TYPE_STR, [RecordData.str s]⟩) ∧
      (∀ rt, Record.new_none rt
          = ⟨4 + specPayloadLen DATA_TYPE_NONE [RecordData.none], rt, DATA_TYPE_NONE,
              [RecordData.none]⟩) ∧
      (∀ rt dt d, (dt = DATA_TYPE_STR → ∀ s, RecordData.str s ∈ [d] → s.length < 65536) →
          specPayloadLen dt [d] ≤ 65531 →
          Record.new_single rt dt d = some ⟨4 + specPayloadLen dt [d], rt, dt, [d]⟩) ∧
      (∀ r d, (r.data_type = DATA_TYPE_STR →
            ∀ s, RecordData.str s ∈ r.data ++ [d] → s.length < 65536) →
          specPayloadLen r.data_type (r.data ++ [d]) ≤ 65531 →
          Record.push_data r d
            = some ⟨4 + specPayloadLen r.data_type (r.data ++ [d]), r.rec_type, r.data_type,
                r.data ++ [d]⟩) := by
  refine ⟨?_, ?_, ?_, ?_, ?_⟩
  · intro rt dt d hdt hb
    have hps : specPayloadLen dt d = data_size dt * d.length := by simp [specPayloadLen, hdt]
    have hmod : data_size dt * d.length % 65536 = data_size dt * d.length :=
      Nat.mod_eq_of_lt (by omega)
    simp only [Record.recNew, hmod, hps]
    rw [if_pos (by omega)]
  · intro rt s
    simp [Record.recNew, data_size, DATA_TYPE_STR, DATA_TYPE_NONE, DATA_TYPE_BIT,
      DATA_TYPE_INT16, DATA_TYPE_INT32, DATA_TYPE_REAL32, DATA_TYPE_REAL64]
  · intro rt
    simp [Record.new_none, specPayloadLen, data_size, DATA_TYPE_NONE, DATA_TYPE_STR]
  · intro rt dt d hs hb
    exact update_size_spec ⟨0, rt, dt, [d]⟩ hs hb
  · intro r d hs hb
    exact update_size_spec { r with data := r.data ++ [d] } hs hb

/-- C4 witness: concrete instances of the amended invariant — an int16
`new_single` record gets size 6, and a string `new_single` record over the
two-byte string "AB" gets size 6 as well. -/
theorem c4_witness :
    Record.new_single REC_TYPE_LAYER DATA_TYPE_INT16 (RecordData.int16 7)
        = some ⟨6, REC_TYPE_LAYER, DATA_TYPE_INT16, [RecordData.int16 7]⟩ ∧
      Record.new_single REC_TYPE_LIBNAME DATA_TYPE_STR (RecordData.str [65, 66])
        = some ⟨6, REC_TYPE_LIBNAME, DATA_TYPE_STR, [RecordData.str [65, 66]]⟩ := by
  constructor
  · exact c4_size_invariant.2.2.2.1 REC_TYPE_LAYER DATA_TYPE_INT16 (RecordData.int16 7)
      (fun h => absurd h (by decide)) (by decide)
  · exact c4_size_invariant.2.2.2.1 REC_TYPE_LIBNAME DATA_TYPE_STR (RecordData.str [65, 66])
      (by intro _ s hmem; simp at hmem; subst hmem; decide) (by decide)



theorem runAll_append (xs ys : List Record) (st : DecSt) :
    runAll (xs ++ ys) st = (runAll xs st).bind (runAll ys) := by
  induction xs generalizing st with
  | nil => simp [runAll]
  | cons r rs ih =>
      simp only [List.cons_append, runAll]
      cases stepRecord r st with
      | none => simp
      | some st' => simp [ih st']

theorem decode_through (xs ys : List Record) (st st' : DecSt)
    (hne : ∀ r ∈ xs, r.rec_type ≠ REC_TYPE_ENDLIB)
    (hrun : runAll xs st = some st') :
    decodeRecords (xs ++ ys) st = decodeRecords ys st' := by
  induction xs generalizing st with
  | nil => simp [runAll] at hrun; subst hrun; rfl
  | cons r rs ih =>
      have hr : r.rec_type ≠ REC_TYPE_ENDLIB := hne r (List.mem_cons_self _ _)
      simp only [runAll] at hrun
      cases hs : stepRecord r st with
      | none => rw [hs] at hrun; simp at hrun
      | some st1 =>
          rw [hs] at hrun
          simp only [Option.some_bind] at hrun
          simp only [List.cons_append, decodeRecords, if_neg hr, hs]
          exact ih st1 (fun t ht => hne t (List.mem_cons_of_mem _ ht)) hrun

theorem flatXY_length (v : List (ℤ × ℤ)) : (flatXY v).length = 2 * v.length := by
  induction v with
  | nil => simp [flatXY]
  | cons p ps ih => simp [flatXY] at ih ⊢; omega

theorem flatXY_get_fst (v : List (ℤ × ℤ)) (k : ℕ) :
    (flatXY v)[2 * k]? = (v[k]?).map fun p => RecordData.int32 p.1 := by
  induction v generalizing k with
  | nil => simp [flatXY]
  | cons p ps ih =>
      cases k with
      | zero => simp [flatXY]
      | succ k =>
          have h2 : 2 * (k + 1) = (2 * k) + 1 + 1 := by ring
          simp only [flatXY, List.flatMap_cons, List.cons_append, h2, List.getElem?_cons_succ]
          simpa [flatXY] using ih k

theorem flatXY_get_snd (v : List (ℤ × ℤ)) (k : ℕ) :
    (flatXY v)[2 * k + 1]? = (v[k]?).map fun p => RecordData.int32 p.2 := by
  induction v generalizing k with
  | nil => simp [flatXY]
  | cons p ps ih =>
      cases k with
      | zero => simp [flatXY]
      | succ k =>
          have h2 : 2 * (k + 1) + 1 = (2 * k + 1) + 1 + 1 := by ring
          simp only [flatXY, List.flatMap_cons, List.cons_append, h2, List.getElem?_cons_succ]
          simpa [flatXY] using ih k

theorem xyLoop_flatXY (v : List (ℤ × ℤ)) (k fuel : ℕ) (hf : v.length - k ≤ fuel) :
    xyLoop (flatXY v) fuel (2 * k) = v.drop k := by
  induction fuel generalizing k with
  | zero =>
      have hk : v.length ≤ k := by omega
      simp [xyLoop, List.drop_eq_nil_of_le hk]
  | succ fuel ih =>
      by_cases hk : k < v.length
      · have hc : 2 * k < (flatXY v).length - 1 := by
          rw [flatXY_length]; omega
        rw [xyLoop, if_pos hc]
        have hfst : getI32 (flatXY v) (2 * k) = (v[k]).1 := by
          simp [getI32, flatXY_get_fst, List.getElem?_eq_getElem hk]
        have hsnd : getI32 (flatXY v) (2 * k + 1) = (v[k]).2 := by
          simp [getI32, flatXY_get_snd, List.getElem?_eq_getElem hk]
        have h2 : 2 * k + 2 = 2 * (k + 1) := by ring
        rw [hfst, hsnd, h2, ih (k + 1) (by omega)]
        rw [List.drop_eq_getElem_cons hk]
      · have hk2 : v.length ≤ k := by omega
        have hc : ¬ (2 * k < (flatXY v).length - 1) := by
          rw [flatXY_length]; omega
        rw [xyLoop, if_neg hc, List.drop_eq_nil_of_le hk2]


theorem new_single_inv (rt dt : ℕ) (d : RecordData) (r : Record)
    (h : Record.new_single rt dt d = some r) :
    r.rec_type = rt ∧ r.data_type = dt ∧ r.data = [d] := by
  unfold Record.new_single Record.update_size at h
  split at h
  · rw [Option.map_eq_some'] at h
    obtain ⟨sz, -, rfl⟩ := h
    exact ⟨rfl, rfl, rfl⟩
  · split at h
    · injection h with h
      subst h
      exact ⟨rfl, rfl, rfl⟩
    · exact absurd h (by simp)

theorem recNew_inv (rt dt : ℕ) (data : List RecordData) (r : Record)
    (h : Record.recNew rt dt data = some r) :
    r.rec_type = rt ∧ r.data_type = dt ∧ r.data = data := by
  unfold Record.recNew at h
  split at h
  · injection h with h
    subst h
    exact ⟨rfl, rfl, rfl⟩
  · exact absurd h (by simp)

theorem paramRecord_step (p : ElementParameter) (r : Record) (hok : okParam p)
    (hpr : paramRecord p = some r) :
    r.rec_type ≠ REC_TYPE_ENDLIB ∧ ∀ st, stepRecord r st = some (pushParam st p) := by
  cases p with
  | layer x =>
      obtain ⟨hrt, hdt, hd⟩ := new_single_inv _ _ _ _ hpr
      exact ⟨by rw [hrt]; decide, fun st => by simp [stepRecord, hrt, hd, REC_TYPE_BGNLIB,
        REC_TYPE_HEADER, REC_TYPE_LIBNAME, REC_TYPE_UNITS, REC_TYPE_BGNSTR, REC_TYPE_ENDSTR,
        REC_TYPE_STRNAME, REC_TYPE_BOUNDARY, REC_TYPE_PATH, REC_TYPE_SREF, REC_TYPE_AREF,
        REC_TYPE_TEXT, REC_TYPE_NODE, REC_TYPE_BOX, REC_TYPE_LAYER]⟩
  | xy v =>
      obtain ⟨hrt, hdt, hd⟩ := recNew_inv _ _ _ _ hpr
      have hok' : v ≠ [] := hok
      have hne0 : (flatXY v).length ≠ 0 := by
        rw [flatXY_length]
        simpa using fun h => hok' (List.length_eq_zero.mp h)
      have hxy : xyLoop (flatXY v) ((flatXY v).length) 0 = v := by
        have := xyLoop_flatXY v 0 ((flatXY v).length) (by rw [flatXY_length]; omega)
        simpa using this
      refine ⟨by rw [hrt]; decide, fun st => ?_⟩
      have hd' : r.data = flatXY v := hd
      simp [stepRecord, hrt, hd', hne0, hxy, REC_TYPE_BGNLIB,
        REC_TYPE_HEADER, REC_TYPE_LIBNAME, REC_TYPE_UNITS, REC_TYPE_BGNSTR, REC_TYPE_ENDSTR,
        REC_TYPE_STRNAME, REC_TYPE_BOUNDARY, REC_TYPE_PATH, REC_TYPE_SREF, REC_TYPE_AREF,
        REC_TYPE_TEXT, REC_TYPE_NODE, REC_TYPE_BOX, REC_TYPE_LAYER, REC_TYPE_XY]
  | colRow v => exact absurd hok (by simp [okParam])
  | datatype x =>
      obtain ⟨hrt, hdt, hd⟩ := new_single_inv _ _ _ _ hpr
      exact ⟨by rw [hrt]; decide, fun st => by simp [stepRecord, hrt, hd, REC_TYPE_BGNLIB,
        REC_TYPE_HEADER, REC_TYPE_LIBNAME, REC_TYPE_UNITS, REC_TYPE_BGNSTR, REC_TYPE_ENDSTR,
        REC_TYPE_STRNAME, REC_TYPE_BOUNDARY, REC_TYPE_PATH, REC_TYPE_SREF, REC_TYPE_AREF,
        REC_TYPE_TEXT, REC_TYPE_NODE, REC_TYPE_BOX, REC_TYPE_LAYER, REC_TYPE_XY,
        REC_TYPE_DATATYPE]⟩
  | width x =>
      obtain ⟨hrt, hdt, hd⟩ := new_single_inv _ _ _ _ hpr
      exact ⟨by rw [hrt]; decide, fun st => by simp [stepRecord, hrt, hd, REC_TYPE_BGNLIB,
        REC_TYPE_HEADER, REC_TYPE_LIBNAME, REC_TYPE_UNITS, REC_TYPE_BGNSTR, REC_TYPE_ENDSTR,
        REC_TYPE_STRNAME, REC_TYPE_BOUNDARY, REC_TYPE_PATH, REC_TYPE_SREF, REC_TYPE_AREF,
        REC_TYPE_TEXT, REC_TYPE_NODE, REC_TYPE_BOX, REC_TYPE_LAYER, REC_TYPE_XY,
        REC_TYPE_DATATYPE, REC_TYPE_WIDTH]⟩
  | structureName s =>
      obtain ⟨hrt, hdt, hd⟩ := new_single_inv _ _ _ _ hpr
      exact ⟨by rw [hrt]; decide, fun st => by simp [stepRecord, hrt, hd, REC_TYPE_BGNLIB,
        REC_TYPE_HEADER, REC_TYPE_LIBNAME, REC_TYPE_UNITS, REC_TYPE_BGNSTR, REC_TYPE_ENDSTR,
        REC_TYPE_STRNAME, REC_TYPE_BOUNDARY, REC_TYPE_PATH, REC_TYPE_SREF, REC_TYPE_AREF,
        REC_TYPE_TEXT, REC_TYPE_NODE, REC_TYPE_BOX, REC_TYPE_LAYER, REC_TYPE_XY,
        REC_TYPE_DATATYPE, REC_TYPE_WIDTH, REC_TYPE_SNAME]⟩
  | textType x =>
      obtain ⟨hrt, hdt, hd⟩ := new_single_inv _ _ _ _ hpr
      exact ⟨by rw [hrt]; decide, fun st => by simp [stepRecord, hrt, hd, REC_TYPE_BGNLIB,
        REC_TYPE_HEADER, REC_TYPE_LIBNAME, REC_TYPE_UNITS, REC_TYPE_BGNSTR, REC_TYPE_ENDSTR,
        REC_TYPE_STRNAME, REC_TYPE_BOUNDARY, REC_TYPE_PATH, REC_TYPE_SREF, REC_TYPE_AREF,
        REC_TYPE_TEXT, REC_TYPE_NODE, REC_TYPE_BOX, REC_TYPE_LAYER, REC_TYPE_XY,
        REC_TYPE_DATATYPE, REC_TYPE_WIDTH, REC_TYPE_SNAME, REC_TYPE_COLROW,
        REC_TYPE_TEXTTYPE]⟩
  | presentation x =>
      obtain ⟨hrt, hdt, hd⟩ := new_single_inv _ _ _ _ hpr
      exact ⟨by rw [hrt]; decide, fun st => by simp [stepRecord, hrt, hd, REC_TYPE_BGNLIB,
        REC_TYPE_HEADER, REC_TYPE_LIBNAME, REC_TYPE_UNITS, REC_TYPE_BGNSTR, REC_TYPE_ENDSTR,
        REC_TYPE_STRNAME, REC_TYPE_BOUNDARY, REC_TYPE_PATH, REC_TYPE_SREF, REC_TYPE_AREF,
        REC_TYPE_TEXT, REC_TYPE_NODE, REC_TYPE_BOX, REC_TYPE_LAYER, REC_TYPE_XY,
        REC_TYPE_DATATYPE, REC_TYPE_WIDTH, REC_TYPE_SNAME, REC_TYPE_COLROW,
        REC_TYPE_TEXTTYPE, REC_TYPE_PRESENTATION]⟩
  | str s =>
      obtain ⟨hrt, hdt, hd⟩ := new_single_inv _ _ _ _ hpr
      exact ⟨by rw [hrt]; decide, fun st => by simp [stepRecord, hrt, hd, REC_TYPE_BGNLIB,
        REC_TYPE_HEADER, REC_TYPE_LIBNAME, REC_TYPE_UNITS, REC_TYPE_BGNSTR, REC_TYPE_ENDSTR,
        REC_TYPE_STRNAME, REC_TYPE_BOUNDARY, REC_TYPE_PATH, REC_TYPE_SREF, REC_TYPE_AREF,
        REC_TYPE_TEXT, REC_TYPE_NODE, REC_TYPE_BOX, REC_TYPE_LAYER, REC_TYPE_XY,
        REC_TYPE_DATATYPE, REC_TYPE_WIDTH, REC_TYPE_SNAME, REC_TYPE_COLROW,
        REC_TYPE_TEXTTYPE, REC_TYPE_PRESENTATION, REC_TYPE_STRING]⟩
  | strTransf x =>
      obtain ⟨hrt, hdt, hd⟩ := new_single_inv _ _ _ _ hpr
      exact ⟨by rw [hrt]; decide, fun st => by simp [stepRecord, hrt, hd, REC_TYPE_BGNLIB,
        REC_TYPE_HEADER, REC_TYPE_LIBNAME, REC_TYPE_UNITS, REC_TYPE_BGNSTR, REC_TYPE_ENDSTR,
        REC_TYPE_STRNAME, REC_TYPE_BOUNDARY, REC_TYPE_PATH, REC_TYPE_SREF, REC_TYPE_AREF,
        REC_TYPE_TEXT, REC_TYPE_NODE, REC_TYPE_BOX, REC_TYPE_LAYER, REC_TYPE_XY,
        REC_TYPE_DATATYPE, REC_TYPE_WIDTH, REC_TYPE_SNAME, REC_TYPE_COLROW,
        REC_TYPE_TEXTTYPE, REC_TYPE_PRESENTATION, REC_TYPE_STRING, REC_TYPE_STRANS]⟩
  | magnification x =>
      obtain ⟨hrt, hdt, hd⟩ := new_single_inv _ _ _ _ hpr
      exact ⟨by rw [hrt]; decide, fun st => by simp [stepRecord, hrt, hd, REC_TYPE_BGNLIB,
        REC_TYPE_HEADER, REC_TYPE_LIBNAME, REC_TYPE_UNITS, REC_TYPE_BGNSTR, REC_TYPE_ENDSTR,
        REC_TYPE_STRNAME, REC_TYPE_BOUNDARY, REC_TYPE_PATH, REC_TYPE_SREF, REC_TYPE_AREF,
        REC_TYPE_TEXT, REC_TYPE_NODE, REC_TYPE_BOX, REC_TYPE_LAYER, REC_TYPE_XY,
        REC_TYPE_DATATYPE, REC_TYPE_WIDTH, REC_TYPE_SNAME, REC_TYPE_COLROW,
        REC_TYPE_TEXTTYPE, REC_TYPE_PRESENTATION, REC_TYPE_STRING, REC_TYPE_STRANS,
        REC_TYPE_MAG]⟩
  | angle x =>
      obtain ⟨hrt, hdt, hd⟩ := new_single_inv _ _ _ _ hpr
      exact ⟨by rw [hrt]; decide, fun st => by simp [stepRecord, hrt, hd, REC_TYPE_BGNLIB,
        REC_TYPE_HEADER, REC_TYPE_LIBNAME, REC_TYPE_UNITS, REC_TYPE_BGNSTR, REC_TYPE_ENDSTR,
        REC_TYPE_STRNAME, REC_TYPE_BOUNDARY, REC_TYPE_PATH, REC_TYPE_SREF, REC_TYPE_AREF,
        REC_TYPE_TEXT, REC_TYPE_NODE, REC_TYPE_BOX, REC_TYPE_LAYER, REC_TYPE_XY,
        REC_TYPE_DATATYPE, REC_TYPE_WIDTH, REC_TYPE_SNAME, REC_TYPE_COLROW,
        REC_TYPE_TEXTTYPE, REC_TYPE_PRESENTATION, REC_TYPE_STRING, REC_TYPE_STRANS,
        REC_TYPE_MAG, REC_TYPE_ANGLE]⟩
  | pathtype x =>
      obtain ⟨hrt, hdt, hd⟩ := new_single_inv _ _ _ _ hpr
      exact ⟨by rw [hrt]; decide, fun st => by simp [stepRecord, hrt, hd, REC_TYPE_BGNLIB,
        REC_TYPE_HEADER, REC_TYPE_LIBNAME, REC_TYPE_UNITS, REC_TYPE_BGNSTR, REC_TYPE_ENDSTR,
        REC_TYPE_STRNAME, REC_TYPE_BOUNDARY, REC_TYPE_PATH, REC_TYPE_SREF, REC_TYPE_AREF,
        REC_TYPE_TEXT, REC_TYPE_NODE, REC_TYPE_BOX, REC_TYPE_LAYER, REC_TYPE_XY,
        REC_TYPE_DATATYPE, REC_TYPE_WIDTH, REC_TYPE_SNAME, REC_TYPE_COLROW,
        REC_TYPE_TEXTTYPE, REC_TYPE_PRESENTATION, REC_TYPE_STRING, REC_TYPE_STRANS,
        REC_TYPE_MAG, REC_TYPE_ANGLE, REC_TYPE_PATHTYPE]⟩
  | eFlags x =>
      obtain ⟨hrt, hdt, hd⟩ := new_single_inv _ _ _ _ hpr
      exact ⟨by rw [hrt]; decide, fun st => by simp [stepRecord, hrt, hd, REC_TYPE_BGNLIB,
        REC_TYPE_HEADER, REC_TYPE_LIBNAME, REC_TYPE_UNITS, REC_TYPE_BGNSTR, REC_TYPE_ENDSTR,
        REC_TYPE_STRNAME, REC_TYPE_BOUNDARY, REC_TYPE_PATH, REC_TYPE_SREF, REC_TYPE_AREF,
        REC_TYPE_TEXT, REC_TYPE_NODE, REC_TYPE_BOX, REC_TYPE_LAYER, REC_TYPE_XY,
        REC_TYPE_DATATYPE, REC_TYPE_WIDTH, REC_TYPE_SNAME, REC_TYPE_COLROW,
        REC_TYPE_TEXTTYPE, REC_TYPE_PRESENTATION, REC_TYPE_STRING, REC_TYPE_STRANS,
        REC_TYPE_MAG, REC_TYPE_ANGLE, REC_TYPE_PATHTYPE, REC_TYPE_EFLAGS]⟩
  | nodetype x =>
      obtain ⟨hrt, hdt, hd⟩ := new_single_inv _ _ _ _ hpr
      exact ⟨by rw [hrt]; decide, fun st => by simp [stepRecord, hrt, hd, REC_TYPE_BGNLIB,
        REC_TYPE_HEADER, REC_TYPE_LIBNAME, REC_TYPE_UNITS, REC_TYPE_BGNSTR, REC_TYPE_ENDSTR,
        REC_TYPE_STRNAME, REC_TYPE_BOUNDARY, REC_TYPE_PATH, REC_TYPE_SREF, REC_TYPE_AREF,
        REC_TYPE_TEXT, REC_TYPE_NODE, REC_TYPE_BOX, REC_TYPE_LAYER, REC_TYPE_XY,
        REC_TYPE_DATATYPE, REC_TYPE_WIDTH, REC_TYPE_SNAME, REC_TYPE_COLROW,
        REC_TYPE_TEXTTYPE, REC_TYPE_PRESENTATION, REC_TYPE_STRING, REC_TYPE_STRANS,
        REC_TYPE_MAG, REC_TYPE_ANGLE, REC_TYPE_PATHTYPE, REC_TYPE_EFLAGS,
        REC_TYPE_NODETYPE]⟩
  | beginExt x =>
      obtain ⟨hrt, hdt, hd⟩ := new_single_inv _ _ _ _ hpr
      exact ⟨by rw [hrt]; decide, fun st => by simp [stepRecord, hrt, hd, REC_TYPE_BGNLIB,
        REC_TYPE_HEADER, REC_TYPE_LIBNAME, REC_TYPE_UNITS, REC_TYPE_BGNSTR, REC_TYPE_ENDSTR,
        REC_TYPE_STRNAME, REC_TYPE_BOUNDARY, REC_TYPE_PATH, REC_TYPE_SREF, REC_TYPE_AREF,
        REC_TYPE_TEXT, REC_TYPE_NODE, REC_TYPE_BOX, REC_TYPE_LAYER, REC_TYPE_XY,
        REC_TYPE_DATATYPE, REC_TYPE_WIDTH, REC_TYPE_SNAME, REC_TYPE_COLROW,
        REC_TYPE_TEXTTYPE, REC_TYPE_PRESENTATION, REC_TYPE_STRING, REC_TYPE_STRANS,
        REC_TYPE_MAG, REC_TYPE_ANGLE, REC_TYPE_PATHTYPE, REC_TYPE_EFLAGS,
        REC_TYPE_NODETYPE, REC_TYPE_BGNEXTN]⟩


theorem params_run (ps : List ElementParameter) (prs : List Record) (st : DecSt)
    (hall : ∀ p ∈ ps, okParam p) (hm : ps.mapM paramRecord = some prs) :
    (∀ r ∈ prs, r.rec_type ≠ REC_TYPE_ENDLIB) ∧
      runAll prs st
        = some { st with elem := { st.elem with parameters := st.elem.parameters ++ ps } } := by
  induction ps generalizing prs st with
  | nil =>
      simp only [List.mapM_nil, Option.pure_def, Option.some.injEq] at hm
      subst hm
      exact ⟨by simp, by simp [runAll]⟩
  | cons p ps ih =>
      cases hp : paramRecord p with
      | none => rw [List.mapM_cons, hp] at hm; simp at hm
      | some r =>
          rw [List.mapM_cons, hp] at hm
          cases hps : ps.mapM paramRecord with
          | none => rw [hps] at hm; simp at hm
          | some rs =>
              rw [hps] at hm
              simp at hm
              subst hm
              obtain ⟨hne, hstep⟩ := paramRecord_step p r (hall p (List.mem_cons_self _ _)) hp
              obtain ⟨hnes, hrun⟩ :=
                ih rs (pushParam st p) (fun q hq => hall q (List.mem_cons_of_mem _ hq)) hps
              refine ⟨?_, ?_⟩
              · intro t ht
                rcases List.mem_cons.mp ht with rfl | ht
                · exact hne
                · exact hnes t ht
              · simp only [runAll, hstep st, Option.some_bind]
                rw [hrun]
                simp [pushParam]

theorem elemTag_step (t : ElementType) (ht : t ≠ ElementType.none) (st : DecSt) :
    stepRecord (Record.new_none (elemTag t)) st
        = some { st with elem := { st.elem with element_type := t } } ∧
      elemTag t ≠ REC_TYPE_ENDLIB := by
  cases t with
  | none => exact absurd rfl ht
  | boundary => exact ⟨rfl, by decide⟩
  | path => exact ⟨rfl, by decide⟩
  | structureRef => exact ⟨rfl, by decide⟩
  | arrayRef => exact ⟨rfl, by decide⟩
  | text => exact ⟨rfl, by decide⟩
  | node => exact ⟨rfl, by decide⟩
  | box => exact ⟨rfl, by decide⟩

theorem elem_run (e : Element) (rs : List Record) (st : DecSt)
    (hgood : goodElem e) (hrs : e.to_records = some rs) (helem : st.elem = Element.new) :
    (∀ r ∈ rs, r.rec_type ≠ REC_TYPE_ENDLIB) ∧
      runAll rs st = some { st with
        stru := { st.stru with elements := st.stru.elements ++ [e] }
        elem := Element.new } := by
  obtain ⟨htype, hps⟩ := hgood
  unfold Element.to_records at hrs
  cases hmap : e.parameters.mapM paramRecord with
  | none => rw [hmap] at hrs; simp at hrs
  | some prs =>
      rw [hmap] at hrs
      simp at hrs
      subst hrs
      have hstep1 : stepRecord (Record.new_none (elemTag e.element_type)) st
          = some { st with elem := ⟨e.element_type, []⟩ } := by
        have h1 := (elemTag_step e.element_type htype st).1
        rw [helem] at h1
        exact h1
      obtain ⟨hnes, hrun⟩ := params_run e.parameters prs
        { st with elem := ⟨e.element_type, []⟩ } hps hmap
      refine ⟨?_, ?_⟩
      · intro t ht
        rcases List.mem_cons.mp ht with rfl | ht
        · exact (elemTag_step e.element_type htype st).2
        · rcases List.mem_append.mp ht with ht | ht
          · exact hnes t ht
          · simp only [List.mem_singleton] at ht
            subst ht
            decide
      · simp only [runAll, hstep1, Option.some_bind]
        rw [runAll_append, hrun]
        rfl

theorem elems_run (es : List Element) (elss : List (List Record)) (st : DecSt)
    (hall : ∀ e ∈ es, goodElem e) (hm : es.mapM Element.to_records = some elss)
    (helem : st.elem = Element.new) :
    (∀ r ∈ elss.flatten, r.rec_type ≠ REC_TYPE_ENDLIB) ∧
      runAll elss.flatten st
        = some { st with stru := { st.stru with elements := st.stru.elements ++ es } } := by
  induction es generalizing elss st with
  | nil =>
      simp only [List.mapM_nil, Option.pure_def, Option.some.injEq] at hm
      subst hm
      exact ⟨by simp, by simp [runAll]⟩
  | cons e es ih =>
      cases he : e.to_records with
      | none => rw [List.mapM_cons, he] at hm; simp at hm
      | some rs =>
          rw [List.mapM_cons, he] at hm
          cases hes : es.mapM Element.to_records with
          | none => rw [hes] at hm; simp at hm
          | some rss =>
              rw [hes] at hm
              simp at hm
              subst hm
              obtain ⟨hne1, hrun1⟩ := elem_run e rs st (hall e (List.mem_cons_self _ _)) he helem
              obtain ⟨hne2, hrun2⟩ := ih rss
                { st with
                  stru := { st.stru with elements := st.stru.elements ++ [e] }
                  elem := Element.new }
                (fun t ht => hall t (List.mem_cons_of_mem _ ht)) hes rfl
              refine ⟨?_, ?_⟩
              · intro t ht
                rw [List.flatten_cons, List.mem_append] at ht
                rcases ht with ht | ht
                · exact hne1 t ht
                · exact hne2 t ht
              · rw [List.flatten_cons, runAll_append, hrun1, Option.some_bind, hrun2]
                simp [helem, List.append_assoc]

theorem dateFrom_to_record_data (d1 d2 : Date) :
    dateFrom (d1.to_record_data ++ d2.to_record_data) 0 = d1 ∧
      dateFrom (d1.to_record_data ++ d2.to_record_data) 6 = d2 := by
  constructor <;> simp [dateFrom, Date.to_record_data, getI16]

theorem stru_run (s : Structure) (rs : List Record) (st : DecSt)
    (hgood : goodStru s) (hrs : s.to_records = some rs)
    (hstru : st.stru = Structure.new) (helem : st.elem = Element.new) :
    (∀ r ∈ rs, r.rec_type ≠ REC_TYPE_ENDLIB) ∧
      runAll rs st
        = some { st with structures := st.structures ++ [s], stru := Structure.new } := by
  unfold Structure.to_records at hrs
  cases hb : Record.recNew REC_TYPE_BGNSTR DATA_TYPE_INT16
      (s.date_mod.to_record_data ++ s.date_acc.to_record_data) with
  | none => rw [hb] at hrs; simp at hrs
  | some b =>
      rw [hb] at hrs
      cases hn : Record.new_single REC_TYPE_STRNAME DATA_TYPE_STR (RecordData.str s.name) with
      | none => rw [hn] at hrs; simp at hrs
      | some n =>
          rw [hn] at hrs
          cases hels : s.elements.mapM Element.to_records with
          | none => rw [hels] at hrs; simp at hrs
          | some elss =>
              rw [hels] at hrs
              simp at hrs
              subst hrs
              obtain ⟨hbrt, hbdt, hbd⟩ := recNew_inv _ _ _ _ hb
              obtain ⟨hnrt, hndt, hnd⟩ := new_single_inv _ _ _ _ hn
              have hbstep : stepRecord b st = some { st with stru :=
                  ⟨[], s.date_mod, s.date_acc, []⟩ } := by
                have h1 : stepRecord b st = some { st with stru :=
                    { st.stru with
                        date_mod := dateFrom b.data 0
                        date_acc := dateFrom b.data 6 } } := by
                  simp [stepRecord, hbrt, REC_TYPE_BGNLIB, REC_TYPE_HEADER, REC_TYPE_LIBNAME,
                    REC_TYPE_UNITS, REC_TYPE_BGNSTR]
                rw [h1, hbd, (dateFrom_to_record_data s.date_mod s.date_acc).1,
                  (dateFrom_to_record_data s.date_mod s.date_acc).2, hstru]
                rfl
              have hnstep : ∀ st' : DecSt, stepRecord n st'
                  = some { st' with stru := { st'.stru with name := s.name } } := by
                intro st'
                simp [stepRecord, hnrt, hnd, getStr, REC_TYPE_BGNLIB, REC_TYPE_HEADER,
                  REC_TYPE_LIBNAME, REC_TYPE_UNITS, REC_TYPE_BGNSTR, REC_TYPE_ENDSTR,
                  REC_TYPE_STRNAME]
              obtain ⟨hne3, hrun3⟩ := elems_run s.elements elss
                { st with stru := ⟨s.name, s.date_mod, s.date_acc, []⟩ }
                hgood hels helem
              refine ⟨?_, ?_⟩
              · intro t ht
                rcases List.mem_cons.mp ht with rfl | ht
                · rw [hbrt]; decide
                rcases List.mem_cons.mp ht with rfl | ht
                · rw [hnrt]; decide
                rcases List.mem_append.mp ht with ht | ht
                · exact hne3 t ht
                · simp only [List.mem_singleton] at ht
                  subst ht
                  decide
              · simp only [runAll, hbstep, Option.some_bind, hnstep, runAll_append,
                  Option.some_bind, hrun3]
                rfl


/-- Running the decoder over the records of a structure list appends those
structures, leaving fresh accumulators. -/
theorem strus_run (ss : List Structure) (strss : List (List Record)) (st : DecSt)
    (hall : ∀ s ∈ ss, goodStru s) (hm : ss.mapM Structure.to_records = some strss)
    (hstru : st.stru = Structure.new) (helem : st.elem = Element.new) :
    (∀ r ∈ strss.flatten, r.rec_type ≠ REC_TYPE_ENDLIB) ∧
      runAll strss.flatten st = some { st with structures := st.structures ++ ss } := by
  induction ss generalizing strss st with
  | nil =>
      simp only [List.mapM_nil, Option.pure_def, Option.some.injEq] at hm
      subst hm
      exact ⟨by simp, by simp [runAll]⟩
  | cons s ss ih =>
      cases hs : s.to_records with
      | none => rw [List.mapM_cons, hs] at hm; simp at hm
      | some rs =>
          rw [List.mapM_cons, hs] at hm
          cases hss : ss.mapM Structure.to_records with
          | none => rw [hss] at hm; simp at hm
          | some rss =>
              rw [hss] at hm
              simp at hm
              subst hm
              obtain ⟨hne1, hrun1⟩ :=
                stru_run s rs st (hall s (List.mem_cons_self _ _)) hs hstru helem
              obtain ⟨hne2, hrun2⟩ := ih rss
                { st with structures := st.structures ++ [s], stru := Structure.new }
                (fun t ht => hall t (List.mem_cons_of_mem _ ht)) hss rfl helem
              refine ⟨?_, ?_⟩
              · intro t ht
                rw [List.flatten_cons, List.mem_append] at ht
                rcases ht with ht | ht
                · exact hne1 t ht
                · exact hne2 t ht
              · rw [List.flatten_cons, runAll_append, hrun1, Option.some_bind, hrun2]
                simp [hstru, List.append_assoc]

/-- The record-level core of the round trip: for a `goodLib` library, the
record list `Library::write` builds decodes (at the record level) back to
the library. -/
theorem writeRecords_decode (L : Library) (hgood : goodLib L) (recs : List Record)
    (hw : Library.write L = some recs) :
    decodeRecords recs initSt = DecOutcome.ok L := by
  unfold Library.write at hw
  rw [show Record.new_single REC_TYPE_HEADER DATA_TYPE_INT16 (RecordData.int16 L.version)
      = some ⟨6, REC_TYPE_HEADER, DATA_TYPE_INT16, [RecordData.int16 L.version]⟩ from rfl,
    show Record.recNew REC_TYPE_BGNLIB DATA_TYPE_INT16
        (L.date_mod.to_record_data ++ L.date_acc.to_record_data)
      = some ⟨28, REC_TYPE_BGNLIB, DATA_TYPE_INT16,
          L.date_mod.to_record_data ++ L.date_acc.to_record_data⟩ from rfl,
    show Record.recNew REC_TYPE_UNITS DATA_TYPE_REAL64
        [RecordData.real64 L.units_user, RecordData.real64 L.units_m]
      = some ⟨20, REC_TYPE_UNITS, DATA_TYPE_REAL64,
          [RecordData.real64 L.units_user, RecordData.real64 L.units_m]⟩ from rfl] at hw
  cases hnm : Record.new_single REC_TYPE_LIBNAME DATA_TYPE_STR (RecordData.str L.name) with
  | none => rw [hnm] at hw; simp at hw
  | some nm =>
      rw [hnm] at hw
      cases hss : L.structures.mapM Structure.to_records with
      | none => rw [hss] at hw; simp at hw
      | some strss =>
          rw [hss] at hw
          simp at hw
          subst hw
          obtain ⟨hnrt, hndt, hnd⟩ := new_single_inv _ _ _ _ hnm
          have hnmstep : ∀ st : DecSt, stepRecord nm st = some { st with name := L.name } := by
            intro st
            simp [stepRecord, hnrt, hnd, getStr, REC_TYPE_BGNLIB, REC_TYPE_HEADER,
              REC_TYPE_LIBNAME]
          obtain ⟨hnes, hrun⟩ := strus_run L.structures strss
            ⟨L.version, L.name, L.date_mod, L.date_acc, L.units_user, L.units_m, [],
              Structure.new, Element.new⟩ hgood hss rfl rfl
          have hrun4 : runAll [⟨6, REC_TYPE_HEADER, DATA_TYPE_INT16,
                [RecordData.int16 L.version]⟩,
              ⟨28, REC_TYPE_BGNLIB, DATA_TYPE_INT16,
                L.date_mod.to_record_data ++ L.date_acc.to_record_data⟩, nm,
              ⟨20, REC_TYPE_UNITS, DATA_TYPE_REAL64,
                [RecordData.real64 L.units_user, RecordData.real64 L.units_m]⟩] initSt
              = some ⟨L.version, L.name, L.date_mod, L.date_acc, L.units_user, L.units_m, [],
                  Structure.new, Element.new⟩ := by
            show (stepRecord nm ⟨L.version, [], L.date_mod, L.date_acc, 0, 0, [],
                Structure.new, Element.new⟩).bind
                (runAll [⟨20, REC_TYPE_UNITS, DATA_TYPE_REAL64,
                  [RecordData.real64 L.units_user, RecordData.real64 L.units_m]⟩]) = _
            rw [hnmstep]
            rfl
          have hshape : (⟨6, REC_TYPE_HEADER, DATA_TYPE_INT16,
                  [RecordData.int16 L.version]⟩ : Record) ::
                ⟨28, REC_TYPE_BGNLIB, DATA_TYPE_INT16,
                  L.date_mod.to_record_data ++ L.date_acc.to_record_data⟩ :: nm ::
                ⟨20, REC_TYPE_UNITS, DATA_TYPE_REAL64,
                  [RecordData.real64 L.units_user, RecordData.real64 L.units_m]⟩ ::
                (strss.flatten ++ [Record.new_none REC_TYPE_ENDLIB])
              = ([⟨6, REC_TYPE_HEADER, DATA_TYPE_INT16, [RecordData.int16 L.version]⟩,
                  ⟨28, REC_TYPE_BGNLIB, DATA_TYPE_INT16,
                    L.date_mod.to_record_data ++ L.date_acc.to_record_data⟩, nm,
                  ⟨20, REC_TYPE_UNITS, DATA_TYPE_REAL64,
                    [RecordData.real64 L.units_user, RecordData.real64 L.units_m]⟩]
                  ++ strss.flatten) ++ [Record.new_none REC_TYPE_ENDLIB] := by
            simp
          rw [hshape]
          rw [decode_through _ _ _ _ ?hne ?hrunfull]
          case hne =>
            intro r hr
            simp only [List.mem_append, List.mem_cons, List.not_mem_nil, or_false] at hr
            rcases hr with ((rfl | rfl | rfl | rfl) | hr)
            · simp [REC_TYPE_HEADER, REC_TYPE_ENDLIB]
            · simp [REC_TYPE_BGNLIB, REC_TYPE_ENDLIB]
            · rw [hnrt]; decide
            · simp [REC_TYPE_UNITS, REC_TYPE_ENDLIB]
            · exact hnes r hr
          case hrunfull =>
            rw [runAll_append, hrun4, Option.some_bind, hrun]
          rfl

/-! ## Claim C8: the empty library -/


/-- One non-ENDLIB, non-panicking decode step peels one record. -/
theorem decodeRecords_cons_step (r : Record) (rs : List Record) (st st' : DecSt)
    (h4 : r.rec_type ≠ REC_TYPE_ENDLIB) (hs : stepRecord r st = some st') :
    decodeRecords (r :: rs) st = decodeRecords rs st' := by
  simp [decodeRecords, if_neg h4, hs]

/-- The record-level core of the empty-library claim: the five records and
their record-level decoding. -/
theorem writeRecords_empty (L : Library) (h : L.structures = []) (recs : List Record)
    (hw : Library.write L = some recs) :
    recs.map Record.rec_type
        = [REC_TYPE_HEADER, REC_TYPE_BGNLIB, REC_TYPE_LIBNAME, REC_TYPE_UNITS,
            REC_TYPE_ENDLIB] ∧
      decodeRecords recs initSt
        = DecOutcome.ok ⟨L.version, L.name, L.date_mod, L.date_acc, L.units_user,
            L.units_m, []⟩ := by
  unfold Library.write at hw
  rw [h] at hw
  rw [show Record.new_single REC_TYPE_HEADER DATA_TYPE_INT16 (RecordData.int16 L.version)
      = some ⟨6, REC_TYPE_HEADER, DATA_TYPE_INT16, [RecordData.int16 L.version]⟩ from rfl,
    show Record.recNew REC_TYPE_BGNLIB DATA_TYPE_INT16
        (L.date_mod.to_record_data ++ L.date_acc.to_record_data)
      = some ⟨28, REC_TYPE_BGNLIB, DATA_TYPE_INT16,
          L.date_mod.to_record_data ++ L.date_acc.to_record_data⟩ from rfl,
    show Record.recNew REC_TYPE_UNITS DATA_TYPE_REAL64
        [RecordData.real64 L.units_user, RecordData.real64 L.units_m]
      = some ⟨20, REC_TYPE_UNITS, DATA_TYPE_REAL64,
          [RecordData.real64 L.units_user, RecordData.real64 L.units_m]⟩ from rfl,
    show List.mapM Structure.to_records ([] : List Structure) = some [] from rfl] at hw
  cases hnm : Record.new_single REC_TYPE_LIBNAME DATA_TYPE_STR (RecordData.str L.name) with
  | none => rw [hnm] at hw; simp at hw
  | some nm =>
      rw [hnm] at hw
      simp at hw
      subst hw
      obtain ⟨hnrt, hndt, hnd⟩ := new_single_inv _ _ _ _ hnm
      have hnmstep : ∀ st : DecSt, stepRecord nm st = some { st with name := L.name } := by
        intro st
        simp [stepRecord, hnrt, hnd, getStr, REC_TYPE_BGNLIB, REC_TYPE_HEADER,
          REC_TYPE_LIBNAME]
      constructor
      · simp [hnrt, REC_TYPE_HEADER, REC_TYPE_BGNLIB, REC_TYPE_LIBNAME, REC_TYPE_UNITS,
          REC_TYPE_ENDLIB, Record.new_none]
      · show decodeRecords (nm ::
              ⟨20, REC_TYPE_UNITS, DATA_TYPE_REAL64,
                [RecordData.real64 L.units_user, RecordData.real64 L.units_m]⟩ ::
              [Record.new_none REC_TYPE_ENDLIB])
              ⟨L.version, [], L.date_mod, L.date_acc, 0, 0, [], Structure.new,
                Element.new⟩ = _
        rw [decodeRecords_cons_step nm _ _ _ (by rw [hnrt]; decide) (hnmstep _)]
        rfl

/-- C8 counterexample: with a 65532-byte name the LIBNAME record size
computation overflows the 16-bit size field, so `Library::write` panics and
emits no records at all — the unrestricted claim fails for that library. -/
theorem c8_counterexample :
    Library.write ⟨0, List.replicate 65532 65, Date.new, Date.new, 0, 0, []⟩ = none := by
  unfold Library.write
  rw [show Record.new_single REC_TYPE_HEADER DATA_TYPE_INT16 (RecordData.int16 0)
      = some ⟨6, REC_TYPE_HEADER, DATA_TYPE_INT16, [RecordData.int16 0]⟩ from rfl]
  rw [show Record.recNew REC_TYPE_BGNLIB DATA_TYPE_INT16
        ((Date.new).to_record_data ++ (Date.new).to_record_data)
      = some ⟨28, REC_TYPE_BGNLIB, DATA_TYPE_INT16,
          (Date.new).to_record_data ++ (Date.new).to_record_data⟩ from rfl]
  rw [show Record.new_single REC_TYPE_LIBNAME DATA_TYPE_STR
        (RecordData.str (List.replicate 65532 65)) = none by
      unfold Record.new_single Record.update_size
      rw [if_pos rfl]
      simp only [List.foldlM_cons, List.foldlM_nil, List.length_replicate]
      rw [if_neg (by decide)]
      rfl]
  rfl

/-! ## Claim C6: lenient parameter skip -/

/-- C6: a LAYER record whose first data value is not an `Int16` leaves the
decoder state (in particular the current element's parameter sequence)
exactly unchanged, no panic is raised, and decoding proceeds with the next
record; the same holds for every other single-value parameter arm of the
dispatch table (DATATYPE, WIDTH, SNAME, TEXTTYPE, PRESENTATION, STRING,
STRANS, MAG, ANGLE, PATHTYPE, EFLAGS, NODETYPE, BGNEXTN) when the first
data value does not match that arm's expected variant or is absent. -/
theorem c6_param_skip :
    (∀ rec st rest, rec.rec_type = REC_TYPE_LAYER →
        (∀ x : ℤ, rec.data[0]? ≠ some (RecordData.int16 x)) →
        stepRecord rec st = some st ∧
          decodeRecords (rec :: rest) st = decodeRecords rest st) ∧
      (∀ rec st, rec.rec_type = REC_TYPE_DATATYPE →
        (∀ x : ℤ, rec.data[0]? ≠ some (RecordData.int16 x)) → stepRecord rec st = some st) ∧
      (∀ rec st, rec.rec_type = REC_TYPE_WIDTH →
        (∀ x : ℤ, rec.data[0]? ≠ some (RecordData.int32 x)) → stepRecord rec st = some st) ∧
      (∀ rec st, rec.rec_type = REC_TYPE_SNAME →
        (∀ s : List ℕ, rec.data[0]? ≠ some (RecordData.str s)) → stepRecord rec st = some st) ∧
      (∀ rec st, rec.rec_type = REC_TYPE_TEXTTYPE →
        (∀ x : ℤ, rec.data[0]? ≠ some (RecordData.int16 x)) → stepRecord rec st = some st) ∧
      (∀ rec st, rec.rec_type = REC_TYPE_PRESENTATION →
        (∀ x : ℕ, rec.data[0]? ≠ some (RecordData.bit x)) → stepRecord rec st = some st) ∧
      (∀ rec st, rec.rec_type = REC_TYPE_STRING →
        (∀ s : List ℕ, rec.data[0]? ≠ some (RecordData.str s)) → stepRecord rec st = some st) ∧
      (∀ rec st, rec.rec_type = REC_TYPE_STRANS →
        (∀ x : ℕ, rec.data[0]? ≠ some (RecordData.bit x)) → stepRecord rec st = some st) ∧
      (∀ rec st, rec.rec_type = REC_TYPE_MAG →
        (∀ x : ℚ, rec.data[0]? ≠ some (RecordData.real64 x)) → stepRecord rec st = some st) ∧
      (∀ rec st, rec.rec_type = REC_TYPE_ANGLE →
        (∀ x : ℚ, rec.data[0]? ≠ some (RecordData.real64 x)) → stepRecord rec st = some st) ∧
      (∀ rec st, rec.rec_type = REC_TYPE_PATHTYPE →
        (∀ x : ℤ, rec.data[0]? ≠ some (RecordData.int16 x)) → stepRecord rec st = some st) ∧
      (∀ rec st, rec.rec_type = REC_TYPE_EFLAGS →
        (∀ x : ℕ, rec.data[0]? ≠ some (RecordData.bit x)) → stepRecord rec st = some st) ∧
      (∀ rec st, rec.rec_type = REC_TYPE_NODETYPE →
        (∀ x : ℤ, rec.data[0]? ≠ some (RecordData.int16 x)) → stepRecord rec st = some st) ∧
      (∀ rec st, rec.rec_type = REC_TYPE_BGNEXTN →
        (∀ x : ℤ, rec.data[0]? ≠ some (RecordData.int32 x)) → stepRecord rec st = some st) := by
  have hlayer : ∀ rec st, rec.rec_type = REC_TYPE_LAYER →
      (∀ x : ℤ, rec.data[0]? ≠ some (RecordData.int16 x)) → stepRecord rec st = some st := by
    intro rec st h hm
    simp only [stepRecord, h]
    norm_num [REC_TYPE_BGNLIB, REC_TYPE_HEADER, REC_TYPE_LIBNAME, REC_TYPE_UNITS,
      REC_TYPE_BGNSTR, REC_TYPE_ENDSTR, REC_TYPE_STRNAME, REC_TYPE_BOUNDARY, REC_TYPE_PATH,
      REC_TYPE_SREF, REC_TYPE_AREF, REC_TYPE_TEXT, REC_TYPE_NODE, REC_TYPE_BOX,
      REC_TYPE_LAYER, REC_TYPE_XY, REC_TYPE_DATATYPE, REC_TYPE_WIDTH, REC_TYPE_SNAME,
      REC_TYPE_COLROW, REC_TYPE_TEXTTYPE, REC_TYPE_PRESENTATION, REC_TYPE_STRING,
      REC_TYPE_STRANS, REC_TYPE_MAG, REC_TYPE_ANGLE, REC_TYPE_PATHTYPE, REC_TYPE_EFLAGS,
      REC_TYPE_NODETYPE, REC_TYPE_BGNEXTN, REC_TYPE_ENDEL]
  refine ⟨?_, ?_, ?_, ?_, ?_, ?_, ?_, ?_, ?_, ?_, ?_, ?_, ?_, ?_⟩
  · intro rec st rest h hm
    refine ⟨hlayer rec st h hm, ?_⟩
    have h4 : rec.rec_type ≠ REC_TYPE_ENDLIB := by
      rw [h]; decide
    simp [decodeRecords, if_neg h4, hlayer rec st h hm]
  all_goals
    intro rec st h hm
    simp only [stepRecord, h]
    norm_num [REC_TYPE_BGNLIB, REC_TYPE_HEADER, REC_TYPE_LIBNAME, REC_TYPE_UNITS,
      REC_TYPE_BGNSTR, REC_TYPE_ENDSTR, REC_TYPE_STRNAME, REC_TYPE_BOUNDARY, REC_TYPE_PATH,
      REC_TYPE_SREF, REC_TYPE_AREF, REC_TYPE_TEXT, REC_TYPE_NODE, REC_TYPE_BOX,
      REC_TYPE_LAYER, REC_TYPE_XY, REC_TYPE_DATATYPE, REC_TYPE_WIDTH, REC_TYPE_SNAME,
      REC_TYPE_COLROW, REC_TYPE_TEXTTYPE, REC_TYPE_PRESENTATION, REC_TYPE_STRING,
      REC_TYPE_STRANS, REC_TYPE_MAG, REC_TYPE_ANGLE, REC_TYPE_PATHTYPE, REC_TYPE_EFLAGS,
      REC_TYPE_NODETYPE, REC_TYPE_BGNEXTN, REC_TYPE_ENDEL]

/-- C6 witness: a LAYER record carrying an `Int32` (mismatched) value, and a
MAG record with no data at all, each leave a concrete decoder state unchanged
and decoding continues past them. -/
theorem c6_witness :
    (stepRecord ⟨8, REC_TYPE_LAYER, DATA_TYPE_INT32, [RecordData.int32 7]⟩ initSt = some initSt ∧
        decodeRecords [⟨8, REC_TYPE_LAYER, DATA_TYPE_INT32, [RecordData.int32 7]⟩] initSt
          = decodeRecords [] initSt) ∧
      stepRecord ⟨4, REC_TYPE_MAG, DATA_TYPE_NONE, []⟩ initSt = some initSt := by
  constructor
  · exact c6_param_skip.1 ⟨8, REC_TYPE_LAYER, DATA_TYPE_INT32, [RecordData.int32 7]⟩ initSt []
      rfl (by intro x; simp)
  · exact c6_param_skip.2.2.2.2.2.2.2.2.1 ⟨4, REC_TYPE_MAG, DATA_TYPE_NONE, []⟩ initSt rfl
      (by intro x; simp)

/-! ## Claim C7: loop termination and ENDLIB -/

/-- C7 counterexample: a stream consisting of a single XY record with no data
values contains no ENDLIB record, yet the decode loop does not run forever on
it — the `usize` underflow in the XY arm aborts it (`.panic`, a Rust panic in
debug builds), so "a stream without ENDLIB never terminates" fails. -/
theorem c7_counterexample :
    (⟨4, REC_TYPE_XY, DATA_TYPE_INT32, ([] : List RecordData)⟩ : Record).rec_type
        ≠ REC_TYPE_ENDLIB ∧
      decodeRecords [⟨4, REC_TYPE_XY, DATA_TYPE_INT32, []⟩] initSt ≠ DecOutcome.diverge := by
  constructor
  · decide
  · decide

/-- C7 (amended): upon reaching an ENDLIB record the decode loop terminates
unconditionally and returns the accumulated Library; a record stream
containing no ENDLIB record never terminates normally — the loop either
panics (on an XY/COLROW record with no data values) or runs forever. -/
theorem c7_termination :
    (∀ r rs st, r.rec_type = REC_TYPE_ENDLIB →
        decodeRecords (r :: rs) st = DecOutcome.ok (finalize st)) ∧
      (∀ recs st, (∀ r ∈ recs, r.rec_type ≠ REC_TYPE_ENDLIB) →
        decodeRecords recs st = DecOutcome.panic ∨
          decodeRecords recs st = DecOutcome.diverge) := by
  constructor
  · intro r rs st h
    simp [decodeRecords, h]
  · intro recs
    induction recs with
    | nil => intro st _; right; rfl
    | cons r rs ih =>
        intro st h
        have hr : r.rec_type ≠ REC_TYPE_ENDLIB := h r (List.mem_cons_self _ _)
        simp only [decodeRecords, if_neg hr]
        cases hs : stepRecord r st with
        | none => left; rfl
        | some st' => exact ih st' fun t ht => h t (List.mem_cons_of_mem _ ht)

/-- C7 witness: an immediate ENDLIB stream terminates with the initial
accumulator's library, and a concrete ENDLIB-free stream does not
terminate normally. -/
theorem c7_witness :
    decodeRecords [Record.new_none REC_TYPE_ENDLIB] initSt
        = DecOutcome.ok (finalize initSt) ∧
      (decodeRecords [Record.new_none REC_TYPE_BOUNDARY] initSt = DecOutcome.panic ∨
        decodeRecords [Record.new_none REC_TYPE_BOUNDARY] initSt = DecOutcome.diverge) := by
  constructor
  · exact c7_termination.1 (Record.new_none REC_TYPE_ENDLIB) [] initSt rfl
  · exact c7_termination.2 [Record.new_none REC_TYPE_BOUNDARY] initSt
      (by intro r hr; simp at hr; subst hr; decide)

/-! ## Claim C9: XY/COLROW length underflow -/

/-- C9: the XY and COLROW arms compute `rec.data.len() - 1` on an unsigned
length; with at least one data value the arm is well-defined (and its
collection loops `xyLoop`/`colLoop` are total functions), but with zero data
values the unsigned subtraction underflows, so the step is a panic, and this
panic is reachable through the public decode interface. -/
theorem c9_xy_colrow_underflow :
    (∀ rec st, rec.rec_type = REC_TYPE_XY ∨ rec.rec_type = REC_TYPE_COLROW →
        rec.data ≠ [] → (stepRecord rec st).isSome) ∧
      (∀ rec st, rec.rec_type = REC_TYPE_XY ∨ rec.rec_type = REC_TYPE_COLROW →
        rec.data = [] → stepRecord rec st = none) ∧
      decodeRecords [⟨4, REC_TYPE_XY, DATA_TYPE_INT32, []⟩] initSt = DecOutcome.panic := by
  refine ⟨?_, ?_, by decide⟩
  · intro rec st h hne
    rcases h with h | h <;>
      simp [stepRecord, h, REC_TYPE_BGNLIB, REC_TYPE_HEADER, REC_TYPE_LIBNAME, REC_TYPE_UNITS,
        REC_TYPE_BGNSTR, REC_TYPE_ENDSTR, REC_TYPE_STRNAME, REC_TYPE_BOUNDARY, REC_TYPE_PATH,
        REC_TYPE_SREF, REC_TYPE_AREF, REC_TYPE_TEXT, REC_TYPE_NODE, REC_TYPE_BOX,
        REC_TYPE_LAYER, REC_TYPE_XY, REC_TYPE_DATATYPE, REC_TYPE_WIDTH, REC_TYPE_SNAME,
        REC_TYPE_COLROW, List.length_eq_zero, hne]
  · intro rec st h he
    rcases h with h | h <;>
      simp [stepRecord, h, REC_TYPE_BGNLIB, REC_TYPE_HEADER, REC_TYPE_LIBNAME, REC_TYPE_UNITS,
        REC_TYPE_BGNSTR, REC_TYPE_ENDSTR, REC_TYPE_STRNAME, REC_TYPE_BOUNDARY, REC_TYPE_PATH,
        REC_TYPE_SREF, REC_TYPE_AREF, REC_TYPE_TEXT, REC_TYPE_NODE, REC_TYPE_BOX,
        REC_TYPE_LAYER, REC_TYPE_XY, REC_TYPE_DATATYPE, REC_TYPE_WIDTH, REC_TYPE_SNAME,
        REC_TYPE_COLROW, he]

/-- C9 witness: a concrete one-point XY record decodes without panic, while a
zero-value XY record panics. -/
theorem c9_witness :
    (stepRecord ⟨12, REC_TYPE_XY, DATA_TYPE_INT32,
        [RecordData.int32 3, RecordData.int32 4]⟩ initSt).isSome ∧
      stepRecord ⟨4, REC_TYPE_COLROW, DATA_TYPE_INT16, []⟩ initSt = none := by
  constructor
  · exact c9_xy_colrow_underflow.1 ⟨12, REC_TYPE_XY, DATA_TYPE_INT32,
      [RecordData.int32 3, RecordData.int32 4]⟩ initSt (Or.inl rfl) (by decide)
  · exact c9_xy_colrow_underflow.2.1 ⟨4, REC_TYPE_COLROW, DATA_TYPE_INT16, []⟩ initSt
      (Or.inr rfl) rfl

/-! ## Claim C3: encoding of zero -/

/-- C3 counterexample: the claim that encoding `0.0` produces an all-zero
encoding (every output byte zero, including the exponent field) is false:
the first byte carries the exponent bias 64, for both codec widths. -/
theorem c3_counterexample :
    gds_real_to_bytes 0 ≠ some [0, 0, 0, 0, 0, 0, 0, 0] ∧
      gds_real_32_to_bytes 0 ≠ some [0, 0, 0, 0] := by
  constructor
  · simp [gds_real_to_bytes, beBytes, List.range_succ, Rat.floor]
  · simp [gds_real_32_to_bytes, beBytes, List.range_succ, Rat.floor]

/-- C3 (amended): encoding `0.0` with either codec width produces a zero sign
bit and all-zero mantissa bytes, but the sign-and-exponent byte holds the bias
value 64, so the output is `[64, 0, 0, 0, 0, 0, 0, 0]` (64-bit codec) and
`[64, 0, 0, 0]` (32-bit codec), not an all-zero byte pattern. -/
theorem c3_zero_encoding :
    gds_real_to_bytes 0 = some [64, 0, 0, 0, 0, 0, 0, 0] ∧
      gds_real_32_to_bytes 0 = some [64, 0, 0, 0] := by
  constructor
  · simp [gds_real_to_bytes, beBytes, List.range_succ, Rat.floor]
  · simp [gds_real_32_to_bytes, beBytes, List.range_succ, Rat.floor]

/-! ## Claims C5 and C10: the byte-level record reader -/


/-- Reading `n + 1` bytes is one byte then `n` bytes. -/
theorem readBytes_succ_front (f : ℕ → ℕ) (pos n : ℕ) :
    readBytes f pos (n + 1) = readByte f pos :: readBytes f (pos + 1) n := by
  simp only [readBytes, List.range_succ_eq_map, List.map_cons, List.map_map]
  congr 1
  apply List.map_congr_left
  intro a _
  show readByte f (pos + (a + 1)) = readByte f (pos + 1 + a)
  congr 1
  omega

/-- The string loop exits normally exactly at the declared size, having
consumed `size - counter` bytes. -/
theorem strLoop_ok (f : ℕ → ℕ) (size : ℕ) (hsz : size ≤ 65535) :
    ∀ gas counter pos acc, counter < size → size - counter ≤ gas →
      strLoop f size gas counter pos acc
        = LoopRes.ok (acc ++ readBytes f pos (size - counter)) (pos + (size - counter)) := by
  intro gas
  induction gas with
  | zero => intro counter pos acc hlt hg; omega
  | succ gas ih =>
      intro counter pos acc hlt hg
      have h65 : counter ≠ 65535 := by omega
      rw [strLoop, if_neg h65]
      by_cases heq : counter + 1 = size
      · rw [if_pos heq]
        have h1 : size - counter = 1 := by omega
        rw [h1]
        simp [readBytes, readByte, List.range_succ]
      · rw [if_neg heq, ih (counter + 1) (pos + 1) (acc ++ [readByte f pos]) (by omega) (by omega)]
        have hsc : size - counter = (size - (counter + 1)) + 1 := by omega
        rw [hsc, readBytes_succ_front]
        simp [List.append_assoc]
        omega

/-- Once the byte counter has reached the declared size, the equality exit
test can never succeed again: the string loop runs until the checked `u16`
counter increment panics. -/
theorem strLoop_stuck (f : ℕ → ℕ) (size : ℕ) :
    ∀ gas counter pos acc, size ≤ counter →
      strLoop f size gas counter pos acc = LoopRes.panic := by
  intro gas
  induction gas with
  | zero => intro counter pos acc hle; rfl
  | succ gas ih =>
      intro counter pos acc hle
      by_cases h65 : counter = 65535
      · rw [strLoop, if_pos h65]
      · rw [strLoop, if_neg h65, if_neg (by omega), ih (counter + 1) (pos + 1) _ (by omega)]


/-- One `Int32` element push. -/
theorem pushParsed_int32 (acc : List RecordData) (bs : List ℕ) :
    pushParsed DATA_TYPE_INT32 acc bs = acc ++ [RecordData.int32 (toI32 (beNat (bs.take 4)))] := by
  simp [pushParsed, parseData, DATA_TYPE_BIT, DATA_TYPE_INT16, DATA_TYPE_INT32]

/-- The fixed-width loop on `Int32` data decodes exactly one value per full
4-byte element of the remaining payload and consumes the payload exactly:
a trailing partial element is consumed but never decoded. -/
theorem fixedLoop_int32 (f : ℕ → ℕ) (size : ℕ) (hsz : size ≤ 65531) :
    ∀ n counter pos acc, size - counter = n → counter + 4 ≤ size →
      ∃ acc2, fixedLoop f size DATA_TYPE_INT32 4 counter pos acc
          = LoopRes.ok acc2 (pos + (size - counter)) ∧
        acc2.length = acc.length + (size - counter) / 4 := by
  intro n
  induction n using Nat.strong_induction_on with
  | _ n ih =>
      intro counter pos acc hn hle
      rw [fixedLoop, if_neg (by omega : ¬ counter + 4 > 65535)]
      by_cases h1 : counter + 4 = size
      · rw [if_pos h1, pushParsed_int32]
        refine ⟨acc ++ [RecordData.int32 (toI32 (beNat ((readBytes f pos 4).take 4)))], ?_, ?_⟩
        · have h4 : size - counter = 4 := by omega
          rw [h4]
        · have h4 : size - counter = 4 := by omega
          simp [h4]
      · rw [if_neg h1, if_neg (by omega : ¬ counter + 4 + 4 > 65535)]
        by_cases h2 : counter + 4 + 4 > size
        · rw [if_pos h2, if_neg (by omega : ¬ size < counter + 4), pushParsed_int32]
          refine ⟨acc ++ [RecordData.int32 (toI32 (beNat ((readBytes f pos 4).take 4)))],
            ?_, ?_⟩
          · have h4 : 4 + (size - (counter + 4)) = size - counter := by omega
            rw [Nat.add_assoc, h4]
          · have hdiv : (size - counter) / 4 = 1 := by omega
            simp [hdiv]
        · rw [if_neg h2, if_neg (by omega : ¬ (4 : ℕ) = 0)]
          obtain ⟨acc2, heq, hlen⟩ := ih (size - (counter + 4)) (by omega) (counter + 4)
            (pos + 4) (pushParsed DATA_TYPE_INT32 acc (readBytes f pos 4)) rfl (by omega)
          refine ⟨acc2, ?_, ?_⟩
          · rw [heq]
            have h4 : 4 + (size - (counter + 4)) = size - counter := by omega
            rw [Nat.add_assoc, h4]
          · rw [hlen, pushParsed_int32]
            simp
            omega


/-- A record's declared size always fits a `u16`. -/
theorem be16_readByte_le (f : ℕ → ℕ) (pos : ℕ) :
    be16 (readByte f pos) (readByte f (pos + 1)) ≤ 65535 := by
  have h1 : f pos % 256 < 256 := Nat.mod_lt _ (by omega)
  have h2 : f (pos + 1) % 256 < 256 := Nat.mod_lt _ (by omega)
  simp only [be16, readByte]
  omega

/-- C5: reading a record whose declared length field is 10 with the int32
data type decodes exactly one `Int32` value, and the 2 trailing payload
bytes are consumed from the stream (the position advances by the full 10
bytes) and discarded; in general, for any int32 record (size between 8 and
65531), the number of decoded values is `(size - 4) / 4` — a trailing
partial element never yields a decoded value — while the stream position
advances by the whole declared size. -/
theorem c5_record_framing :
    (∀ f : ℕ → ℕ, ∀ pos : ℕ, readByte f pos = 0 → readByte f (pos + 1) = 10 →
        readByte f (pos + 3) = DATA_TYPE_INT32 →
        recordRead f pos
          = ReadOutcome.ok ⟨10, readByte f (pos + 2), DATA_TYPE_INT32,
              [RecordData.int32 (toI32 (beNat ((readBytes f (pos + 4) 4).take 4)))]⟩
            (pos + 10)) ∧
      (∀ f : ℕ → ℕ, ∀ pos : ℕ, readByte f (pos + 3) = DATA_TYPE_INT32 →
        8 ≤ be16 (readByte f pos) (readByte f (pos + 1)) →
        be16 (readByte f pos) (readByte f (pos + 1)) ≤ 65531 →
        ∃ rec p2, recordRead f pos = ReadOutcome.ok rec p2 ∧
          rec.data.length = (be16 (readByte f pos) (readByte f (pos + 1)) - 4) / 4 ∧
          p2 = pos + be16 (readByte f pos) (readByte f (pos + 1))) := by
  constructor
  · intro f pos h0 h1 h3
    have hsz : be16 (readByte f pos) (readByte f (pos + 1)) = 10 := by
      rw [h0, h1]
      rfl
    unfold recordRead
    rw [h3, if_neg (by decide), if_pos (by decide), hsz,
      show data_size DATA_TYPE_INT32 = 4 from rfl]
    have hfl : fixedLoop f 10 DATA_TYPE_INT32 4 4 (pos + 4) []
        = LoopRes.ok [RecordData.int32 (toI32 (beNat ((readBytes f (pos + 4) 4).take 4)))]
          (pos + 4 + 4 + (10 - (4 + 4))) := by
      rw [fixedLoop, if_neg (by decide), if_neg (by decide), if_neg (by decide),
        if_pos (by decide), if_neg (by decide), pushParsed_int32]
      rfl
    rw [hfl]
  · intro f pos h3 h8 hle
    unfold recordRead
    rw [h3, if_neg (by decide), if_pos (by decide),
      show data_size DATA_TYPE_INT32 = 4 from rfl]
    obtain ⟨acc2, heq, hlen⟩ := fixedLoop_int32 f
      (be16 (readByte f pos) (readByte f (pos + 1))) hle
      (be16 (readByte f pos) (readByte f (pos + 1)) - 4) 4 (pos + 4) [] rfl (by omega)
    rw [heq]
    refine ⟨_, _, rfl, ?_, ?_⟩
    · simpa using hlen
    · omega

/-- C10 (amended): `Record::read` of a string-typed record terminates
normally only when the declared size is strictly greater than 4 (and the
`size - 4` payload bytes, which it then returns, are well-formed UTF-8 —
otherwise the `String::from_utf8(..).unwrap()` after the loop panics); for
a declared size of 4 or less the equality exit test is never met — the byte
counter is already past the size — and the loop terminates abnormally with
the checked 16-bit counter overflow panic instead of running forever. -/
theorem c10_strsize4 :
    (∀ f : ℕ → ℕ, ∀ pos : ℕ, readByte f (pos + 3) = DATA_TYPE_STR →
        4 < be16 (readByte f pos) (readByte f (pos + 1)) →
        validUtf8 (readBytes f (pos + 4)
            (be16 (readByte f pos) (readByte f (pos + 1)) - 4)) = true →
        recordRead f pos
          = ReadOutcome.ok ⟨be16 (readByte f pos) (readByte f (pos + 1)),
              readByte f (pos + 2), DATA_TYPE_STR,
              [RecordData.str (readBytes f (pos + 4)
                (be16 (readByte f pos) (readByte f (pos + 1)) - 4))]⟩
            (pos + be16 (readByte f pos) (readByte f (pos + 1)))) ∧
      (∀ f : ℕ → ℕ, ∀ pos : ℕ, readByte f (pos + 3) = DATA_TYPE_STR →
        4 < be16 (readByte f pos) (readByte f (pos + 1)) →
        validUtf8 (readBytes f (pos + 4)
            (be16 (readByte f pos) (readByte f (pos + 1)) - 4)) = false →
        recordRead f pos = ReadOutcome.panic) ∧
      (∀ f : ℕ → ℕ, ∀ pos : ℕ, readByte f (pos + 3) = DATA_TYPE_STR →
        be16 (readByte f pos) (readByte f (pos + 1)) ≤ 4 →
        recordRead f pos = ReadOutcome.panic) := by
  refine ⟨?_, ?_, ?_⟩
  · intro f pos h3 h4 hutf
    unfold recordRead
    rw [h3, if_pos (by decide)]
    rw [strLoop_ok f _ (be16_readByte_le f pos) 65532 4 (pos + 4) [] h4
      (by have := be16_readByte_le f pos; omega)]
    simp only [List.nil_append, hutf, if_true]
    congr 1
    omega
  · intro f pos h3 h4 hutf
    unfold recordRead
    rw [h3, if_pos (by decide)]
    rw [strLoop_ok f _ (be16_readByte_le f pos) 65532 4 (pos + 4) [] h4
      (by have := be16_readByte_le f pos; omega)]
    simp only [List.nil_append, hutf]
    rfl
  · intro f pos h3 hle
    unfold recordRead
    rw [h3, if_pos (by decide)]
    rw [strLoop_stuck f _ 65532 4 (pos + 4) [] hle]

/-- C10 counterexample: a string record declaring size 4 makes the read
loop terminate — abnormally, via the 16-bit byte-counter overflow panic —
contradicting the claim that the loop does not terminate. -/
theorem c10_counterexample :
    recordRead (fun i => [0, 4, 25, 6].getD i 0) 0 = ReadOutcome.panic ∧
      ReadOutcome.panic ≠ ReadOutcome.diverge := by
  constructor
  · unfold recordRead
    rw [if_pos (show readByte (fun i => [0, 4, 25, 6].getD i 0) (0 + 3)
        = DATA_TYPE_STR from rfl)]
    rw [strLoop_stuck _ _ 65532 4 (0 + 4) [] (by decide)]
  · decide

/-- C5 witness: a concrete int32 record of declared size 10 decodes to one
value and the reader stops at position 10. -/
theorem c5_witness :
    recordRead (fun i => [0, 10, 13, 3, 0, 0, 0, 1, 9, 9].getD i 0) 0
      = ReadOutcome.ok ⟨10, 13, DATA_TYPE_INT32, [RecordData.int32 1]⟩ 10 :=
  c5_record_framing.1 (fun i => [0, 10, 13, 3, 0, 0, 0, 1, 9, 9].getD i 0) 0 rfl rfl rfl

/-- C10 witness: a size-7 string record reads its 3 payload bytes (valid
UTF-8) normally, a size-6 string record whose 2 payload bytes are invalid
UTF-8 panics, and a size-3 string record panics in the loop. -/
theorem c10_witness :
    recordRead (fun i => [0, 7, 25, 6, 65, 66, 67].getD i 0) 0
        = ReadOutcome.ok ⟨7, 25, DATA_TYPE_STR, [RecordData.str [65, 66, 67]]⟩ 7 ∧
      recordRead (fun i => [0, 6, 25, 6, 255, 255].getD i 0) 0 = ReadOutcome.panic ∧
      recordRead (fun i => [0, 3, 25, 6].getD i 0) 0 = ReadOutcome.panic := by
  refine ⟨?_, ?_, ?_⟩
  · exact c10_strsize4.1 (fun i => [0, 7, 25, 6, 65, 66, 67].getD i 0) 0 rfl (by decide)
      (by decide)
  · exact c10_strsize4.2.1 (fun i => [0, 6, 25, 6, 255, 255].getD i 0) 0 rfl (by decide)
      (by decide)
  · exact c10_strsize4.2.2 (fun i => [0, 3, 25, 6].getD i 0) 0 rfl (by decide)

/-! ## From written bytes back to records

The byte hop of the round trip: reading back the bytes `Record::write`
emitted reconstructs the record (up to the `readBack` adjustment for marker
records), hence the byte-level `Library::read` loop computes the
record-level loop. -/

/-- A stream agreeing with `a ++ b` at `pos` agrees with `a` at `pos`. -/
theorem agrees_front (f : ℕ → ℕ) (pos : ℕ) (a b : List ℕ)
    (h : ∀ i, i < (a ++ b).length → f (pos + i) = (a ++ b).getD i 0) :
    ∀ i, i < a.length → f (pos + i) = a.getD i 0 := by
  intro i hi
  rw [h i (by simp; omega), List.getD_append _ _ _ _ hi]

/-- A stream agreeing with `a ++ b` at `pos` agrees with `b` after `a`. -/
theorem agrees_suffix (f : ℕ → ℕ) (pos : ℕ) (a b : List ℕ)
    (h : ∀ i, i < (a ++ b).length → f (pos + i) = (a ++ b).getD i 0) :
    ∀ i, i < b.length → f (pos + a.length + i) = b.getD i 0 := by
  intro i hi
  have h2 := h (a.length + i) (by simp; omega)
  rw [List.getD_append_right _ _ _ _ (by omega)] at h2
  have h3 : a.length + i - a.length = i := by omega
  rw [h3] at h2
  rw [← h2]
  congr 1
  omega

/-- Reading byte-valued bytes the stream agrees with returns them. -/
theorem readBytes_agrees (f : ℕ → ℕ) (pos : ℕ) (bs : List ℕ)
    (hlt : ∀ b ∈ bs, b < 256)
    (h : ∀ i, i < bs.length → f (pos + i) = bs.getD i 0) :
    readBytes f pos bs.length = bs := by
  apply List.ext_getElem
  · simp [readBytes]
  · intro i h1 h2
    simp only [readBytes, List.getElem_map, List.getElem_range, readByte]
    rw [h i h2, List.getD_eq_getElem _ _ h2]
    exact Nat.mod_eq_of_lt (hlt _ (List.getElem_mem h2))

/-- Inversion of a successful `mapM`: every output comes from an input. -/
theorem mapM_mem_inv {α β : Type} (g : α → Option β) :
    ∀ (ps : List α) (rs : List β), ps.mapM g = some rs → ∀ r ∈ rs, ∃ p ∈ ps, g p = some r := by
  intro ps
  induction ps with
  | nil =>
      intro rs h r hr
      simp only [List.mapM_nil, Option.pure_def, Option.some.injEq] at h
      subst h
      simp at hr
  | cons p ps ih =>
      intro rs h r hr
      rw [List.mapM_cons] at h
      cases hp : g p with
      | none => rw [hp] at h; simp at h
      | some b =>
          rw [hp] at h
          cases hps : ps.mapM g with
          | none => rw [hps] at h; simp at h
          | some bs =>
              rw [hps] at h
              simp at h
              subst h
              rcases List.mem_cons.mp hr with rfl | hr2
              · exact ⟨p, List.mem_cons_self _ _, hp⟩
              · obtain ⟨q, hq, hgq⟩ := ih bs hps r hr2
                exact ⟨q, List.mem_cons_of_mem _ hq, hgq⟩

/-- Uniform per-element encoded length gives the flattened payload length. -/
theorem mapM_flatten_length (w : ℕ) :
    ∀ (vs : List RecordData) (bss : List (List ℕ)),
      vs.mapM encodeOne = some bss →
      (∀ v ∈ vs, ∀ bs, encodeOne v = some bs → bs.length = w) →
      bss.flatten.length = w * vs.length := by
  intro vs
  induction vs with
  | nil =>
      intro bss h _
      simp only [List.mapM_nil, Option.pure_def, Option.some.injEq] at h
      subst h
      simp
  | cons v vs ih =>
      intro bss h hv
      rw [List.mapM_cons] at h
      cases hvb : encodeOne v with
      | none => rw [hvb] at h; simp at h
      | some bv =>
          rw [hvb] at h
          cases hvs : vs.mapM encodeOne with
          | none => rw [hvs] at h; simp at h
          | some bss2 =>
              rw [hvs] at h
              simp at h
              subst h
              have h1 := hv v (List.mem_cons_self _ _) bv hvb
              have h2 := ih bss2 hvs (fun t ht => hv t (List.mem_cons_of_mem _ ht))
              simp only [List.flatten_cons, List.length_append, List.length_cons, h1, h2,
                Nat.mul_succ]
              omega

/-- `u16_to_vec` writes two bytes that `BigEndian::read_u16` reads back. -/
theorem parse_bit (x : ℕ) (hx : validBit x) :
    (u16_to_vec x).length = 2 ∧ (∀ b ∈ u16_to_vec x, b < 256) ∧
      parseData DATA_TYPE_BIT (u16_to_vec x) = some (RecordData.bit x) := by
  have hx' : x < 65536 := hx
  refine ⟨rfl, ?_, ?_⟩
  · intro b hb
    simp [u16_to_vec] at hb
    rcases hb with rfl | rfl <;> omega
  · unfold parseData
    rw [if_pos rfl]
    have hbe : be16 ((u16_to_vec x).getD 0 0) ((u16_to_vec x).getD 1 0) = x := by
      simp [u16_to_vec, be16]
      omega
    rw [hbe]

/-- `i16_to_vec` writes two bytes that `BigEndian::read_i16` reads back,
for values within `i16` range. -/
theorem parse_int16 (x : ℤ) (hx : validI16 x) :
    (i16_to_vec x).length = 2 ∧ (∀ b ∈ i16_to_vec x, b < 256) ∧
      parseData DATA_TYPE_INT16 (i16_to_vec x) = some (RecordData.int16 x) := by
  have hx' : -32768 ≤ x ∧ x < 32768 := hx
  have hm : (x % 65536).toNat < 65536 := by omega
  refine ⟨rfl, ?_, ?_⟩
  · intro b hb
    simp [i16_to_vec] at hb
    rcases hb with rfl | rfl <;> omega
  · unfold parseData
    rw [if_neg (by decide), if_pos rfl]
    have hbe : be16 ((i16_to_vec x).getD 0 0) ((i16_to_vec x).getD 1 0)
        = (x % 65536).toNat := by
      simp [i16_to_vec, be16]
      omega
    rw [hbe]
    unfold toI16
    rw [Nat.mod_eq_of_lt hm]
    split <;> (simp only [Option.some.injEq, RecordData.int16.injEq]; omega)

/-- `i32_to_vec` writes four bytes that `BigEndian::read_i32` reads back,
for values within `i32` range. -/
theorem parse_int32 (x : ℤ) (hx : validI32 x) :
    (i32_to_vec x).length = 4 ∧ (∀ b ∈ i32_to_vec x, b < 256) ∧
      parseData DATA_TYPE_INT32 (i32_to_vec x) = some (RecordData.int32 x) := by
  have hx' : -2147483648 ≤ x ∧ x < 2147483648 := hx
  have hm : (x % 4294967296).toNat < 4294967296 := by omega
  refine ⟨rfl, ?_, ?_⟩
  · intro b hb
    simp [i32_to_vec] at hb
    rcases hb with rfl | rfl | rfl | rfl <;> omega
  · unfold parseData
    rw [if_neg (by decide), if_neg (by decide), if_pos rfl]
    have hbe : beNat ((i32_to_vec x).take 4) = (x % 4294967296).toNat := by
      simp [i32_to_vec, beNat]
      omega
    rw [hbe]
    unfold toI32
    rw [Nat.mod_eq_of_lt hm]
    split <;> (simp only [Option.some.injEq, RecordData.int32.injEq]; omega)

/-- The head and mantissa bytes a real encoding consists of are 8 bytes. -/
theorem real_bytes_shape_aux (x : ℚ) (e n : ℕ) :
    ((if x < 0 then 128 + e % 128 else e % 128) :: (beBytes 8 n).tail).length = 8 ∧
      ∀ b ∈ (if x < 0 then 128 + e % 128 else e % 128) :: (beBytes 8 n).tail, b < 256 := by
  constructor
  · simp [beBytes]
  · intro b hb
    rcases List.mem_cons.mp hb with rfl | hb
    · have h128 : e % 128 < 128 := Nat.mod_lt _ (by omega)
      split <;> omega
    · have hb2 := List.mem_of_mem_tail hb
      simp only [beBytes, List.mem_map, List.mem_range] at hb2
      obtain ⟨i, -, rfl⟩ := hb2
      exact Nat.mod_lt _ (by omega)

/-- The 64-bit real encoder as a normalization step followed by a pure
byte-packing step (unfolding of the construction in `gds_real_to_bytes`). -/
theorem gds_real_to_bytes_eq (x : ℚ) :
    gds_real_to_bytes x
      = (if (|x| : ℚ) ≠ 0 then (normUp |x| 64).bind fun p => normDown p.1 p.2
          else some (|x|, 64)).map
          fun p => (if x < 0 then 128 + p.2 % 128 else p.2 % 128)
            :: (beBytes 8 ((p.1 * 16 ^ 14).floor.toNat)).tail := by
  unfold gds_real_to_bytes
  by_cases h0 : (|x| : ℚ) ≠ 0
  · rw [if_pos h0, if_pos h0]
    cases normUp |x| 64 with
    | none => rfl
    | some me =>
        obtain ⟨m, e⟩ := me
        simp only [Option.bind_eq_bind, Option.some_bind]
        cases normDown m e with
        | none => rfl
        | some p => rfl
  · rw [if_neg h0, if_neg h0]
    rfl

/-- A successful 64-bit real encoding is 8 byte-sized bytes. -/
theorem gds_real_to_bytes_shape (x : ℚ) (bs : List ℕ) (h : gds_real_to_bytes x = some bs) :
    bs.length = 8 ∧ ∀ b ∈ bs, b < 256 := by
  rw [gds_real_to_bytes_eq, Option.map_eq_some'] at h
  obtain ⟨p, -, rfl⟩ := h
  exact real_bytes_shape_aux x p.2 ((p.1 * 16 ^ 14).floor.toNat)

/-- A codec-exact real value: its encoding parses back to it. -/
theorem parse_real64 (x : ℚ) (hx : codecId x) :
    ∀ bs, encodeOne (RecordData.real64 x) = some bs →
      bs.length = 8 ∧ (∀ b ∈ bs, b < 256) ∧
        parseData DATA_TYPE_REAL64 bs = some (RecordData.real64 x) := by
  intro bs hbs
  have hbs' : gds_real_to_bytes x = some bs := hbs
  obtain ⟨hlen, hlt⟩ := gds_real_to_bytes_shape x bs hbs'
  refine ⟨hlen, hlt, ?_⟩
  unfold parseData
  rw [if_neg (by decide), if_neg (by decide), if_neg (by decide), if_neg (by decide),
    if_pos rfl]
  have htake : bs.take 8 = bs := List.take_of_length_le (by omega)
  rw [htake]
  have hdec : bytes_to_gds_real bs = x := by
    have h2 : (gds_real_to_bytes x).map bytes_to_gds_real = some x := hx
    rw [hbs'] at h2
    simpa using h2
  rw [hdec]

/-- A well-formed datum encodes to exactly `data_size` bytes that parse
back to it. -/
theorem encodeOne_parse (dt : ℕ) (d : RecordData) (hd : wfDatum dt d) :
    ∀ bs, encodeOne d = some bs →
      bs.length = data_size dt ∧ (∀ b ∈ bs, b < 256) ∧ parseData dt bs = some d := by
  intro bs hbs
  cases d with
  | none => exact absurd hd (by simp [wfDatum])
  | real32 x => exact absurd hd (by simp [wfDatum])
  | str s => exact absurd hd (by simp [wfDatum])
  | bit x =>
      obtain ⟨rfl, hx⟩ := hd
      obtain ⟨h1, h2, h3⟩ := parse_bit x hx
      simp only [encodeOne, Option.some.injEq] at hbs
      subst hbs
      exact ⟨h1, h2, h3⟩
  | int16 x =>
      obtain ⟨rfl, hx⟩ := hd
      obtain ⟨h1, h2, h3⟩ := parse_int16 x hx
      simp only [encodeOne, Option.some.injEq] at hbs
      subst hbs
      exact ⟨h1, h2, h3⟩
  | int32 x =>
      obtain ⟨rfl, hx⟩ := hd
      obtain ⟨h1, h2, h3⟩ := parse_int32 x hx
      simp only [encodeOne, Option.some.injEq] at hbs
      subst hbs
      exact ⟨h1, h2, h3⟩
  | real64 x =>
      obtain ⟨rfl, hx⟩ := hd
      exact parse_real64 x hx bs hbs

/-- The fixed-width loop over a payload that is the concatenation of exact
`w`-byte encodings of the values decodes the values and stops at the end of
the payload. -/
theorem fixedLoop_encoded (f : ℕ → ℕ) (size dt w : ℕ) (hw : 0 < w) (hsz : size ≤ 65535) :
    ∀ (vs : List RecordData) (bss : List (List ℕ)) (counter pos : ℕ) (acc : List RecordData),
      vs ≠ [] → counter + w * vs.length = size →
      vs.mapM encodeOne = some bss →
      (∀ v ∈ vs, ∀ bs, encodeOne v = some bs →
        bs.length = w ∧ (∀ b ∈ bs, b < 256) ∧ parseData dt bs = some v) →
      (∀ i, i < bss.flatten.length → f (pos + i) = bss.flatten.getD i 0) →
      fixedLoop f size dt w counter pos acc = LoopRes.ok (acc ++ vs) (pos + w * vs.length) := by
  intro vs
  induction vs with
  | nil => intro bss counter pos acc hne; exact absurd rfl hne
  | cons v vs ih =>
      intro bss counter pos acc hne hcnt hm hvals hf
      rw [List.mapM_cons] at hm
      cases hv : encodeOne v with
      | none => rw [hv] at hm; simp at hm
      | some bv =>
          rw [hv] at hm
          cases hvs : vs.mapM encodeOne with
          | none => rw [hvs] at hm; simp at hm
          | some bss2 =>
              rw [hvs] at hm
              simp at hm
              subst hm
              obtain ⟨hbvlen, hbvlt, hbvparse⟩ := hvals v (List.mem_cons_self _ _) bv hv
              have hflat : (bv :: bss2).flatten = bv ++ bss2.flatten := rfl
              rw [hflat] at hf
              have hfb : ∀ i, i < bv.length → f (pos + i) = bv.getD i 0 :=
                agrees_front f pos bv bss2.flatten hf
              have hrb : readBytes f pos w = bv := by
                rw [← hbvlen]
                exact readBytes_agrees f pos bv hbvlt hfb
              have hpush : pushParsed dt acc (readBytes f pos w) = acc ++ [v] := by
                rw [hrb]
                simp [pushParsed, hbvparse]
              rw [List.length_cons, Nat.mul_succ] at hcnt
              by_cases hvse : vs = []
              · subst hvse
                have hstop : counter + w = size := by
                  simp only [List.length_nil, Nat.mul_zero] at hcnt
                  omega
                rw [fixedLoop, if_neg (by omega), if_pos hstop, hpush]
                simp
              · have hlen2 : 1 ≤ vs.length := by
                  rcases vs with _ | ⟨a, b⟩
                  · exact absurd rfl hvse
                  · simp
                have hwlen : w ≤ w * vs.length := by
                  calc w = w * 1 := by omega
                  _ ≤ w * vs.length := Nat.mul_le_mul_left w hlen2
                have hrest := ih bss2 (counter + w) (pos + w) (acc ++ [v]) hvse
                  (by omega) hvs (fun t ht => hvals t (List.mem_cons_of_mem _ ht)) ?hagree
                case hagree =>
                  intro i hi
                  have h2 := agrees_suffix f pos bv bss2.flatten hf i hi
                  rwa [hbvlen] at h2
                rw [fixedLoop, if_neg (by omega), if_neg (by omega), if_neg (by omega),
                  if_neg (by omega), if_neg (by omega), hpush, hrest]
                congr 1
                · simp
                · rw [List.length_cons, Nat.mul_succ]
                  omega

/-- Reading back the bytes `Record::write` emitted for a well-formed record
reconstructs `readBack` of it, the position advancing by the bytes' length. -/
theorem recordRead_of_write (r : Record) (bw : List ℕ) (f : ℕ → ℕ) (pos : ℕ)
    (hwf : wfRecord r) (hw : Record.write r = some bw)
    (hf : ∀ i, i < bw.length → f (pos + i) = bw.getD i 0) :
    recordRead f pos = ReadOutcome.ok (readBack r) (pos + bw.length) := by
  obtain ⟨hrt, hszle, hshape⟩ := hwf
  unfold Record.write at hw
  cases hm : r.data.mapM encodeOne with
  | none => rw [hm] at hw; simp at hw
  | some datas =>
      rw [hm] at hw
      simp only [Option.bind_eq_bind, Option.some_bind, Option.pure_def,
        Option.some.injEq] at hw
      subst hw
      have hbw : u16_to_vec r.size ++ [r.rec_type % 256, r.data_type % 256] ++ datas.flatten
          = r.size % 65536 / 256 :: r.size % 256 :: r.rec_type % 256 :: r.data_type % 256 ::
            datas.flatten := by
        simp [u16_to_vec]
      rw [hbw] at hf ⊢
      have hpeel : ∀ (a b c d : ℕ) (l : List ℕ) (i : ℕ),
          (a :: b :: c :: d :: l).getD (i + 4) 0 = l.getD i 0 := by
        intro a b c d l i
        show (a :: b :: c :: d :: l).getD (i + 1 + 1 + 1 + 1) 0 = l.getD i 0
        simp [List.getD_cons_succ]
      have hsmod : r.size % 65536 = r.size := Nat.mod_eq_of_lt (by omega)
      have h0 := hf 0 (by simp)
      have h1 := hf 1 (by simp)
      have h2 := hf 2 (by simp)
      have h3 := hf 3 (by simp)
      simp only [List.getD_cons_zero, List.getD_cons_succ, Nat.add_zero] at h0 h1 h2 h3
      have hrb0 : readByte f pos = r.size / 256 := by
        rw [readByte, h0, hsmod, Nat.mod_eq_of_lt (by omega)]
      have hrb1 : readByte f (pos + 1) = r.size % 256 := by
        rw [readByte, h1, Nat.mod_eq_of_lt (Nat.mod_lt _ (by omega))]
      have hrb2 : readByte f (pos + 2) = r.rec_type := by
        rw [readByte, h2, Nat.mod_eq_of_lt (Nat.mod_lt _ (by omega)), Nat.mod_eq_of_lt hrt]
      have hbe : be16 (readByte f pos) (readByte f (pos + 1)) = r.size := by
        rw [hrb0, hrb1, be16]
        omega
      have hfpl : ∀ i, i < datas.flatten.length → f (pos + 4 + i) = datas.flatten.getD i 0 := by
        intro i hi
        have h4 := hf (i + 4) (by simp only [List.length_cons]; omega)
        rw [hpeel] at h4
        rw [← h4]
        congr 1
        omega
      rcases hshape with ⟨hdt, hdata, hsz4, hxy, hcr⟩ | ⟨hdt0, hdt6, hdne, hall, hszeq⟩ |
        ⟨hdt, hdata, hgs, hszeq⟩
      · -- marker record: data `[None]`, no payload bytes
        have hdatas : datas = [[]] := by
          rw [hdata, List.mapM_cons, List.mapM_nil] at hm
          simp [encodeOne] at hm
          exact hm.symm
        have hfl0 : datas.flatten = ([] : List ℕ) := by rw [hdatas]; rfl
        have hrb3 : readByte f (pos + 3) = 0 := by
          rw [readByte, h3, hdt]
          rfl
        unfold recordRead
        rw [hrb3, if_neg (by decide), if_neg (by decide), hbe, hrb2]
        unfold readBack
        rw [if_pos hdt]
        rw [hfl0, hsz4, hdt]
        rfl
      · -- fixed-width record
        obtain ⟨d0, hd0⟩ : ∃ d0, d0 ∈ r.data := by
          rcases hde : r.data with _ | ⟨a, l⟩
          · exact absurd hde hdne
          · exact ⟨a, List.mem_cons_self _ _⟩
        have hdt : r.data_type = DATA_TYPE_BIT ∨ r.data_type = DATA_TYPE_INT16 ∨
            r.data_type = DATA_TYPE_INT32 ∨ r.data_type = DATA_TYPE_REAL64 := by
          have hwd := hall d0 hd0
          cases d0 <;> simp [wfDatum] at hwd <;> tauto
        have hdtlt : r.data_type < 256 := by
          rcases hdt with h | h | h | h <;> rw [h] <;> decide
        have hrb3 : readByte f (pos + 3) = r.data_type := by
          rw [readByte, h3, Nat.mod_eq_of_lt (Nat.mod_lt _ (by omega)),
            Nat.mod_eq_of_lt hdtlt]
        have hwpos : 0 < data_size r.data_type := by
          rcases hdt with h | h | h | h <;> rw [h] <;> decide
        have hvals : ∀ v ∈ r.data, ∀ bs, encodeOne v = some bs →
            bs.length = data_size r.data_type ∧ (∀ b ∈ bs, b < 256) ∧
              parseData r.data_type bs = some v :=
          fun v hv bs hbs => encodeOne_parse r.data_type v (hall v hv) bs hbs
        have hfllen : datas.flatten.length = data_size r.data_type * r.data.length :=
          mapM_flatten_length (data_size r.data_type) r.data datas hm
            (fun v hv bs hbs => (hvals v hv bs hbs).1)
        unfold recordRead
        rw [hrb3, if_neg hdt6, if_pos hdt0, hbe]
        rw [fixedLoop_encoded f r.size r.data_type (data_size r.data_type) hwpos hszle
          r.data datas 4 (pos + 4) [] hdne (by omega) hm hvals hfpl]
        rw [hrb2]
        unfold readBack
        rw [if_neg hdt0]
        simp only [List.nil_append]
        congr 1
        simp only [List.length_cons, hfllen]
        omega
      · -- single-string record
        obtain ⟨hsne, hslen, hsutf, hslt⟩ := hgs
        have hdatas : datas = [getStr r.data 0] := by
          rw [hdata, List.mapM_cons, List.mapM_nil] at hm
          simp [encodeOne] at hm
          exact hm.symm
        have hfls : datas.flatten = getStr r.data 0 := by rw [hdatas]; simp
        have hrb3 : readByte f (pos + 3) = DATA_TYPE_STR := by
          rw [readByte, h3, hdt]
          rfl
        unfold recordRead
        rw [hrb3, if_pos rfl, hbe]
        have hlne : (getStr r.data 0).length ≠ 0 := by
          intro hz
          exact hsne (List.length_eq_zero.mp hz)
        have h4lt : 4 < r.size := by omega
        rw [strLoop_ok f r.size hszle 65532 4 (pos + 4) [] h4lt (by omega)]
        simp only [hfls] at hfpl
        have hrbs : readBytes f (pos + 4) (r.size - 4) = getStr r.data 0 := by
          have hs4 : r.size - 4 = (getStr r.data 0).length := by omega
          rw [hs4]
          exact readBytes_agrees f (pos + 4) _ hslt hfpl
        simp only [List.nil_append, hrbs, hsutf, if_true]
        rw [hrb2]
        unfold readBack
        rw [if_neg (by rw [hdt]; decide)]
        rw [show (r : Record) = ⟨r.size, r.rec_type, r.data_type, r.data⟩ from rfl, hdt, hdata]
        congr 1
        simp only [List.length_cons, hfls]
        omega

/-- A record of a type outside the dispatch table leaves the state
unchanged (the final `_ => {}` arm of `Library::read`). -/
theorem stepRecord_fallthrough (rec : Record) (st : DecSt)
    (h1 : rec.rec_type ≠ REC_TYPE_BGNLIB)
    (h2 : rec.rec_type ≠ REC_TYPE_HEADER)
    (h3 : rec.rec_type ≠ REC_TYPE_LIBNAME)
    (h4 : rec.rec_type ≠ REC_TYPE_UNITS)
    (h5 : rec.rec_type ≠ REC_TYPE_BGNSTR)
    (h6 : rec.rec_type ≠ REC_TYPE_ENDSTR)
    (h7 : rec.rec_type ≠ REC_TYPE_STRNAME)
    (h8 : rec.rec_type ≠ REC_TYPE_BOUNDARY)
    (h9 : rec.rec_type ≠ REC_TYPE_PATH)
    (h10 : rec.rec_type ≠ REC_TYPE_SREF)
    (h11 : rec.rec_type ≠ REC_TYPE_AREF)
    (h12 : rec.rec_type ≠ REC_TYPE_TEXT)
    (h13 : rec.rec_type ≠ REC_TYPE_NODE)
    (h14 : rec.rec_type ≠ REC_TYPE_BOX)
    (h15 : rec.rec_type ≠ REC_TYPE_LAYER)
    (h16 : rec.rec_type ≠ REC_TYPE_XY)
    (h17 : rec.rec_type ≠ REC_TYPE_DATATYPE)
    (h18 : rec.rec_type ≠ REC_TYPE_WIDTH)
    (h19 : rec.rec_type ≠ REC_TYPE_SNAME)
    (h20 : rec.rec_type ≠ REC_TYPE_COLROW)
    (h21 : rec.rec_type ≠ REC_TYPE_TEXTTYPE)
    (h22 : rec.rec_type ≠ REC_TYPE_PRESENTATION)
    (h23 : rec.rec_type ≠ REC_TYPE_STRING)
    (h24 : rec.rec_type ≠ REC_TYPE_STRANS)
    (h25 : rec.rec_type ≠ REC_TYPE_MAG)
    (h26 : rec.rec_type ≠ REC_TYPE_ANGLE)
    (h27 : rec.rec_type ≠ REC_TYPE_PATHTYPE)
    (h28 : rec.rec_type ≠ REC_TYPE_EFLAGS)
    (h29 : rec.rec_type ≠ REC_TYPE_NODETYPE)
    (h30 : rec.rec_type ≠ REC_TYPE_BGNEXTN)
    (h31 : rec.rec_type ≠ REC_TYPE_ENDEL) :
    stepRecord rec st = some st := by
  unfold stepRecord
  rw [if_neg h1, if_neg h2, if_neg h3, if_neg h4, if_neg h5, if_neg h6, if_neg h7, if_neg h8, if_neg h9, if_neg h10, if_neg h11, if_neg h12, if_neg h13, if_neg h14, if_neg h15, if_neg h16, if_neg h17, if_neg h18, if_neg h19, if_neg h20, if_neg h21, if_neg h22, if_neg h23, if_neg h24, if_neg h25, if_neg h26, if_neg h27, if_neg h28, if_neg h29, if_neg h30, if_neg h31]

/-- The dispatch of `Library::read` does not distinguish a data list
`[None]` from the empty data list, for any record type other than
XY/COLROW (whose arms inspect the data length). -/
theorem stepRecord_none_data (sz sz' t dt dt' : ℕ) (st : DecSt)
    (hxy : t ≠ REC_TYPE_XY) (hcr : t ≠ REC_TYPE_COLROW) :
    stepRecord ⟨sz, t, dt, []⟩ st = stepRecord ⟨sz', t, dt', [RecordData.none]⟩ st := by
  by_cases h1 : t = REC_TYPE_BGNLIB
  · subst h1; rfl
  by_cases h2 : t = REC_TYPE_HEADER
  · subst h2; rfl
  by_cases h3 : t = REC_TYPE_LIBNAME
  · subst h3; rfl
  by_cases h4 : t = REC_TYPE_UNITS
  · subst h4; rfl
  by_cases h5 : t = REC_TYPE_BGNSTR
  · subst h5; rfl
  by_cases h6 : t = REC_TYPE_ENDSTR
  · subst h6; rfl
  by_cases h7 : t = REC_TYPE_STRNAME
  · subst h7; rfl
  by_cases h8 : t = REC_TYPE_BOUNDARY
  · subst h8; rfl
  by_cases h9 : t = REC_TYPE_PATH
  · subst h9; rfl
  by_cases h10 : t = REC_TYPE_SREF
  · subst h10; rfl
  by_cases h11 : t = REC_TYPE_AREF
  · subst h11; rfl
  by_cases h12 : t = REC_TYPE_TEXT
  · subst h12; rfl
  by_cases h13 : t = REC_TYPE_NODE
  · subst h13; rfl
  by_cases h14 : t = REC_TYPE_BOX
  · subst h14; rfl
  by_cases h15 : t = REC_TYPE_LAYER
  · subst h15; rfl
  by_cases h16 : t = REC_TYPE_XY
  · exact absurd h16 hxy
  by_cases h17 : t = REC_TYPE_DATATYPE
  · subst h17; rfl
  by_cases h18 : t = REC_TYPE_WIDTH
  · subst h18; rfl
  by_cases h19 : t = REC_TYPE_SNAME
  · subst h19; rfl
  by_cases h20 : t = REC_TYPE_COLROW
  · exact absurd h20 hcr
  by_cases h21 : t = REC_TYPE_TEXTTYPE
  · subst h21; rfl
  by_cases h22 : t = REC_TYPE_PRESENTATION
  · subst h22; rfl
  by_cases h23 : t = REC_TYPE_STRING
  · subst h23; rfl
  by_cases h24 : t = REC_TYPE_STRANS
  · subst h24; rfl
  by_cases h25 : t = REC_TYPE_MAG
  · subst h25; rfl
  by_cases h26 : t = REC_TYPE_ANGLE
  · subst h26; rfl
  by_cases h27 : t = REC_TYPE_PATHTYPE
  · subst h27; rfl
  by_cases h28 : t = REC_TYPE_EFLAGS
  · subst h28; rfl
  by_cases h29 : t = REC_TYPE_NODETYPE
  · subst h29; rfl
  by_cases h30 : t = REC_TYPE_BGNEXTN
  · subst h30; rfl
  by_cases h31 : t = REC_TYPE_ENDEL
  · subst h31; rfl
  exact (stepRecord_fallthrough ⟨sz, t, dt, []⟩ st h1 h2 h3 h4 h5 h6 h7 h8 h9 h10 h11 h12 h13 h14 h15 h16 h17 h18 h19 h20 h21 h22 h23 h24 h25 h26 h27 h28 h29 h30 h31).trans
    (stepRecord_fallthrough ⟨sz', t, dt', [RecordData.none]⟩ st h1 h2 h3 h4 h5 h6 h7 h8 h9 h10 h11 h12 h13 h14 h15 h16 h17 h18 h19 h20 h21 h22 h23 h24 h25 h26 h27 h28 h29 h30 h31).symm

/-- `stepRecord` is blind to the `readBack` adjustment. -/
theorem stepRecord_readBack (r : Record) (st : DecSt) (hwf : wfRecord r) :
    stepRecord (readBack r) st = stepRecord r st := by
  by_cases h0 : r.data_type = DATA_TYPE_NONE
  · unfold readBack
    rw [if_pos h0]
    obtain ⟨-, -, hshape⟩ := hwf
    rcases hshape with ⟨-, hdata, -, hxy, hcr⟩ | ⟨hdt0, -⟩ | ⟨hdt, -⟩
    · have hr : r = ⟨r.size, r.rec_type, r.data_type, [RecordData.none]⟩ := by
        rw [← hdata]
      conv_rhs => rw [hr]
      exact stepRecord_none_data r.size r.size r.rec_type r.data_type r.data_type st hxy hcr
    · exact absurd h0 hdt0
    · rw [h0] at hdt
      exact absurd hdt (by decide)
  · unfold readBack
    rw [if_neg h0]

/-- Over the serialized bytes of a list of well-formed records, the
byte-level read loop, with fuel the record count, computes exactly the
record-level loop. -/
theorem decodeBytes_sim :
    ∀ (recs : List Record) (bss : List (List ℕ)) (f : ℕ → ℕ) (pos : ℕ) (st : DecSt),
      recs.mapM Record.write = some bss →
      (∀ r ∈ recs, wfRecord r) →
      (∀ i, i < bss.flatten.length → f (pos + i) = bss.flatten.getD i 0) →
      decodeBytes f recs.length pos st = decodeRecords recs st := by
  intro recs
  induction recs with
  | nil => intro bss f pos st _ _ _; rfl
  | cons r rest ih =>
      intro bss f pos st hm hwf hf
      rw [List.mapM_cons] at hm
      cases hwr : Record.write r with
      | none => rw [hwr] at hm; simp at hm
      | some bw =>
          rw [hwr] at hm
          cases hrest : rest.mapM Record.write with
          | none => rw [hrest] at hm; simp at hm
          | some bss2 =>
              rw [hrest] at hm
              simp at hm
              subst hm
              have hfsplit : (bw :: bss2).flatten = bw ++ bss2.flatten := rfl
              rw [hfsplit] at hf
              have hread := recordRead_of_write r bw f pos (hwf r (List.mem_cons_self _ _))
                hwr (agrees_front f pos bw bss2.flatten hf)
              have hrt : (readBack r).rec_type = r.rec_type := by
                unfold readBack
                split <;> rfl
              show decodeBytes f (rest.length + 1) pos st = _
              rw [decodeBytes, hread]
              simp only [hrt, decodeRecords]
              by_cases hend : r.rec_type = REC_TYPE_ENDLIB
              · rw [if_pos hend, if_pos hend]
              · rw [if_neg hend, if_neg hend,
                  stepRecord_readBack r st (hwf r (List.mem_cons_self _ _))]
                cases hst : stepRecord r st with
                | none => rfl
                | some st2 =>
                    exact ih bss2 f (pos + bw.length) st2 hrest
                      (fun t ht => hwf t (List.mem_cons_of_mem _ ht))
                      (agrees_suffix f pos bw bss2.flatten hf)

/-! ## Well-formedness of the records `Library::write` emits -/

/-- `Record::new` with an exactly-fitting payload computes the exact size. -/
theorem recNew_eq (rt dt : ℕ) (data : List RecordData)
    (hsz : data_size dt * data.length ≤ 65531) :
    Record.recNew rt dt data = some ⟨4 + data_size dt * data.length, rt, dt, data⟩ := by
  unfold Record.recNew
  rw [Nat.mod_eq_of_lt (by omega), if_pos (by omega)]

/-- `new_single` on a short string computes the exact size. -/
theorem new_single_str_eq (rt : ℕ) (s : List ℕ) (hlen : s.length ≤ 65531) :
    Record.new_single rt DATA_TYPE_STR (RecordData.str s)
      = some ⟨4 + s.length, rt, DATA_TYPE_STR, [RecordData.str s]⟩ := by
  have hspec := update_size_spec ⟨0, rt, DATA_TYPE_STR, [RecordData.str s]⟩
    (fun _ t ht => by simp at ht; subst ht; omega)
    (by simp [specPayloadLen, strLenSum]; omega)
  unfold Record.new_single
  rw [hspec]
  simp [specPayloadLen, strLenSum]

/-- A well-formed marker record. -/
theorem wf_new_none (rt : ℕ) (hrt : rt < 256) (hxy : rt ≠ REC_TYPE_XY)
    (hcr : rt ≠ REC_TYPE_COLROW) : wfRecord (Record.new_none rt) :=
  ⟨hrt, by show (4 : ℕ) ≤ 65535; decide, Or.inl ⟨rfl, rfl, rfl, hxy, hcr⟩⟩

/-- A well-formed fixed-width record. -/
theorem wf_fixed (rt dt : ℕ) (data : List RecordData) (hrt : rt < 256)
    (hdt0 : dt ≠ DATA_TYPE_NONE) (hdt6 : dt ≠ DATA_TYPE_STR) (hne : data ≠ [])
    (hall : ∀ d ∈ data, wfDatum dt d) (hsz : 4 + data_size dt * data.length ≤ 65535) :
    wfRecord ⟨4 + data_size dt * data.length, rt, dt, data⟩ :=
  ⟨hrt, hsz, Or.inr (Or.inl ⟨hdt0, hdt6, hne, hall, rfl⟩)⟩

/-- A well-formed single-string record. -/
theorem wf_str (rt : ℕ) (s : List ℕ) (hrt : rt < 256) (hs : goodString s) :
    wfRecord ⟨4 + s.length, rt, DATA_TYPE_STR, [RecordData.str s]⟩ := by
  obtain ⟨hne, hlen, hutf, hlt⟩ := hs
  exact ⟨hrt, by show 4 + s.length ≤ 65535; omega, Or.inr (Or.inr ⟨rfl, by simp [getStr],
    by simpa [getStr] using (⟨hne, hlen, hutf, hlt⟩ : goodString s), by simp [getStr]⟩)⟩

/-- Every record `paramRecord` emits for a parameter satisfying the
round-trip side conditions is well-formed for the byte hop. -/
theorem paramRecord_wf (p : ElementParameter) (r : Record)
    (hok : okParam p) (hbp : bytesParam p) (h : paramRecord p = some r) : wfRecord r := by
  cases p with
  | layer x =>
      rw [show paramRecord (ElementParameter.layer x)
          = some ⟨6, REC_TYPE_LAYER, DATA_TYPE_INT16, [RecordData.int16 x]⟩ from rfl] at h
      injection h with h
      subst h
      exact wf_fixed REC_TYPE_LAYER DATA_TYPE_INT16 [RecordData.int16 x] (by decide) (by decide) (by decide) (by simp)
        (by intro d hd; simp at hd; subst hd; exact ⟨rfl, hbp⟩) (by simp [data_size, DATA_TYPE_NONE, DATA_TYPE_BIT, DATA_TYPE_INT16, DATA_TYPE_INT32, DATA_TYPE_REAL32, DATA_TYPE_REAL64, DATA_TYPE_STR])
  | xy v =>
      have hok' : v ≠ [] := hok
      obtain ⟨hlen8, hvals⟩ := hbp
      have hsz : data_size DATA_TYPE_INT32 * (flatXY v).length ≤ 65531 := by
        rw [flatXY_length]
        show 4 * (2 * v.length) ≤ 65531
        omega
      rw [show paramRecord (ElementParameter.xy v)
          = Record.recNew REC_TYPE_XY DATA_TYPE_INT32 (flatXY v) from rfl,
        recNew_eq _ _ _ hsz] at h
      injection h with h
      subst h
      refine wf_fixed REC_TYPE_XY DATA_TYPE_INT32 (flatXY v) (by decide) (by decide)
        (by decide) ?_ ?_ (by omega)
      · intro hemp
        rcases v with _ | ⟨q, v2⟩
        · exact hok' rfl
        · simp [flatXY] at hemp
      · intro d hd
        simp only [flatXY, List.mem_flatMap] at hd
        obtain ⟨q, hq, hd⟩ := hd
        simp at hd
        rcases hd with rfl | rfl
        · exact ⟨rfl, (hvals q hq).1⟩
        · exact ⟨rfl, (hvals q hq).2⟩
  | datatype x =>
      rw [show paramRecord (ElementParameter.datatype x)
          = some ⟨6, REC_TYPE_DATATYPE, DATA_TYPE_INT16, [RecordData.int16 x]⟩ from rfl] at h
      injection h with h
      subst h
      exact wf_fixed REC_TYPE_DATATYPE DATA_TYPE_INT16 [RecordData.int16 x] (by decide) (by decide) (by decide) (by simp)
        (by intro d hd; simp at hd; subst hd; exact ⟨rfl, hbp⟩) (by simp [data_size, DATA_TYPE_NONE, DATA_TYPE_BIT, DATA_TYPE_INT16, DATA_TYPE_INT32, DATA_TYPE_REAL32, DATA_TYPE_REAL64, DATA_TYPE_STR])
  | width x =>
      rw [show paramRecord (ElementParameter.width x)
          = some ⟨8, REC_TYPE_WIDTH, DATA_TYPE_INT32, [RecordData.int32 x]⟩ from rfl] at h
      injection h with h
      subst h
      exact wf_fixed REC_TYPE_WIDTH DATA_TYPE_INT32 [RecordData.int32 x] (by decide) (by decide) (by decide) (by simp)
        (by intro d hd; simp at hd; subst hd; exact ⟨rfl, hbp⟩) (by simp [data_size, DATA_TYPE_NONE, DATA_TYPE_BIT, DATA_TYPE_INT16, DATA_TYPE_INT32, DATA_TYPE_REAL32, DATA_TYPE_REAL64, DATA_TYPE_STR])
  | structureName s =>
      have hgs : goodString s := hbp
      rw [show paramRecord (ElementParameter.structureName s)
          = Record.new_single REC_TYPE_SNAME DATA_TYPE_STR (RecordData.str s) from rfl,
        new_single_str_eq _ _ hgs.2.1] at h
      injection h with h
      subst h
      exact wf_str _ _ (by decide) hgs
  | colRow v => exact absurd hok (by simp [okParam])
  | textType x =>
      rw [show paramRecord (ElementParameter.textType x)
          = some ⟨6, REC_TYPE_TEXTTYPE, DATA_TYPE_INT16, [RecordData.int16 x]⟩ from rfl] at h
      injection h with h
      subst h
      exact wf_fixed REC_TYPE_TEXTTYPE DATA_TYPE_INT16 [RecordData.int16 x] (by decide) (by decide) (by decide) (by simp)
        (by intro d hd; simp at hd; subst hd; exact ⟨rfl, hbp⟩) (by simp [data_size, DATA_TYPE_NONE, DATA_TYPE_BIT, DATA_TYPE_INT16, DATA_TYPE_INT32, DATA_TYPE_REAL32, DATA_TYPE_REAL64, DATA_TYPE_STR])
  | presentation x =>
      rw [show paramRecord (ElementParameter.presentation x)
          = some ⟨6, REC_TYPE_PRESENTATION, DATA_TYPE_BIT, [RecordData.bit x]⟩ from rfl] at h
      injection h with h
      subst h
      exact wf_fixed REC_TYPE_PRESENTATION DATA_TYPE_BIT [RecordData.bit x] (by decide) (by decide) (by decide) (by simp)
        (by intro d hd; simp at hd; subst hd; exact ⟨rfl, hbp⟩) (by simp [data_size, DATA_TYPE_NONE, DATA_TYPE_BIT, DATA_TYPE_INT16, DATA_TYPE_INT32, DATA_TYPE_REAL32, DATA_TYPE_REAL64, DATA_TYPE_STR])
  | str s =>
      have hgs : goodString s := hbp
      rw [show paramRecord (ElementParameter.str s)
          = Record.new_single REC_TYPE_STRING DATA_TYPE_STR (RecordData.str s) from rfl,
        new_single_str_eq _ _ hgs.2.1] at h
      injection h with h
      subst h
      exact wf_str _ _ (by decide) hgs
  | strTransf x =>
      rw [show paramRecord (ElementParameter.strTransf x)
          = some ⟨6, REC_TYPE_STRANS, DATA_TYPE_BIT, [RecordData.bit x]⟩ from rfl] at h
      injection h with h
      subst h
      exact wf_fixed REC_TYPE_STRANS DATA_TYPE_BIT [RecordData.bit x] (by decide) (by decide) (by decide) (by simp)
        (by intro d hd; simp at hd; subst hd; exact ⟨rfl, hbp⟩) (by simp [data_size, DATA_TYPE_NONE, DATA_TYPE_BIT, DATA_TYPE_INT16, DATA_TYPE_INT32, DATA_TYPE_REAL32, DATA_TYPE_REAL64, DATA_TYPE_STR])
  | magnification x =>
      rw [show paramRecord (ElementParameter.magnification x)
          = some ⟨12, REC_TYPE_MAG, DATA_TYPE_REAL64, [RecordData.real64 x]⟩ from rfl] at h
      injection h with h
      subst h
      exact wf_fixed REC_TYPE_MAG DATA_TYPE_REAL64 [RecordData.real64 x] (by decide) (by decide) (by decide) (by simp)
        (by intro d hd; simp at hd; subst hd; exact ⟨rfl, hbp⟩) (by simp [data_size, DATA_TYPE_NONE, DATA_TYPE_BIT, DATA_TYPE_INT16, DATA_TYPE_INT32, DATA_TYPE_REAL32, DATA_TYPE_REAL64, DATA_TYPE_STR])
  | angle x =>
      rw [show paramRecord (ElementParameter.angle x)
          = some ⟨12, REC_TYPE_ANGLE, DATA_TYPE_REAL64, [RecordData.real64 x]⟩ from rfl] at h
      injection h with h
      subst h
      exact wf_fixed REC_TYPE_ANGLE DATA_TYPE_REAL64 [RecordData.real64 x] (by decide) (by decide) (by decide) (by simp)
        (by intro d hd; simp at hd; subst hd; exact ⟨rfl, hbp⟩) (by simp [data_size, DATA_TYPE_NONE, DATA_TYPE_BIT, DATA_TYPE_INT16, DATA_TYPE_INT32, DATA_TYPE_REAL32, DATA_TYPE_REAL64, DATA_TYPE_STR])
  | pathtype x =>
      rw [show paramRecord (ElementParameter.pathtype x)
          = some ⟨6, REC_TYPE_PATHTYPE, DATA_TYPE_INT16, [RecordData.int16 x]⟩ from rfl] at h
      injection h with h
      subst h
      exact wf_fixed REC_TYPE_PATHTYPE DATA_TYPE_INT16 [RecordData.int16 x] (by decide) (by decide) (by decide) (by simp)
        (by intro d hd; simp at hd; subst hd; exact ⟨rfl, hbp⟩) (by simp [data_size, DATA_TYPE_NONE, DATA_TYPE_BIT, DATA_TYPE_INT16, DATA_TYPE_INT32, DATA_TYPE_REAL32, DATA_TYPE_REAL64, DATA_TYPE_STR])
  | eFlags x =>
      rw [show paramRecord (ElementParameter.eFlags x)
          = some ⟨6, REC_TYPE_EFLAGS, DATA_TYPE_BIT, [RecordData.bit x]⟩ from rfl] at h
      injection h with h
      subst h
      exact wf_fixed REC_TYPE_EFLAGS DATA_TYPE_BIT [RecordData.bit x] (by decide) (by decide) (by decide) (by simp)
        (by intro d hd; simp at hd; subst hd; exact ⟨rfl, hbp⟩) (by simp [data_size, DATA_TYPE_NONE, DATA_TYPE_BIT, DATA_TYPE_INT16, DATA_TYPE_INT32, DATA_TYPE_REAL32, DATA_TYPE_REAL64, DATA_TYPE_STR])
  | nodetype x =>
      rw [show paramRecord (ElementParameter.nodetype x)
          = some ⟨6, REC_TYPE_NODETYPE, DATA_TYPE_INT16, [RecordData.int16 x]⟩ from rfl] at h
      injection h with h
      subst h
      exact wf_fixed REC_TYPE_NODETYPE DATA_TYPE_INT16 [RecordData.int16 x] (by decide) (by decide) (by decide) (by simp)
        (by intro d hd; simp at hd; subst hd; exact ⟨rfl, hbp⟩) (by simp [data_size, DATA_TYPE_NONE, DATA_TYPE_BIT, DATA_TYPE_INT16, DATA_TYPE_INT32, DATA_TYPE_REAL32, DATA_TYPE_REAL64, DATA_TYPE_STR])
  | beginExt x =>
      rw [show paramRecord (ElementParameter.beginExt x)
          = some ⟨8, REC_TYPE_BGNEXTN, DATA_TYPE_INT32, [RecordData.int32 x]⟩ from rfl] at h
      injection h with h
      subst h
      exact wf_fixed REC_TYPE_BGNEXTN DATA_TYPE_INT32 [RecordData.int32 x] (by decide) (by decide) (by decide) (by simp)
        (by intro d hd; simp at hd; subst hd; exact ⟨rfl, hbp⟩) (by simp [data_size, DATA_TYPE_NONE, DATA_TYPE_BIT, DATA_TYPE_INT16, DATA_TYPE_INT32, DATA_TYPE_REAL32, DATA_TYPE_REAL64, DATA_TYPE_STR])

/-- Every record `Element::to_records` emits for a good element is
well-formed. -/
theorem elem_records_wf (e : Element) (rs : List Record)
    (hgood : goodElem e) (hbe : bytesElem e) (h : e.to_records = some rs) :
    ∀ r ∈ rs, wfRecord r := by
  obtain ⟨htype, hok⟩ := hgood
  unfold Element.to_records at h
  cases hmap : e.parameters.mapM paramRecord with
  | none => rw [hmap] at h; simp at h
  | some prs =>
      rw [hmap] at h
      simp at h
      subst h
      intro r hr
      rcases List.mem_cons.mp hr with rfl | hr
      · have h1 : elemTag e.element_type < 256 ∧ elemTag e.element_type ≠ REC_TYPE_XY ∧
            elemTag e.element_type ≠ REC_TYPE_COLROW := by
          cases e.element_type <;> exact ⟨by decide, by decide, by decide⟩
        exact wf_new_none _ h1.1 h1.2.1 h1.2.2
      · rcases List.mem_append.mp hr with hr | hr
        · obtain ⟨p, hp, hpr⟩ := mapM_mem_inv paramRecord e.parameters prs hmap r hr
          exact paramRecord_wf p r (hok p hp) (hbe p hp) hpr
        · simp only [List.mem_singleton] at hr
          subst hr
          exact wf_new_none _ (by decide) (by decide) (by decide)

/-- Every record `Structure::to_records` emits for a good structure is
well-formed. -/
theorem stru_records_wf (s : Structure) (rs : List Record)
    (hgood : goodStru s) (hbs : bytesStru s) (h : s.to_records = some rs) :
    ∀ r ∈ rs, wfRecord r := by
  obtain ⟨hname, hdm, hda, hels⟩ := hbs
  unfold Structure.to_records at h
  rw [show Record.recNew REC_TYPE_BGNSTR DATA_TYPE_INT16
      (s.date_mod.to_record_data ++ s.date_acc.to_record_data)
    = some ⟨28, REC_TYPE_BGNSTR, DATA_TYPE_INT16,
        s.date_mod.to_record_data ++ s.date_acc.to_record_data⟩ from rfl,
    new_single_str_eq _ _ hname.2.1] at h
  cases hmap : s.elements.mapM Element.to_records with
  | none => rw [hmap] at h; simp at h
  | some elss =>
      rw [hmap] at h
      simp at h
      subst h
      intro r hr
      rcases List.mem_cons.mp hr with rfl | hr
      · refine wf_fixed REC_TYPE_BGNSTR DATA_TYPE_INT16
          (s.date_mod.to_record_data ++ s.date_acc.to_record_data) (by decide) (by decide)
          (by decide) (by simp [Date.to_record_data]) ?_
          (by simp [data_size, Date.to_record_data, DATA_TYPE_NONE, DATA_TYPE_BIT, DATA_TYPE_INT16, DATA_TYPE_INT32, DATA_TYPE_REAL32, DATA_TYPE_REAL64, DATA_TYPE_STR])
        intro d hd
        obtain ⟨hdm1, hdm2, hdm3, hdm4, hdm5, hdm6⟩ := hdm
        obtain ⟨hda1, hda2, hda3, hda4, hda5, hda6⟩ := hda
        simp [Date.to_record_data] at hd
        rcases hd with rfl | rfl | rfl | rfl | rfl | rfl | rfl | rfl | rfl | rfl | rfl | rfl <;>
          exact ⟨rfl, by assumption⟩
      rcases List.mem_cons.mp hr with rfl | hr
      · exact wf_str _ _ (by decide) hname
      rcases List.mem_append.mp hr with hr | hr
      · obtain ⟨rs2, hrs2, hr2⟩ := List.mem_flatten.mp hr
        obtain ⟨e, he, hrec⟩ := mapM_mem_inv Element.to_records s.elements elss hmap rs2 hrs2
        exact elem_records_wf e rs2 (hgood e he) (hels e he) hrec r hr2
      · simp only [List.mem_singleton] at hr
        subst hr
        exact wf_new_none _ (by decide) (by decide) (by decide)

/-- Every record `Library::write` emits, for a library satisfying the
round-trip side conditions, is well-formed for the byte hop. -/
theorem write_wf (L : Library) (hgood : goodLib L) (hb : bytesLib L) (recs : List Record)
    (hw : Library.write L = some recs) : ∀ r ∈ recs, wfRecord r := by
  obtain ⟨hver, hname, hdm, hda, huu, hum, hstrus⟩ := hb
  unfold Library.write at hw
  rw [show Record.new_single REC_TYPE_HEADER DATA_TYPE_INT16 (RecordData.int16 L.version)
      = some ⟨6, REC_TYPE_HEADER, DATA_TYPE_INT16, [RecordData.int16 L.version]⟩ from rfl,
    show Record.recNew REC_TYPE_BGNLIB DATA_TYPE_INT16
        (L.date_mod.to_record_data ++ L.date_acc.to_record_data)
      = some ⟨28, REC_TYPE_BGNLIB, DATA_TYPE_INT16,
          L.date_mod.to_record_data ++ L.date_acc.to_record_data⟩ from rfl,
    show Record.recNew REC_TYPE_UNITS DATA_TYPE_REAL64
        [RecordData.real64 L.units_user, RecordData.real64 L.units_m]
      = some ⟨20, REC_TYPE_UNITS, DATA_TYPE_REAL64,
          [RecordData.real64 L.units_user, RecordData.real64 L.units_m]⟩ from rfl,
    new_single_str_eq _ _ hname.2.1] at hw
  cases hss : L.structures.mapM Structure.to_records with
  | none => rw [hss] at hw; simp at hw
  | some strss =>
      rw [hss] at hw
      simp at hw
      subst hw
      intro r hr
      rcases List.mem_cons.mp hr with rfl | hr
      · exact wf_fixed REC_TYPE_HEADER DATA_TYPE_INT16 [RecordData.int16 L.version]
          (by decide) (by decide) (by decide) (by simp)
          (by intro d hd; simp at hd; subst hd; exact ⟨rfl, hver⟩) (by simp [data_size, DATA_TYPE_NONE, DATA_TYPE_BIT, DATA_TYPE_INT16, DATA_TYPE_INT32, DATA_TYPE_REAL32, DATA_TYPE_REAL64, DATA_TYPE_STR])
      rcases List.mem_cons.mp hr with rfl | hr
      · refine wf_fixed REC_TYPE_BGNLIB DATA_TYPE_INT16
          (L.date_mod.to_record_data ++ L.date_acc.to_record_data) (by decide) (by decide)
          (by decide) (by simp [Date.to_record_data]) ?_
          (by simp [data_size, Date.to_record_data, DATA_TYPE_NONE, DATA_TYPE_BIT, DATA_TYPE_INT16, DATA_TYPE_INT32, DATA_TYPE_REAL32, DATA_TYPE_REAL64, DATA_TYPE_STR])
        intro d hd
        obtain ⟨hdm1, hdm2, hdm3, hdm4, hdm5, hdm6⟩ := hdm
        obtain ⟨hda1, hda2, hda3, hda4, hda5, hda6⟩ := hda
        simp [Date.to_record_data] at hd
        rcases hd with rfl | rfl | rfl | rfl | rfl | rfl | rfl | rfl | rfl | rfl | rfl | rfl <;>
          exact ⟨rfl, by assumption⟩
      rcases List.mem_cons.mp hr with rfl | hr
      · exact wf_str _ _ (by decide) hname
      rcases List.mem_cons.mp hr with rfl | hr
      · refine wf_fixed REC_TYPE_UNITS DATA_TYPE_REAL64
          [RecordData.real64 L.units_user, RecordData.real64 L.units_m] (by decide) (by decide)
          (by decide) (by simp) ?_ (by simp [data_size, DATA_TYPE_NONE, DATA_TYPE_BIT, DATA_TYPE_INT16, DATA_TYPE_INT32, DATA_TYPE_REAL32, DATA_TYPE_REAL64, DATA_TYPE_STR])
        intro d hd
        simp at hd
        rcases hd with rfl | rfl
        · exact ⟨rfl, huu⟩
        · exact ⟨rfl, hum⟩
      rcases List.mem_append.mp hr with hr | hr
      · obtain ⟨rs2, hrs2, hr2⟩ := List.mem_flatten.mp hr
        obtain ⟨s, hs, hrec⟩ := mapM_mem_inv Structure.to_records L.structures strss hss rs2 hrs2
        exact stru_records_wf s rs2 (hgood s hs) (hstrus s hs) hrec r hr2
      · simp only [List.mem_singleton] at hr
        subst hr
        exact wf_new_none _ (by decide) (by decide) (by decide)

/-! ## Claims C1 and C8: the byte-level round trip -/

/-- Encoding the real value 0 produces the bias byte and zero mantissa. -/
theorem gds_zero_bytes : gds_real_to_bytes 0 = some [64, 0, 0, 0, 0, 0, 0, 0] := by
  simp [gds_real_to_bytes, beBytes, List.range_succ, Rat.floor]

/-- The real codec reproduces 0 exactly. -/
theorem codecId_zero : codecId 0 := by
  unfold codecId
  rw [gds_zero_bytes]
  simp [bytes_to_gds_real, beNat]

/-- One step of evaluating `mapM Record.write` on a record list. -/
theorem mapM_write_cons (r : Record) (rs : List Record) (bw : List ℕ) (bss : List (List ℕ))
    (h1 : Record.write r = some bw) (h2 : rs.mapM Record.write = some bss) :
    (r :: rs).mapM Record.write = some (bw :: bss) := by
  rw [List.mapM_cons, h1, h2]
  rfl

/-- The bytes of the UNITS record with zero unit scalars. -/
theorem write_units_zero :
    Record.write ⟨20, 3, 5, [RecordData.real64 0, RecordData.real64 0]⟩
      = some [0, 20, 3, 5, 64, 0, 0, 0, 0, 0, 0, 0, 64, 0, 0, 0, 0, 0, 0, 0] := by
  unfold Record.write
  rw [List.mapM_cons, List.mapM_cons, List.mapM_nil,
    show encodeOne (RecordData.real64 0) = some [64, 0, 0, 0, 0, 0, 0, 0] from gds_zero_bytes]
  rfl

/-- The serialized bytes of `ceRecs`, record for record. -/
theorem ce_write_bytes : ceRecs.mapM Record.write = some ceBss :=
  (mapM_write_cons _ _ _ _ (by decide)
    (mapM_write_cons _ _ _ _ (by decide)
      (mapM_write_cons _ _ _ _ (by decide)
        (mapM_write_cons _ _ _ _ write_units_zero
          (mapM_write_cons _ _ _ _ (by decide)
            (mapM_write_cons _ _ _ _ (by decide)
              (mapM_write_cons _ _ _ _ (by decide)
                (mapM_write_cons _ _ _ _ (by decide)
                  (mapM_write_cons _ _ _ _ (by decide)
                    (mapM_write_cons _ _ _ _ (by decide)
                      (mapM_write_cons _ _ _ _ (by decide)
                        rfl)))))))))))

/-- The serialized bytes of `exRecs`, record for record. -/
theorem ex_write_bytes : exRecs.mapM Record.write = some exBss :=
  (mapM_write_cons _ _ _ _ (by decide)
    (mapM_write_cons _ _ _ _ (by decide)
      (mapM_write_cons _ _ _ _ (by decide)
        (mapM_write_cons _ _ _ _ write_units_zero
          (mapM_write_cons _ _ _ _ (by decide)
            (mapM_write_cons _ _ _ _ (by decide)
              (mapM_write_cons _ _ _ _ (by decide)
                (mapM_write_cons _ _ _ _ (by decide)
                  (mapM_write_cons _ _ _ _ (by decide)
                    (mapM_write_cons _ _ _ _ (by decide)
                      (mapM_write_cons _ _ _ _ (by decide)
                        (mapM_write_cons _ _ _ _ (by decide)
                          rfl))))))))))))

/-- The serialized bytes of `c8Recs`, record for record. -/
theorem c8_write_bytes : c8Recs.mapM Record.write = some c8Bss :=
  (mapM_write_cons _ _ _ _ (by decide)
    (mapM_write_cons _ _ _ _ (by decide)
      (mapM_write_cons _ _ _ _ (by decide)
        (mapM_write_cons _ _ _ _ write_units_zero
          (mapM_write_cons _ _ _ _ (by decide)
            rfl)))))

/-- C1 (amended): for every Library all of whose elements have a type other
than `None`, with no empty `XY` parameter and no `ColRow` parameter
(`goodLib`), whose strings are nonempty well-formed UTF-8 of at most 65531
bytes, whose integer fields are within their machine ranges, and whose real
values the codec reproduces exactly (`bytesLib`), whenever `Library::write`
succeeds, reading the bytes it wrote back through `Record::read` and the
decode loop yields a Library equal field-for-field to the original.  (The
exclusions are forced: a `None` element emits a tag-0 record the decoder
dispatches as HEADER; an empty `XY` record panics the decoder; the COLROW
loop drops the last value; an empty string yields a size-4 string record
whose byte-level read panics; invalid UTF-8 panics in `from_utf8`; and the
real codec truncates the mantissa to 14 hex digits, so only codec-exact
reals survive the byte hop.) -/
theorem c1_lib_roundtrip (L : Library) (hgood : goodLib L) (hbytes : bytesLib L)
    (recs : List Record) (hw : Library.write L = some recs)
    (bs : List ℕ) (hb : writeBytes recs = some bs) :
    decodeBytes (fun i => bs.getD i 0) recs.length 0 initSt = DecOutcome.ok L := by
  obtain ⟨bss, hm, rfl⟩ : ∃ bss, recs.mapM Record.write = some bss ∧ bs = bss.flatten := by
    unfold writeBytes at hb
    cases hmm : recs.mapM Record.write with
    | none => rw [hmm] at hb; simp at hb
    | some bss => rw [hmm] at hb; simp at hb; exact ⟨bss, rfl, hb.symm⟩
  rw [decodeBytes_sim recs bss _ 0 initSt hm (write_wf L hgood hbytes recs hw)
    (by intro i hi; simp)]
  exact writeRecords_decode L hgood recs hw

/-- C1 counterexample: serializing `ceLib` (whose one parameter is
`ColRow([2, 3])`) to its actual byte stream and reading the bytes back
yields `ceLibDecoded`, which differs from `ceLib` — the COLROW decode loop
dropped the value 3 — so the unrestricted round-trip claim fails on the
program's own byte stream. -/
theorem c1_counterexample :
    Library.write ceLib = some ceRecs ∧
      writeBytes ceRecs = some ceBss.flatten ∧
      decodeBytes (fun i => ceBss.flatten.getD i 0) ceRecs.length 0 initSt
        = DecOutcome.ok ceLibDecoded ∧
      ceLibDecoded ≠ ceLib := by
  have hun : wfRecord ⟨20, 3, 5, [RecordData.real64 0, RecordData.real64 0]⟩ := by
    refine ⟨by decide, by decide, Or.inr (Or.inl ⟨by decide, by decide, by decide, ?_, rfl⟩)⟩
    intro d hd
    rcases List.mem_cons.mp hd with rfl | hd
    · exact ⟨rfl, codecId_zero⟩
    rcases List.mem_cons.mp hd with rfl | hd
    · exact ⟨rfl, codecId_zero⟩
    simp at hd
  have hwf : ∀ r ∈ ceRecs, wfRecord r := by
    intro r hr
    simp only [ceRecs, List.mem_cons, List.not_mem_nil, or_false] at hr
    rcases hr with rfl | rfl | rfl | rfl | rfl | rfl | rfl | rfl | rfl | rfl | rfl <;>
      first
        | exact hun
        | decide
  refine ⟨by decide, by unfold writeBytes; rw [ce_write_bytes]; rfl, ?_, by decide⟩
  rw [decodeBytes_sim ceRecs ceBss _ 0 initSt ce_write_bytes hwf (by intro i hi; simp)]
  decide

/-- C1 witness: the amended byte-level round-trip theorem applied to
`exLib`, through its actual serialized bytes. -/
theorem c1_witness :
    decodeBytes (fun i => exBss.flatten.getD i 0) exRecs.length 0 initSt
      = DecOutcome.ok exLib := by
  have hwb : writeBytes exRecs = some exBss.flatten := by
    unfold writeBytes
    rw [ex_write_bytes]
    rfl
  exact c1_lib_roundtrip exLib (by decide)
    ⟨by decide, by decide, by decide, by decide, codecId_zero, codecId_zero, by decide⟩
    exRecs (by decide) exBss.flatten hwb

/-- C8 (amended): for every Library with an empty structure sequence whose
name is a nonempty well-formed UTF-8 string of at most 65531 bytes, whose
version and date fields are within their machine ranges, and whose unit
scalars the real codec reproduces exactly, whenever `Library::write`
succeeds it emits exactly five records in order HEADER, BGNLIB, LIBNAME,
UNITS, ENDLIB, and reading the bytes it wrote back through `Record::read`
and the decode loop yields a Library whose structure sequence is empty (and
whose other fields match).  (The conditions are forced: a 65532-byte name
overflows the record size field and panics `write`; an empty name writes a
size-4 LIBNAME record whose byte-level read panics; invalid UTF-8 panics in
`from_utf8`; and non-codec-exact unit values come back truncated.) -/
theorem c8_empty_library (L : Library) (h : L.structures = []) (hbytes : bytesLib L)
    (recs : List Record) (hw : Library.write L = some recs)
    (bs : List ℕ) (hb : writeBytes recs = some bs) :
    recs.map Record.rec_type
        = [REC_TYPE_HEADER, REC_TYPE_BGNLIB, REC_TYPE_LIBNAME, REC_TYPE_UNITS,
            REC_TYPE_ENDLIB] ∧
      decodeBytes (fun i => bs.getD i 0) recs.length 0 initSt
        = DecOutcome.ok ⟨L.version, L.name, L.date_mod, L.date_acc, L.units_user,
            L.units_m, []⟩ := by
  obtain ⟨hmap, hdec⟩ := writeRecords_empty L h recs hw
  refine ⟨hmap, ?_⟩
  obtain ⟨bss, hm, rfl⟩ : ∃ bss, recs.mapM Record.write = some bss ∧ bs = bss.flatten := by
    unfold writeBytes at hb
    cases hmm : recs.mapM Record.write with
    | none => rw [hmm] at hb; simp at hb
    | some bss => rw [hmm] at hb; simp at hb; exact ⟨bss, rfl, hb.symm⟩
  have hgood : goodLib L := by
    intro s hs
    rw [h] at hs
    simp at hs
  rw [decodeBytes_sim recs bss _ 0 initSt hm (write_wf L hgood hbytes recs hw)
    (by intro i hi; simp)]
  exact hdec

/-- C8 witness: the five-record encoding of the concrete empty library
`c8Lib` and the byte-level decoding of its actual serialized stream. -/
theorem c8_witness :
    c8Recs.map Record.rec_type
        = [REC_TYPE_HEADER, REC_TYPE_BGNLIB, REC_TYPE_LIBNAME, REC_TYPE_UNITS,
            REC_TYPE_ENDLIB] ∧
      decodeBytes (fun i => c8Bss.flatten.getD i 0) c8Recs.length 0 initSt
        = DecOutcome.ok ⟨7, [76, 73, 66], Date.new, Date.new, 0, 0, []⟩ := by
  have hwb : writeBytes c8Recs = some c8Bss.flatten := by
    unfold writeBytes
    rw [c8_write_bytes]
    rfl
  exact c8_empty_library c8Lib rfl
    ⟨by decide, by decide, by decide, by decide, codecId_zero, codecId_zero, by decide⟩
    c8Recs (by decide) c8Bss.flatten hwb

/-! ## Claim C2: the real codec round trip -/

/-- The 32-bit real encoder as normalization followed by byte packing. -/
theorem gds_real_32_to_bytes_eq (x : ℚ) :
    gds_real_32_to_bytes x
      = (if (|x| : ℚ) ≠ 0 then (normUp |x| 64).bind fun p => normDown p.1 p.2
          else some (|x|, 64)).map
          fun p => (if x < 0 then 128 + p.2 % 128 else p.2 % 128)
            :: (beBytes 4 ((p.1 * 16 ^ 6).floor.toNat)).tail := by
  unfold gds_real_32_to_bytes
  by_cases h0 : (|x| : ℚ) ≠ 0
  · rw [if_pos h0, if_pos h0]
    cases normUp |x| 64 with
    | none => rfl
    | some me =>
        obtain ⟨m, e⟩ := me
        simp only [Option.bind_eq_bind, Option.some_bind]
        cases normDown m e with
        | none => rfl
        | some p => rfl
  · rw [if_neg h0, if_neg h0]
    rfl

/-- Peeling one byte off a big-endian byte expansion. -/
theorem beBytes_succ (k n : ℕ) : beBytes (k + 1) n = (n / 256 ^ k % 256) :: beBytes k n := by
  simp only [beBytes, List.range_succ_eq_map, List.map_cons, List.map_map]
  congr 1
  apply List.map_congr_left
  intro a ha
  simp only [Function.comp_apply, Nat.succ_eq_add_one]
  have he : k + 1 - 1 - (a + 1) = k - 1 - a := by omega
  rw [he]

/-- The big-endian fold, started from an arbitrary accumulator. -/
theorem beNat_foldl_init (l : List ℕ) :
    ∀ a, l.foldl (fun a b => a * 256 + b % 256) a = a * 256 ^ l.length + beNat l := by
  induction l with
  | nil => intro a; simp [beNat]
  | cons b t ih =>
      intro a
      simp only [List.foldl_cons, List.length_cons]
      rw [ih (a * 256 + b % 256)]
      have hbn : beNat (b :: t) = (b % 256) * 256 ^ t.length + beNat t := by
        show List.foldl _ _ (b :: t) = _
        simp only [List.foldl_cons]
        rw [ih (0 * 256 + b % 256)]
        ring_nf
      rw [hbn]
      ring

/-- `beNat` inverts `beBytes`, modulo the byte width. -/
theorem beNat_beBytes_mod (k : ℕ) : ∀ n, beNat (beBytes k n) = n % 256 ^ k := by
  induction k with
  | zero =>
      intro n
      simp [beBytes, beNat]
      omega
  | succ k ih =>
      intro n
      rw [beBytes_succ]
      have hbn : beNat ((n / 256 ^ k % 256) :: beBytes k n)
          = (n / 256 ^ k % 256 % 256) * 256 ^ (beBytes k n).length + beNat (beBytes k n) := by
        show List.foldl _ _ _ = _
        simp only [List.foldl_cons]
        rw [beNat_foldl_init (beBytes k n) (0 * 256 + n / 256 ^ k % 256 % 256)]
        ring_nf
      rw [hbn, ih]
      have hlen : (beBytes k n).length = k := by simp [beBytes]
      rw [hlen, Nat.mod_eq_of_lt (Nat.mod_lt _ (by norm_num) : n / 256 ^ k % 256 < 256)]
      rw [pow_succ, Nat.mod_mul]
      ring

/-- The first normalization loop: a successful run divides the mantissa
down into `(0, 1]` while raising the exponent, exactly compensating. -/
theorem normUp_spec (fuel : ℕ) :
    ∀ (exp : ℕ) (man m1 : ℚ) (e1 : ℕ), 255 - exp ≤ fuel → 0 < man →
      normUp man exp = some (m1, e1) →
      man = m1 * 16 ^ (e1 - exp) ∧ exp ≤ e1 ∧ m1 ≤ 1 ∧ 0 < m1 := by
  induction fuel with
  | zero =>
      intro exp man m1 e1 hf hm h
      rw [normUp] at h
      by_cases h1 : 1 < man
      · rw [if_pos h1, if_pos (by omega)] at h
        exact absurd h (by simp)
      · rw [if_neg h1] at h
        simp only [Option.some.injEq, Prod.mk.injEq] at h
        obtain ⟨rfl, rfl⟩ := h
        exact ⟨by simp, le_refl _, by linarith, hm⟩
  | succ fuel ih =>
      intro exp man m1 e1 hf hm h
      rw [normUp] at h
      by_cases h1 : 1 < man
      · rw [if_pos h1] at h
        by_cases h255 : 255 ≤ exp
        · rw [if_pos h255] at h
          exact absurd h (by simp)
        · rw [if_neg h255] at h
          obtain ⟨heq, hle, hm1, hpos⟩ := ih (exp + 1) (man / 16) m1 e1 (by omega)
            (by positivity) h
          refine ⟨?_, by omega, hm1, hpos⟩
          have hstep : e1 - exp = (e1 - (exp + 1)) + 1 := by omega
          have hman : man = man / 16 * 16 := by ring
          rw [hman, heq, hstep, pow_succ]
          ring
      · rw [if_neg h1] at h
        simp only [Option.some.injEq, Prod.mk.injEq] at h
        obtain ⟨rfl, rfl⟩ := h
        exact ⟨by simp, le_refl _, by linarith, hm⟩

/-- The second normalization loop: a successful run multiplies the mantissa
up to at least `1/16` while lowering the exponent, exactly compensating,
and never pushes a mantissa at most 1 above 1. -/
theorem normDown_spec :
    ∀ (exp : ℕ) (man m1 : ℚ) (e1 : ℕ), 0 < man →
      normDown man exp = some (m1, e1) →
      m1 = man * 16 ^ (exp - e1) ∧ e1 ≤ exp ∧ ¬(m1 < 1 / 16) ∧ (man ≤ 1 → m1 ≤ 1) := by
  intro exp
  induction exp with
  | zero =>
      intro man m1 e1 hm h
      rw [normDown] at h
      by_cases h1 : man < 1 / 16
      · rw [if_pos h1, if_pos rfl] at h
        exact absurd h (by simp)
      · rw [if_neg h1] at h
        simp only [Option.some.injEq, Prod.mk.injEq] at h
        obtain ⟨rfl, rfl⟩ := h
        exact ⟨by simp, le_refl _, h1, fun hb => hb⟩
  | succ exp ih =>
      intro man m1 e1 hm h
      rw [normDown] at h
      by_cases h1 : man < 1 / 16
      · rw [if_pos h1, if_neg (by omega)] at h
        simp only [Nat.add_sub_cancel] at h
        obtain ⟨heq, hle, hge, hbound⟩ := ih (man * 16) m1 e1 (by positivity) h
        refine ⟨?_, by omega, hge, fun _ => hbound (by linarith)⟩
        have hstep : exp + 1 - e1 = (exp - e1) + 1 := by omega
        rw [heq, hstep, pow_succ]
        ring
      · rw [if_neg h1] at h
        simp only [Option.some.injEq, Prod.mk.injEq] at h
        obtain ⟨rfl, rfl⟩ := h
        exact ⟨by simp, le_refl _, h1, fun hb => hb⟩

/-- `Rat.floor` (the projection used by dot notation) agrees with `Int.floor`. -/
theorem rat_floor_eq (q : ℚ) : q.floor = ⌊q⌋ := by
  rw [Rat.floor_def', Rat.floor_def]

/-- The tail of a big-endian expansion drops the most significant byte. -/
theorem beBytes_tail (k n : ℕ) : (beBytes (k + 1) n).tail = beBytes k n := by
  rw [beBytes_succ, List.tail_cons]

/-- Evaluating the 64-bit decoder on a positive-sign byte followed by a
7-byte big-endian mantissa. -/
theorem bytes_decode_pos (e n : ℕ) (he : e < 128) (hn : n < 256 ^ 7) :
    bytes_to_gds_real (e :: beBytes 7 n) = (n : ℚ) * (16 : ℚ) ^ ((e : ℤ) - 64 - 14) := by
  have hlen : (beBytes 7 n).length = 7 := by simp [beBytes]
  have htake : (e :: beBytes 7 n).take 8 = e :: beBytes 7 n :=
    List.take_of_length_le (by simp [hlen])
  have hm256 : e % 256 = e := Nat.mod_eq_of_lt (by omega)
  have hm128 : e % 128 = e := Nat.mod_eq_of_lt he
  unfold bytes_to_gds_real
  simp only [List.getD_cons_zero, htake, List.tail_cons, hm256, hm128]
  rw [if_pos he, beNat_beBytes_mod, Nat.mod_eq_of_lt hn]
  rw [show ((e : ℤ) % 128 - 64 - 14) = (e : ℤ) - 64 - 14 from by omega]

/-- Evaluating the 64-bit decoder on a negative-sign byte followed by a
7-byte big-endian mantissa. -/
theorem bytes_decode_neg (e n : ℕ) (he : e < 128) (hn : n < 256 ^ 7) :
    bytes_to_gds_real ((128 + e) :: beBytes 7 n)
      = -((n : ℚ) * (16 : ℚ) ^ ((e : ℤ) - 64 - 14)) := by
  have hlen : (beBytes 7 n).length = 7 := by simp [beBytes]
  have htake : ((128 + e) :: beBytes 7 n).take 8 = (128 + e) :: beBytes 7 n :=
    List.take_of_length_le (by simp [hlen])
  have hm256 : (128 + e) % 256 = 128 + e := Nat.mod_eq_of_lt (by omega)
  have hm128 : (128 + e) % 128 = e := by omega
  unfold bytes_to_gds_real
  simp only [List.getD_cons_zero, htake, List.tail_cons, hm256, hm128]
  rw [if_neg (by omega), beNat_beBytes_mod, Nat.mod_eq_of_lt hn]
  rw [show (((128 + e : ℕ) : ℤ) % 128 - 64 - 14) = (e : ℤ) - 64 - 14 from by omega]

/-- Evaluating the 32-bit decoder on a positive-sign byte followed by a
3-byte big-endian mantissa. -/
theorem bytes32_decode_pos (e n : ℕ) (he : e < 128) (hn : n < 256 ^ 3) :
    bytes_to_gds_real32 (e :: beBytes 3 n) = (n : ℚ) * (16 : ℚ) ^ ((e : ℤ) - 64 - 6) := by
  have hlen : (beBytes 3 n).length = 3 := by simp [beBytes]
  have htake : (e :: beBytes 3 n).take 4 = e :: beBytes 3 n :=
    List.take_of_length_le (by simp [hlen])
  have hm256 : e % 256 = e := Nat.mod_eq_of_lt (by omega)
  have hm128 : e % 128 = e := Nat.mod_eq_of_lt he
  unfold bytes_to_gds_real32
  simp only [List.getD_cons_zero, htake, List.tail_cons, hm256, hm128]
  rw [if_pos he, beNat_beBytes_mod, Nat.mod_eq_of_lt hn]
  rw [show ((e : ℤ) % 128 - 64 - 6) = (e : ℤ) - 64 - 6 from by omega]

/-- Evaluating the 32-bit decoder on a negative-sign byte followed by a
3-byte big-endian mantissa. -/
theorem bytes32_decode_neg (e n : ℕ) (he : e < 128) (hn : n < 256 ^ 3) :
    bytes_to_gds_real32 ((128 + e) :: beBytes 3 n)
      = -((n : ℚ) * (16 : ℚ) ^ ((e : ℤ) - 64 - 6)) := by
  have hlen : (beBytes 3 n).length = 3 := by simp [beBytes]
  have htake : ((128 + e) :: beBytes 3 n).take 4 = (128 + e) :: beBytes 3 n :=
    List.take_of_length_le (by simp [hlen])
  have hm256 : (128 + e) % 256 = 128 + e := Nat.mod_eq_of_lt (by omega)
  have hm128 : (128 + e) % 128 = e := by omega
  unfold bytes_to_gds_real32
  simp only [List.getD_cons_zero, htake, List.tail_cons, hm256, hm128]
  rw [if_neg (by omega), beNat_beBytes_mod, Nat.mod_eq_of_lt hn]
  rw [show (((128 + e : ℕ) : ℤ) % 128 - 64 - 6) = (e : ℤ) - 64 - 6 from by omega]

/-- The combined normalization used by both encoders: a successful run
factors `|x|` as a mantissa in `[1/16, 1]` times a power of 16. -/
theorem norm_spec (x m : ℚ) (e : ℕ) (hx : x ≠ 0)
    (h : ((normUp |x| 64).bind fun p => normDown p.1 p.2) = some (m, e)) :
    |x| = m * (16 : ℚ) ^ ((e : ℤ) - 64) ∧ 1 / 16 ≤ m ∧ m ≤ 1 ∧ 0 < m := by
  rw [Option.bind_eq_some] at h
  obtain ⟨⟨m1, e1⟩, h1, h2⟩ := h
  have hxpos : 0 < |x| := abs_pos.mpr hx
  obtain ⟨hx1, he1, hm1le, hm1pos⟩ := normUp_spec 255 64 |x| m1 e1 (by omega) hxpos h1
  obtain ⟨hm, hee1, hmlo, hmhi⟩ := normDown_spec e1 m1 m e hm1pos h2
  have hmpos : 0 < m := by rw [hm]; positivity
  refine ⟨?_, not_lt.mp hmlo, hmhi hm1le, hmpos⟩
  rw [hx1, hm]
  rw [← zpow_natCast (16 : ℚ) (e1 - 64), ← zpow_natCast (16 : ℚ) (e1 - e)]
  rw [mul_assoc, ← zpow_add₀ (by norm_num : (16 : ℚ) ≠ 0)]
  rw [show ((e1 - e : ℕ) : ℤ) + ((e : ℤ) - 64) = ((e1 - 64 : ℕ) : ℤ) from by omega]

/-- Core truncation-error bound: writing `|x| = m * 16 ^ (e - 64)` with
`1/16 ≤ m`, the `d`-hex-digit floor approximation of the mantissa decodes
to within a relative error of `16 ^ (1 - d)`. -/
theorem c2_bound (x m : ℚ) (e d : ℕ)
    (hm_lo : 1 / 16 ≤ m)
    (hxe : |x| = m * (16 : ℚ) ^ ((e : ℤ) - 64)) :
    abs ((((m * 16 ^ d).floor.toNat : ℕ) : ℚ) * (16 : ℚ) ^ ((e : ℤ) - 64 - d) - |x|)
      ≤ |x| * (16 : ℚ) ^ (1 - (d : ℤ)) := by
  have h16 : (16 : ℚ) ≠ 0 := by norm_num
  set A : ℚ := (16 : ℚ) ^ ((e : ℤ) - 64 - d) with hA
  have hApos : 0 < A := by positivity
  have hmpos : 0 < m := lt_of_lt_of_le (by norm_num) hm_lo
  have hfl1 : (((m * 16 ^ d).floor : ℤ) : ℚ) ≤ m * 16 ^ d := by
    rw [rat_floor_eq]; exact Int.floor_le _
  have hfl2 : m * 16 ^ d < ((m * 16 ^ d).floor : ℤ) + 1 := by
    rw [rat_floor_eq]; exact Int.lt_floor_add_one _
  have hflnn : 0 ≤ (m * 16 ^ d).floor := by
    rw [rat_floor_eq]; exact Int.floor_nonneg.mpr (by positivity)
  have hcast : (((m * 16 ^ d).floor.toNat : ℕ) : ℚ) = (((m * 16 ^ d).floor : ℤ) : ℚ) := by
    rw [← Int.cast_natCast, Int.toNat_of_nonneg hflnn]
  have hx16 : |x| = m * 16 ^ d * A := by
    rw [hxe, hA, ← zpow_natCast (16 : ℚ) d, mul_assoc, ← zpow_add₀ h16]
    congr 2
    ring
  have hdiff : |(((m * 16 ^ d).floor : ℤ) : ℚ) - m * 16 ^ d| ≤ 1 :=
    abs_le.mpr ⟨by linarith, by linarith⟩
  have hstep1 : abs ((((m * 16 ^ d).floor.toNat : ℕ) : ℚ) * A - |x|)
      = |(((m * 16 ^ d).floor : ℤ) : ℚ) - m * 16 ^ d| * A := by
    rw [hcast, hx16, ← sub_mul, abs_mul, abs_of_pos hApos]
  have hrhs : |x| * (16 : ℚ) ^ (1 - (d : ℤ)) = m * 16 * A := by
    rw [hx16, hA]
    rw [← zpow_natCast (16 : ℚ) d]
    rw [mul_assoc, mul_assoc, ← zpow_add₀ h16, ← zpow_add₀ h16]
    rw [show ((d : ℤ) + (((e : ℤ) - 64 - d) + (1 - (d : ℤ)))) = (1 : ℤ) + ((e : ℤ) - 64 - d) from by ring]
    rw [zpow_add₀ h16, zpow_one]
    ring
  rw [hstep1, hrhs]
  calc |(((m * 16 ^ d).floor : ℤ) : ℚ) - m * 16 ^ d| * A ≤ 1 * A :=
        mul_le_mul_of_nonneg_right hdiff (le_of_lt hApos)
    _ ≤ m * 16 * A := by
        have : (1 : ℚ) ≤ m * 16 := by linarith
        exact mul_le_mul_of_nonneg_right this (le_of_lt hApos)

/-- Concrete run of the 64-bit encoder at 1: the `while man > 1` guard is
already false at `man = 1`, so the mantissa integer is `16 ^ 14`, whose top
byte is then sliced away, leaving an all-zero mantissa. -/
theorem encode_one_eval : gds_real_to_bytes (1 : ℚ) = some [64, 0, 0, 0, 0, 0, 0, 0] := by
  have habs : |(1 : ℚ)| = 1 := by norm_num
  have hup : normUp (1 : ℚ) 64 = some (1, 64) := by rw [normUp]; norm_num
  have hdn : normDown (1 : ℚ) 64 = some (1, 64) := by rw [normDown]; norm_num
  have hfl : ((1 : ℚ) * 16 ^ 14).floor = 72057594037927936 := by
    rw [rat_floor_eq]; norm_num
  rw [gds_real_to_bytes_eq, habs, if_pos (by norm_num : (1 : ℚ) ≠ 0), hup]
  simp only [Option.some_bind]
  rw [hdn]
  simp only [Option.map_some']
  rw [if_neg (by norm_num : ¬(1 : ℚ) < 0), hfl]
  decide

/-- Concrete run of the 32-bit encoder at 1: the same top-byte slice makes
the mantissa all-zero. -/
theorem encode32_one_eval : gds_real_32_to_bytes (1 : ℚ) = some [64, 0, 0, 0] := by
  have habs : |(1 : ℚ)| = 1 := by norm_num
  have hup : normUp (1 : ℚ) 64 = some (1, 64) := by rw [normUp]; norm_num
  have hdn : normDown (1 : ℚ) 64 = some (1, 64) := by rw [normDown]; norm_num
  have hfl : ((1 : ℚ) * 16 ^ 6).floor = 16777216 := by
    rw [rat_floor_eq]; norm_num
  rw [gds_real_32_to_bytes_eq, habs, if_pos (by norm_num : (1 : ℚ) ≠ 0), hup]
  simp only [Option.some_bind]
  rw [hdn]
  simp only [Option.map_some']
  rw [if_neg (by norm_num : ¬(1 : ℚ) < 0), hfl]
  decide

/-- Concrete run of the 64-bit encoder at 1/2. -/
theorem encode_half_eval :
    gds_real_to_bytes (1 / 2 : ℚ) = some [64, 128, 0, 0, 0, 0, 0, 0] := by
  have habs : |(1 / 2 : ℚ)| = 1 / 2 := by norm_num
  have hup : normUp (1 / 2 : ℚ) 64 = some (1 / 2, 64) := by rw [normUp]; norm_num
  have hdn : normDown (1 / 2 : ℚ) 64 = some (1 / 2, 64) := by rw [normDown]; norm_num
  have hfl : ((1 / 2 : ℚ) * 16 ^ 14).floor = 36028797018963968 := by
    rw [rat_floor_eq]; norm_num
  rw [gds_real_to_bytes_eq, habs, if_pos (by norm_num : (1 / 2 : ℚ) ≠ 0), hup]
  simp only [Option.some_bind]
  rw [hdn]
  simp only [Option.map_some']
  rw [if_neg (by norm_num : ¬(1 / 2 : ℚ) < 0), hfl]
  decide

/-- The 64-bit decoder sends the all-zero-mantissa pattern to 0. -/
theorem decode_zero_eval : bytes_to_gds_real [64, 0, 0, 0, 0, 0, 0, 0] = 0 := by
  have h0 : beBytes 7 0 = [0, 0, 0, 0, 0, 0, 0] := by decide
  have h1 : bytes_to_gds_real [64, 0, 0, 0, 0, 0, 0, 0]
      = ((0 : ℕ) : ℚ) * (16 : ℚ) ^ ((64 : ℤ) - 64 - 14) := by
    rw [← h0]
    exact bytes_decode_pos 64 0 (by norm_num) (by norm_num)
  rw [h1]
  norm_num

/-- The 32-bit decoder sends the all-zero-mantissa pattern to 0. -/
theorem decode32_zero_eval : bytes_to_gds_real32 [64, 0, 0, 0] = 0 := by
  have h0 : beBytes 3 0 = [0, 0, 0] := by decide
  have h1 : bytes_to_gds_real32 [64, 0, 0, 0]
      = ((0 : ℕ) : ℚ) * (16 : ℚ) ^ ((64 : ℤ) - 64 - 6) := by
    rw [← h0]
    exact bytes32_decode_pos 64 0 (by norm_num) (by norm_num)
  rw [h1]
  norm_num

/-- Folding a negative sign into the truncation-error bound. -/
theorem glue_neg (q b x : ℚ) (hx : x < 0) (h : abs (q - |x|) ≤ b) : |(-q) - x| ≤ b := by
  have hxa : |x| = -x := abs_of_neg hx
  have heq : (-q) - x = -(q - |x|) := by rw [hxa]; ring
  rwa [heq, abs_neg]

/-- Removing the absolute value from the truncation-error bound when the
input is nonnegative. -/
theorem glue_pos (q b x : ℚ) (hx : 0 ≤ x) (h : abs (q - |x|) ≤ b) : |q - x| ≤ b := by
  rwa [abs_of_nonneg hx] at h

/-- C2 (amended). For every nonzero rational `x` whose absolute value is not
an exact power of 16 and is below `16 ^ 63`, whenever an encoder returns a
byte string, decoding it recovers `x` within the relative precision budget of
the mantissa width: `16 ^ (-13)` for the 64-bit codec (14 hex digits) and
`16 ^ (-5)` for the 32-bit codec (6 hex digits).  The power-of-16 exclusion
is forced by a code slip: `while man > 1` leaves `man = 1` unnormalized, the
mantissa integer `16 ^ 14` then needs 8 bytes and its top byte is sliced off,
so e.g. `decode(encode(1.0)) = 0.0` (see the counterexample). -/
theorem c2_real_roundtrip (x : ℚ) (hx : x ≠ 0)
    (hpow : ∀ k : ℤ, |x| ≠ (16 : ℚ) ^ k) (hbig : |x| < (16 : ℚ) ^ (63 : ℤ)) :
    (∀ bs, gds_real_to_bytes x = some bs →
      |bytes_to_gds_real bs - x| ≤ |x| * (16 : ℚ) ^ (-13 : ℤ)) ∧
    (∀ bs, gds_real_32_to_bytes x = some bs →
      |bytes_to_gds_real32 bs - x| ≤ |x| * (16 : ℚ) ^ (-5 : ℤ)) := by
  have habs0 : |x| ≠ 0 := abs_ne_zero.mpr hx
  have key : ∀ (m : ℚ) (e : ℕ),
      ((normUp |x| 64).bind fun p => normDown p.1 p.2) = some (m, e) →
      |x| = m * (16 : ℚ) ^ ((e : ℤ) - 64) ∧ 1 / 16 ≤ m ∧ m < 1 ∧ e < 128 := by
    intro m e h
    obtain ⟨hxe, hm_lo, hm_le, hm_pos⟩ := norm_spec x m e hx h
    have hm_ne : m ≠ 1 := by
      intro h1
      exact hpow ((e : ℤ) - 64) (by rw [hxe, h1, one_mul])
    have hm_hi : m < 1 := lt_of_le_of_ne hm_le hm_ne
    have he128 : e < 128 := by
      by_contra hc
      push_neg at hc
      have h1 : (16 : ℚ) ^ (63 : ℤ) ≤ (16 : ℚ) ^ ((e : ℤ) - 65) :=
        zpow_le_zpow_right₀ (by norm_num) (by omega)
      have h2 : (16 : ℚ) ^ ((e : ℤ) - 65) ≤ m * (16 : ℚ) ^ ((e : ℤ) - 64) := by
        rw [show (e : ℤ) - 65 = (-1) + ((e : ℤ) - 64) from by ring,
          zpow_add₀ (by norm_num : (16 : ℚ) ≠ 0)]
        rw [show (16 : ℚ) ^ (-1 : ℤ) = 1 / 16 from by norm_num]
        exact mul_le_mul_of_nonneg_right hm_lo (le_of_lt (by positivity))
      rw [← hxe] at h2
      linarith
    exact ⟨hxe, hm_lo, hm_hi, he128⟩
  constructor
  · intro bs hbs
    rw [gds_real_to_bytes_eq, if_pos habs0, Option.map_eq_some'] at hbs
    obtain ⟨⟨m, e⟩, hnorm, rfl⟩ := hbs
    obtain ⟨hxe, hm_lo, hm_hi, he128⟩ := key m e hnorm
    have hmpos : (0 : ℚ) < m := lt_of_lt_of_le (by norm_num) hm_lo
    have hfl_lt : (m * 16 ^ 14).floor < 72057594037927936 := by
      rw [rat_floor_eq, show ((72057594037927936 : ℤ)) = 16 ^ 14 from by norm_num]
      apply Int.floor_lt.mpr
      push_cast
      calc m * 16 ^ 14 < 1 * 16 ^ 14 :=
            mul_lt_mul_of_pos_right hm_hi (by positivity)
        _ = 16 ^ 14 := one_mul _
    have hn_lt : (m * 16 ^ 14).floor.toNat < 256 ^ 7 := by
      rw [show (256 : ℕ) ^ 7 = 72057594037927936 from by norm_num]
      omega
    have he_mod : e % 128 = e := Nat.mod_eq_of_lt he128
    have htail : (beBytes 8 ((m * 16 ^ 14).floor.toNat)).tail
        = beBytes 7 ((m * 16 ^ 14).floor.toNat) := beBytes_tail 7 _
    have hb := c2_bound x m e 14 hm_lo hxe
    rw [show ((14 : ℕ) : ℤ) = 14 from by norm_num] at hb
    rw [show (1 : ℤ) - 14 = -13 from by norm_num] at hb
    by_cases hneg : x < 0
    · rw [if_pos hneg, he_mod, htail, bytes_decode_neg e _ he128 hn_lt]
      exact glue_neg _ _ x hneg hb
    · rw [if_neg hneg, he_mod, htail, bytes_decode_pos e _ he128 hn_lt]
      exact glue_pos _ _ x (not_lt.mp hneg) hb
  · intro bs hbs
    rw [gds_real_32_to_bytes_eq, if_pos habs0, Option.map_eq_some'] at hbs
    obtain ⟨⟨m, e⟩, hnorm, rfl⟩ := hbs
    obtain ⟨hxe, hm_lo, hm_hi, he128⟩ := key m e hnorm
    have hmpos : (0 : ℚ) < m := lt_of_lt_of_le (by norm_num) hm_lo
    have hfl_lt : (m * 16 ^ 6).floor < 16777216 := by
      rw [rat_floor_eq, show ((16777216 : ℤ)) = 16 ^ 6 from by norm_num]
      apply Int.floor_lt.mpr
      push_cast
      calc m * 16 ^ 6 < 1 * 16 ^ 6 :=
            mul_lt_mul_of_pos_right hm_hi (by positivity)
        _ = 16 ^ 6 := one_mul _
    have hn_lt : (m * 16 ^ 6).floor.toNat < 256 ^ 3 := by
      rw [show (256 : ℕ) ^ 3 = 16777216 from by norm_num]
      omega
    have he_mod : e % 128 = e := Nat.mod_eq_of_lt he128
    have htail : (beBytes 4 ((m * 16 ^ 6).floor.toNat)).tail
        = beBytes 3 ((m * 16 ^ 6).floor.toNat) := beBytes_tail 3 _
    have hb := c2_bound x m e 6 hm_lo hxe
    rw [show ((6 : ℕ) : ℤ) = 6 from by norm_num] at hb
    rw [show (1 : ℤ) - 6 = -5 from by norm_num] at hb
    by_cases hneg : x < 0
    · rw [if_pos hneg, he_mod, htail, bytes32_decode_neg e _ he128 hn_lt]
      exact glue_neg _ _ x hneg hb
    · rw [if_neg hneg, he_mod, htail, bytes32_decode_pos e _ he128 hn_lt]
      exact glue_pos _ _ x (not_lt.mp hneg) hb

/-- C2 counterexample to the unamended claim: both codecs encode 1.0 into an
all-zero-mantissa pattern that decodes to 0.0, far outside every precision
budget. -/
theorem c2_counterexample :
    gds_real_to_bytes (1 : ℚ) = some [64, 0, 0, 0, 0, 0, 0, 0] ∧
    bytes_to_gds_real [64, 0, 0, 0, 0, 0, 0, 0] = 0 ∧
    gds_real_32_to_bytes (1 : ℚ) = some [64, 0, 0, 0] ∧
    bytes_to_gds_real32 [64, 0, 0, 0] = 0 ∧
    ¬ |(0 : ℚ) - 1| ≤ |(1 : ℚ)| * (16 : ℚ) ^ (-13 : ℤ) := by
  refine ⟨encode_one_eval, decode_zero_eval, encode32_one_eval, decode32_zero_eval, ?_⟩
  norm_num

/-- C2 witness: at `x = 1/2` the hypotheses hold, the encoder emits a
concrete byte string and the decoded value meets the precision bound. -/
theorem c2_witness :
    gds_real_to_bytes (1 / 2 : ℚ) = some [64, 128, 0, 0, 0, 0, 0, 0] ∧
    |bytes_to_gds_real [64, 128, 0, 0, 0, 0, 0, 0] - 1 / 2|
      ≤ |(1 / 2 : ℚ)| * (16 : ℚ) ^ (-13 : ℤ) := by
  have habs : |(1 / 2 : ℚ)| = 1 / 2 := by norm_num
  have hpow : ∀ k : ℤ, |(1 / 2 : ℚ)| ≠ (16 : ℚ) ^ k := by
    intro k
    rw [habs]
    rcases le_or_lt 0 k with hk | hk
    · have h1 : (16 : ℚ) ^ (0 : ℤ) ≤ 16 ^ k := zpow_le_zpow_right₀ (by norm_num) hk
      rw [zpow_zero] at h1
      intro heq
      rw [← heq] at h1
      norm_num at h1
    · have h1 : (16 : ℚ) ^ k ≤ 16 ^ (-1 : ℤ) := zpow_le_zpow_right₀ (by norm_num) (by omega)
      rw [show (16 : ℚ) ^ (-1 : ℤ) = 1 / 16 from by norm_num] at h1
      intro heq
      rw [← heq] at h1
      norm_num at h1
  have hbig : |(1 / 2 : ℚ)| < (16 : ℚ) ^ (63 : ℤ) := by
    rw [habs]
    have h1 : (16 : ℚ) ^ (0 : ℤ) ≤ 16 ^ (63 : ℤ) := zpow_le_zpow_right₀ (by norm_num) (by omega)
    rw [zpow_zero] at h1
    linarith
  exact ⟨encode_half_eval,
    (c2_real_roundtrip (1 / 2) (by norm_num) hpow hbig).1 _ encode_half_eval⟩

end Gds
